import Mathlib

/-! VidTube backend: engagement and social-graph engine.

A shallow embedding of the like and subscription controllers
(`src/controllers/like.controller.js`, `src/controllers/subscription.controller.js`),
of the likes schema (`src/models/like.models.js`) and of the socket handle
(`src/socket.js`), followed by theorems about them.

Collections are lists of documents in insertion order.  A handler is a function
from the request and the store to the new store and the outcome of the request.
-/

namespace VidTube

/-! ## Object ids -/

/-- A MongoDB ObjectId, as the number its 24 hexadecimal digits denote. -/
abbrev ObjectId := Nat

/-- Value of one hexadecimal digit, in either case. -/
def hexVal (c : Char) : Option Nat :=
  if 48 ≤ c.toNat ∧ c.toNat ≤ 57 then some (c.toNat - 48)
  else if 97 ≤ c.toNat ∧ c.toNat ≤ 102 then some (c.toNat - 87)
  else if 65 ≤ c.toNat ∧ c.toNat ≤ 70 then some (c.toNat - 55)
  else none

/-- The lower-case hexadecimal digit of a value below 16. -/
def hexDigit (n : Nat) : Char :=
  if n < 10 then Char.ofNat (48 + n) else Char.ofNat (87 + n)

/-- The check `isValidObjectId` of mongoose on a route parameter, which is a string:
24 characters, each matching `[0-9a-fA-F]` (the rule of `ObjectId.isValid` for
strings; releases of the driver before version 6 also let any string of 12
characters pass). -/
def isValidObjectId (s : String) : Bool :=
  s.data.length == 24 && s.data.all (fun c => (hexVal c).isSome)

/-- Number denoted by a list of hexadecimal digits, most significant first. -/
def hexToNat (cs : List Char) : Nat :=
  cs.foldl (fun acc c => 16 * acc + (hexVal c).getD 0) 0

/-- The string form `ObjectId.prototype.toString`: 24 lower-case hexadecimal digits. -/
def toHexString (o : ObjectId) : String :=
  String.mk ((List.range 24).reverse.map (fun i => hexDigit (o / 16 ^ i % 16)))

/-- A value handed to a mongoose query or constructor: a string taken from the
request, or an ObjectId taken from a loaded document. -/
inductive Value where
  | str (s : String)
  | oid (o : ObjectId)
deriving DecidableEq, Repr

/-- Cast of a value to the ObjectId type of a schema path.  Every caller in the
controllers reaches the cast only behind `isValidObjectId`. -/
def castObjectId : Value → ObjectId
  | .str s => hexToNat s.data
  | .oid o => o

/-! ## Documents, schemas and the model operations of mongoose -/

/-- A stored document of the likes or subscriptions collection: its `_id` and the
reference paths it holds.  Timestamps are left out. -/
structure Doc where
  id : ObjectId
  fields : List (String × ObjectId)
deriving DecidableEq, Repr

/-- Value stored under a path, if the document has the path. -/
def Doc.get (d : Doc) (k : String) : Option ObjectId :=
  d.fields.lookup k

/-- A mongoose schema, as the list of the paths it declares (all of type ObjectId). -/
structure Schema where
  paths : List String
deriving DecidableEq, Repr

/-- The paths of `likesSchema` in `models/like.models.js`: the video reference is
declared as `videos`. -/
def likesSchema : Schema := ⟨["videos", "comment", "tweet", "likedBy"]⟩

/-- Modelled from the spec: `models/subscription.models.js` is missing; a
Subscription relation links an actor (`subscriber`) to a target (`channel`), the
two paths the subscription controller reads and writes. -/
def subscriptionSchema : Schema := ⟨["subscriber", "channel"]⟩

/-- Settings of the mongoose connection.  `strictQuery` decides what a query does
with a filter path the schema does not declare: the path is removed from the
filter when it is on (the default of mongoose 6), and sent to the database as
it is when it is off (the default from mongoose 7 on). -/
structure Config where
  strictQuery : Bool
deriving DecidableEq, Repr

/-- An `_id` for a new document, different from every `_id` of the collection. -/
def freshId (coll : List Doc) : ObjectId :=
  (coll.map Doc.id).foldr max 0 + 1

/-- The document mongoose builds from an object under the default strict mode:
paths the schema does not declare are dropped, the others are cast. -/
def Schema.castDoc (sch : Schema) (obj : List (String × Value)) : List (String × ObjectId) :=
  obj.filterMap (fun kv => if kv.1 ∈ sch.paths then some (kv.1, castObjectId kv.2) else none)

/-- The call `Model.create(obj)`: the stored document and the collection with it. -/
def Model.create (sch : Schema) (obj : List (String × Value)) (coll : List Doc) : Doc × List Doc :=
  let d : Doc := ⟨freshId coll, sch.castDoc obj⟩
  (d, coll ++ [d])

/-- Whether a document satisfies one `path: value` entry of a filter.  A declared
path is cast and compared.  An undeclared path is removed under `strictQuery`;
otherwise it is compared as sent, and a string never equals a stored ObjectId. -/
def matchesEntry (cfg : Config) (sch : Schema) (d : Doc) (kv : String × Value) : Bool :=
  if kv.1 ∈ sch.paths then d.get kv.1 == some (castObjectId kv.2)
  else if cfg.strictQuery then true
  else
    match kv.2 with
    | .oid o => d.get kv.1 == some o
    | .str _ => false

/-- Whether a document satisfies every entry of a filter. -/
def matchesFilter (cfg : Config) (sch : Schema) (filter : List (String × Value)) (d : Doc) : Bool :=
  filter.all (matchesEntry cfg sch d)

/-- The call `Model.findOne(filter)`: the first document that satisfies the filter. -/
def Model.findOne (cfg : Config) (sch : Schema) (filter : List (String × Value))
    (coll : List Doc) : Option Doc :=
  coll.find? (matchesFilter cfg sch filter)

/-- The call `Model.findByIdAndDelete(id)`: the collection without the first
document that has this `_id`. -/
def Model.findByIdAndDelete (id : ObjectId) (coll : List Doc) : List Doc :=
  coll.eraseP (fun d => d.id == id)

/-! ## The store -/

/-- A user record, with the profile fields the controllers read. -/
structure User where
  id : ObjectId
  username : String
  fullname : String
  avatar : String
deriving DecidableEq, Repr

/-- A video record, with the fields the controllers read. -/
structure VideoDoc where
  id : ObjectId
  owner : ObjectId
  title : String
  description : String
  views : Nat
  duration : Nat
  isPublished : Bool
  createdAt : Nat
deriving DecidableEq, Repr

/-- A comment record (`models/comment.models.js`). -/
structure CommentDoc where
  id : ObjectId
  content : String
  video : ObjectId
  owner : ObjectId
deriving DecidableEq, Repr

/-- A tweet record. -/
structure TweetDoc where
  id : ObjectId
  content : String
  owner : ObjectId
deriving DecidableEq, Repr

/-- The database: the relation ledger (likes and subscriptions) and the content
collections. -/
structure Store where
  likes : List Doc
  subscriptions : List Doc
  users : List User
  videos : List VideoDoc
  comments : List CommentDoc
  tweets : List TweetDoc
deriving DecidableEq, Repr

/-- The database with no document. -/
def Store.empty : Store := ⟨[], [], [], [], [], []⟩

/-! ## Outcome of a request -/

/-- The data of a toggle response: `{ isLiked: b }` or `{ subscribed: b }`. -/
structure Flag where
  key : String
  value : Bool
deriving DecidableEq, Repr

/-- How a handler ends: `res.status(s).json(new ApiResponse(s, data, message))`,
`throw new ApiError(statusCode, message)`, or another exception leaving the
handler. -/
inductive Outcome (α : Type) where
  | json (status : Nat) (data : α) (message : String)
  | apiError (statusCode : Nat) (message : String)
  | exception (message : String)
deriving DecidableEq, Repr

/-- Whether a request ended with a not-found error, `ApiError` with status 404. -/
def Outcome.isNotFound {α : Type} : Outcome α → Bool
  | .apiError statusCode _ => statusCode == 404
  | _ => false

/-! ## Like controller -/

/-- The handler `toggleVideoLike` of `like.controller.js`, for the authenticated
user `user` and the route parameter `videoId`. -/
def toggleVideoLike (cfg : Config) (user : ObjectId) (videoId : String) (s : Store) :
    Store × Outcome Flag :=
  if !isValidObjectId videoId then
    (s, .apiError 400 "Invalid Video Id")
  else
    match Model.findOne cfg likesSchema [("video", .str videoId), ("likedBy", .oid user)] s.likes with
    | some likedAlready =>
      ({ s with likes := Model.findByIdAndDelete likedAlready.id s.likes },
        .json 200 ⟨"isLiked", false⟩ "Removed like from video")
    | none =>
      ({ s with likes := (Model.create likesSchema
            [("video", .str videoId), ("likedBy", .oid user)] s.likes).2 },
        .json 200 ⟨"isLiked", true⟩ "Liked the video successfully")

/-- The handler `toggleCommentLike` of `like.controller.js`. -/
def toggleCommentLike (cfg : Config) (user : ObjectId) (commentId : String) (s : Store) :
    Store × Outcome Flag :=
  if !isValidObjectId commentId then
    (s, .apiError 400 "Comment ID is required")
  else
    match Model.findOne cfg likesSchema [("comment", .str commentId), ("likedBy", .oid user)] s.likes with
    | some existingLike =>
      ({ s with likes := Model.findByIdAndDelete existingLike.id s.likes },
        .json 200 ⟨"isLiked", false⟩ "Removed like from comment")
    | none =>
      ({ s with likes := (Model.create likesSchema
            [("comment", .str commentId), ("likedBy", .oid user)] s.likes).2 },
        .json 200 ⟨"isLiked", true⟩ "comment Liked successfully")

/-- The handler `toggleTweetLike` of `like.controller.js`. -/
def toggleTweetLike (cfg : Config) (user : ObjectId) (tweetId : String) (s : Store) :
    Store × Outcome Flag :=
  if !isValidObjectId tweetId then
    (s, .apiError 400 "Invalid Tweet ID")
  else
    match Model.findOne cfg likesSchema [("tweet", .str tweetId), ("likedBy", .oid user)] s.likes with
    | some existingLike =>
      ({ s with likes := Model.findByIdAndDelete existingLike.id s.likes },
        .json 200 ⟨"isLiked", false⟩ "Tweet unlike successfully")
    | none =>
      ({ s with likes := (Model.create likesSchema
            [("tweet", .str tweetId), ("likedBy", .oid user)] s.likes).2 },
        .json 200 ⟨"isLiked", true⟩ "Tweet Liked successfully")

/-! ## Notification hub and subscription controller -/

/-- A field of the notification payload: a string, an ObjectId, or a nested
object of such values. -/
inductive PayloadValue where
  | str (s : String)
  | oid (o : ObjectId)
  | obj (fields : List (String × Value))
deriving DecidableEq, Repr

/-- One call `io.to(room).emit(event, payload)`. -/
structure Emit where
  room : String
  event : String
  payload : List (String × PayloadValue)
deriving DecidableEq, Repr

/-- The socket.io server behind the exported handle `io` of `socket.js`, as the
controllers see it: what a call of `emit` does, return (`none`) or raise an
exception with a message. -/
structure Hub where
  emit : Emit → Option String

/-- The handler `toggleSubscription` of `subscription.controller.js`, for the
authenticated user `user`, the route parameter `channelId` and the handle `io`
(`none` before `initializeSocket` has run).  The second component lists the
events the handler emitted: the calls of `emit` that returned. -/
def toggleSubscription (cfg : Config) (io : Option Hub) (user : User) (channelId : String)
    (s : Store) : Store × List Emit × Outcome Flag :=
  if !isValidObjectId channelId then
    (s, [], .apiError 400 "Invalid Channel ID")
  else if channelId == toHexString user.id then
    (s, [], .apiError 400 "You cannot subscribe to your own channel")
  else
    match Model.findOne cfg subscriptionSchema
        [("subscriber", .oid user.id), ("channel", .str channelId)] s.subscriptions with
    | some subscriptionInstance =>
      ({ s with subscriptions := Model.findByIdAndDelete subscriptionInstance.id s.subscriptions },
        [], .json 200 ⟨"subscribed", false⟩ "Unsubscribed successfully")
    | none =>
      let s1 : Store := { s with subscriptions := (Model.create subscriptionSchema
            [("subscriber", .oid user.id), ("channel", .str channelId)] s.subscriptions).2 }
      match io with
      | some hub =>
        let notificationPayload : List (String × PayloadValue) :=
          [("type", .str "SUBSCRIPTION"),
           ("message", .str (user.username ++ " subscribed to your channel!")),
           ("sender", .obj [("_id", .oid user.id), ("username", .str user.username),
              ("avatar", .str user.avatar)])]
        let call : Emit := ⟨channelId, "notification_received", notificationPayload⟩
        match hub.emit call with
        | some err => (s1, [], .exception err)
        | none => (s1, [call], .json 200 ⟨"subscribed", true⟩ "Subscribed successfully")
      | none => (s1, [], .json 200 ⟨"subscribed", true⟩ "Subscribed successfully")

/-! ## Relations of the ledger -/

/-- The four kinds of relation. -/
inductive Kind where
  | LikeVideo
  | LikeComment
  | LikeTweet
  | Subscription
deriving DecidableEq, Repr

/-- Whether a document records the relation `(actor, target, kind)`.  A video like
is recognised under the path the controllers use (`video`) and under the path
the schema declares (`videos`). -/
def isRelation (kind : Kind) (actor target : ObjectId) (d : Doc) : Bool :=
  match kind with
  | .LikeVideo =>
    (d.get "video" == some target || d.get "videos" == some target) && d.get "likedBy" == some actor
  | .LikeComment => d.get "comment" == some target && d.get "likedBy" == some actor
  | .LikeTweet => d.get "tweet" == some target && d.get "likedBy" == some actor
  | .Subscription => d.get "channel" == some target && d.get "subscriber" == some actor

/-- The collection that holds the relations of a kind. -/
def Store.ledger (s : Store) : Kind → List Doc
  | .Subscription => s.subscriptions
  | _ => s.likes

/-- Number of documents that record the relation `(actor, target, kind)`. -/
def relationCount (s : Store) (kind : Kind) (actor target : ObjectId) : Nat :=
  (s.ledger kind).countP (isRelation kind actor target)

/-- Whether the ledger holds a relation `(actor, target, kind)`. -/
def hasRelation (s : Store) (kind : Kind) (actor target : ObjectId) : Bool :=
  (s.ledger kind).any (isRelation kind actor target)

/-! ## Sequences of calls and interleaved calls -/

/-- One toggle request. -/
inductive ToggleCall where
  | videoLike (user : ObjectId) (videoId : String)
  | commentLike (user : ObjectId) (commentId : String)
  | tweetLike (user : ObjectId) (tweetId : String)
  | subscription (io : Option Hub) (user : User) (channelId : String)

/-- The store after one toggle request. -/
def ToggleCall.run (cfg : Config) (s : Store) : ToggleCall → Store
  | .videoLike user videoId => (toggleVideoLike cfg user videoId s).1
  | .commentLike user commentId => (toggleCommentLike cfg user commentId s).1
  | .tweetLike user tweetId => (toggleTweetLike cfg user tweetId s).1
  | .subscription io user channelId => (toggleSubscription cfg io user channelId s).1

/-- The store after a sequence of toggle requests, each one finished before the
next one starts. -/
def runCalls (cfg : Config) (calls : List ToggleCall) (s : Store) : Store :=
  calls.foldl (ToggleCall.run cfg) s

/-- Progress of one call of `toggleCommentLike` with a valid id: before its
`findOne`, between the `findOne` and the write, or finished with its flag. -/
inductive Phase where
  | start
  | found (existingLike : Option Doc)
  | done (isLiked : Bool)
deriving DecidableEq, Repr

/-- The next database step of a call of `toggleCommentLike`: the `findOne`, then
`findByIdAndDelete` of the document found or `create`. -/
def stepCommentLike (cfg : Config) (user : ObjectId) (commentId : String) (s : Store) :
    Phase → Store × Phase
  | .start =>
    (s, .found (Model.findOne cfg likesSchema
      [("comment", .str commentId), ("likedBy", .oid user)] s.likes))
  | .found (some existingLike) =>
    ({ s with likes := Model.findByIdAndDelete existingLike.id s.likes }, .done false)
  | .found none =>
    ({ s with likes := (Model.create likesSchema
        [("comment", .str commentId), ("likedBy", .oid user)] s.likes).2 }, .done true)
  | .done b => (s, .done b)

/-- Runs concurrent calls of `toggleCommentLike` by one user on one comment under a
schedule: each entry of the schedule names the call that takes its next step. -/
def runSchedule (cfg : Config) (user : ObjectId) (commentId : String) :
    List Nat → Store × List Phase → Store × List Phase
  | [], st => st
  | i :: rest, (s, phases) =>
    match phases.get? i with
    | none => runSchedule cfg user commentId rest (s, phases)
    | some ph =>
      runSchedule cfg user commentId rest
        ((stepCommentLike cfg user commentId s ph).1,
          phases.set i (stepCommentLike cfg user commentId s ph).2)

/-- A schedule is an interleaving of `n` calls when it names only these calls and
gives each of them its two steps. -/
def isInterleaving (n : Nat) (sched : List Nat) : Bool :=
  sched.all (fun i => decide (i < n)) && (List.range n).all (fun i => sched.count i == 2)

/-- The store after `n` concurrent calls of `toggleCommentLike` run under a schedule. -/
def concurrentCommentLikes (cfg : Config) (user : ObjectId) (commentId : String) (n : Nat)
    (sched : List Nat) (s : Store) : Store :=
  (runSchedule cfg user commentId sched (s, List.replicate n Phase.start)).1

/-- The store after `n` calls of a handler, one after the other. -/
def repeatCall (f : Store → Store) : Nat → Store → Store
  | 0, s => s
  | n + 1, s => repeatCall f n (f s)

/-- The toggle of a collection that the four handlers share: `findOne`, then
`findByIdAndDelete` of the document found, or `create`. -/
def toggleColl (cfg : Config) (sch : Schema) (obj : List (String × Value)) (coll : List Doc) :
    List Doc :=
  match Model.findOne cfg sch obj coll with
  | some existing => Model.findByIdAndDelete existing.id coll
  | none => (Model.create sch obj coll).2

/-- The toggle invariant of a store: no tuple has more than one relation. -/
def AtMostOne (s : Store) : Prop :=
  ∀ (k : Kind) (a t : ObjectId), relationCount s k a t ≤ 1

/-! ## The socket.io server of socket.js -/

/-- A connected socket: its id and the rooms it is in. -/
structure Socket where
  id : String
  rooms : List String
deriving DecidableEq, Repr

/-- The server `io` that `initializeSocket` creates, as the sockets connected to it. -/
structure SocketServer where
  sockets : List Socket
deriving DecidableEq, Repr

/-- The call `initializeSocket(server)`: a new server with no connection.  Its only
handler, for the `connection` event, logs the id of the socket. -/
def initializeSocket : SocketServer := ⟨[]⟩

/-- A client connects and presents `recipient` as its identity.  socket.io puts the
new socket in the room named by the id of the socket; the `connection` handler
of `socket.js` logs that id, joins no room and does not read the identity. -/
def SocketServer.connect (io : SocketServer) (socketId : String) (_recipient : String) :
    SocketServer :=
  ⟨io.sockets ++ [⟨socketId, [socketId]⟩]⟩

/-- A socket disconnects: socket.io removes it from the server and from its rooms. -/
def SocketServer.disconnect (io : SocketServer) (socketId : String) : SocketServer :=
  ⟨io.sockets.filter (fun sk => sk.id != socketId)⟩

/-- Modelled from the spec: the broadcast of the socket.io server is not among the
sources.  The call `io.to(room).emit(event, payload)` hands the event to every
socket that is in the room, to each once, keeps nothing and returns: the result
is the server as it was and the deliveries made, as pairs of socket id and
event. -/
def SocketServer.emit (io : SocketServer) (e : Emit) : SocketServer × List (String × Emit) :=
  (io, (io.sockets.filter (fun sk => sk.rooms.contains e.room)).map (fun sk => (sk.id, e)))

/-- The handle `io` as the subscription controller uses it: its `emit` returns. -/
def SocketServer.hub (_io : SocketServer) : Hub := ⟨fun _ => none⟩

/-! ## Dashboard controller: channel statistics -/

/-- The document `stats[0]` that `getChannelStats` returns: the projected profile
fields and the four totals. -/
structure ChannelStats where
  id : ObjectId
  username : String
  fullname : String
  avatar : String
  totalSubscribers : Nat
  totalVideos : Nat
  totalViews : Nat
  totalLikes : Nat
deriving DecidableEq, Repr

/-- The handler `getChannelStats` of `dashboard.controller.js`, for the `_id` of
`req.user` (`none` when the request carries no user).  The aggregation matches
the user, looks up the subscriptions whose `channel` is the user and the videos
whose `owner` is the user, each video with the likes whose `video` is the
video, and adds the totals. -/
def getChannelStats (userId : Option ObjectId) (s : Store) : Outcome ChannelStats :=
  match userId with
  | none => .apiError 401 "User not authenticated"
  | some userId =>
    let stats : List ChannelStats :=
      (s.users.filter (fun u => u.id == userId)).map (fun u =>
        let subscribers := s.subscriptions.filter (fun d => d.get "channel" == some u.id)
        let videos := (s.videos.filter (fun v => v.owner == u.id)).map (fun v =>
          (v, (s.likes.filter (fun d => d.get "video" == some v.id)).length))
        { id := u.id, username := u.username, fullname := u.fullname, avatar := u.avatar,
          totalSubscribers := subscribers.length,
          totalVideos := videos.length,
          totalViews := (videos.map (fun vl => vl.1.views)).sum,
          totalLikes := (videos.map (fun vl => vl.2)).sum })
    match stats with
    | [] => .apiError 500 "Stats could not be calculated"
    | first :: _ => .json 200 first "Channel stats fetched successfully"

/-! ## Like controller: liked videos -/

/-- The profile fields a lookup of the users collection projects. -/
structure OwnerProfile where
  id : ObjectId
  fullname : String
  username : String
  avatar : String
deriving DecidableEq, Repr

/-- The projection of a user record to the profile fields. -/
def User.profile (u : User) : OwnerProfile := ⟨u.id, u.fullname, u.username, u.avatar⟩

/-- A video of the liked-videos list: the video record, its `owner` replaced by the
first profile the lookup found (absent when it found none). -/
structure LikedVideo where
  video : VideoDoc
  owner : Option OwnerProfile
deriving DecidableEq, Repr

/-- An entry of the liked-videos list: the `_id` of the like and the video. -/
structure LikedEntry where
  id : ObjectId
  video : LikedVideo
deriving DecidableEq, Repr

/-- The nested lookup of `getLikedVideos` for one like: the videos whose `_id` is
the `video` of the like, each with the first profile of its owner. -/
def lookupLikedVideo (s : Store) (d : Doc) : List LikedVideo :=
  (s.videos.filter (fun v => some v.id == d.get "video")).map (fun v =>
    ⟨v, ((s.users.filter (fun u => u.id == v.owner)).map User.profile).head?⟩)

/-- The handler `getLikedVideos` of `like.controller.js` for the authenticated user:
the likes whose `likedBy` is the user and that have a `video`, each joined with
the first video the lookup found, those where it found none left out.  The
handler writes nothing. -/
def getLikedVideos (user : ObjectId) (s : Store) : Store × Outcome (List LikedEntry) :=
  let matched := s.likes.filter (fun d => d.get "likedBy" == some user && (d.get "video").isSome)
  let looked := matched.map (fun d => (d, (lookupLikedVideo s d).head?))
  let kept := looked.filterMap (fun dv => dv.2.map (fun v => (⟨dv.1.id, v⟩ : LikedEntry)))
  (s, .json 200 kept "Liked videos fetched successfully")

/-! ## Video controller: the public listing -/

/-- The query string of a listing request, each parameter as sent (a string) or not
sent. -/
structure ListQuery where
  page : Option String
  limit : Option String
  query : Option String
  sortBy : Option String
  sortType : Option String
  userId : Option String
deriving DecidableEq, Repr

/-- White space that `parseInt` skips at the start of its argument. -/
def isJsWhitespace (c : Char) : Bool :=
  [9, 10, 11, 12, 13, 32, 160, 5760, 8232, 8233, 8239, 8287, 12288, 65279].contains c.toNat
    || (8192 ≤ c.toNat && c.toNat ≤ 8202)

/-- Value of a digit in a radix of at most 16. -/
def digitValue (radix : Nat) (c : Char) : Option Nat :=
  match hexVal c with
  | some d => if d < radix then some d else none
  | none => none

/-- Number denoted by the longest prefix of digits, `none` when there is no digit. -/
def parseDigits (radix : Nat) (cs : List Char) : Option Nat :=
  match cs.takeWhile (fun c => (digitValue radix c).isSome) with
  | [] => none
  | ds => some (ds.foldl (fun acc c => radix * acc + (digitValue radix c).getD 0) 0)

/-- The prefix `0x` or `0X` removed, and whether it was there. -/
def stripHexPrefix (cs : List Char) : Bool × List Char :=
  match cs with
  | z :: x :: rest =>
    if z.toNat == 48 && (x.toNat == 120 || x.toNat == 88) then (true, rest) else (false, cs)
  | _ => (false, cs)

/-- The digits of `parseInt` read after the sign: in radix 16 behind a prefix `0x`,
in radix 10 otherwise. -/
def parseUnsigned (cs : List Char) : Option Nat :=
  if (stripHexPrefix cs).1 then parseDigits 16 (stripHexPrefix cs).2 else parseDigits 10 cs

/-- A number of JavaScript as the handlers compute it: a double whose value is an
integer, an infinity, or `NaN`.  The two zeros are one value here; the database
reads both as zero. -/
inductive JsNumber where
  | nan
  | finite (n : Int)
  | infinity (negative : Bool)
deriving DecidableEq, Repr

/-- Number of halvings that bring `m` below 2^53, the width of the significand of a
double, counted up to `fuel`. -/
def shiftFor : Nat → Nat → Nat
  | 0, _ => 0
  | fuel + 1, m => if m < 2 ^ 53 then 0 else 1 + shiftFor fuel (m / 2)

/-- The significand of the double nearest to an integer of magnitude `m` that has
`k` bits more than a significand holds: the bits that stay, plus one when the
bits that go are more than half a unit, or half a unit with an odd bit before
them. -/
def significandOf (m k : Nat) : Nat :=
  let q := m / 2 ^ k
  let r := m % 2 ^ k
  if 2 ^ (k - 1) < r ∨ (r = 2 ^ (k - 1) ∧ q % 2 = 1) then q + 1 else q

/-- The magnitude of the double nearest to an integer of magnitude `m`, a tie going
to the even significand; `none` when it is beyond the largest double,
`(2^53 - 1) * 2^971`. -/
def roundMagnitude (m : Nat) : Option Nat :=
  if m < 2 ^ 53 then some m
  else if 971 < shiftFor 1100 m ∨
      (shiftFor 1100 m = 971 ∧ 2 ^ 53 ≤ significandOf m (shiftFor 1100 m)) then none
  else some (significandOf m (shiftFor 1100 m) * 2 ^ shiftFor 1100 m)

/-- The double nearest to an integer.  An integer below 2^53 in magnitude is a
double; one beyond the largest double becomes an infinity. -/
def roundToDouble (n : Int) : JsNumber :=
  match roundMagnitude n.natAbs with
  | none => .infinity (decide (n < 0))
  | some r => .finite (if n < 0 then -(r : Int) else (r : Int))

/-- The difference `x - c` of JavaScript for an integer `c`. -/
def JsNumber.sub (x : JsNumber) (c : Int) : JsNumber :=
  match x with
  | .nan => .nan
  | .finite n => roundToDouble (n - c)
  | .infinity negative => .infinity negative

/-- The product `x * y` of JavaScript. -/
def JsNumber.mul (x y : JsNumber) : JsNumber :=
  match x, y with
  | .nan, _ => .nan
  | .finite _, .nan => .nan
  | .infinity _, .nan => .nan
  | .finite a, .finite b => roundToDouble (a * b)
  | .finite a, .infinity t => if a = 0 then .nan else .infinity (decide (a < 0) != t)
  | .infinity s, .finite b => if b = 0 then .nan else .infinity (s != decide (b < 0))
  | .infinity s, .infinity t => .infinity (s != t)

/-- The number that `parseInt` returns for a sign and the digits read behind it:
`NaN` when there is no digit, else the double nearest to the integer. -/
def signedNumber (negative : Bool) (digits : Option Nat) : JsNumber :=
  match digits with
  | none => .nan
  | some n => roundToDouble (if negative then -(n : Int) else (n : Int))

/-- The function `parseInt` of JavaScript called with one argument: leading white
space, a sign, then the digits.  The result is a double: an integer of more
than 53 significant bits is rounded. -/
def parseInt (s : String) : JsNumber :=
  match s.data.dropWhile isJsWhitespace with
  | [] => .nan
  | c :: rest =>
    if c.toNat == 45 then signedNumber true (parseUnsigned rest)
    else if c.toNat == 43 then signedNumber false (parseUnsigned rest)
    else signedNumber false (parseUnsigned (c :: rest))

/-- What a regular-expression engine does with a pattern and its options: reject
the pattern, or give the test that tells whether a string has a match. -/
abbrev RegexEngine := String → String → Except String (String → Bool)

/-- A stage of the aggregation pipeline that `getAllVideos` builds over the videos
collection. -/
inductive Stage where
  | matchText (pattern : String) (options : String)
  | matchOwner (owner : ObjectId)
  | matchPublished (flag : Bool)
  | sort (field : String) (direction : Int)
  | skip (n : JsNumber)
  | limit (n : JsNumber)
deriving DecidableEq, Repr

/-- A value a sort compares. -/
inductive SortVal where
  | null
  | num (n : Nat)
  | str (s : String)
  | oid (o : ObjectId)
  | bool (b : Bool)
  | date (t : Nat)
deriving DecidableEq, Repr

/-- Position of the type of a value in the comparison order of the database. -/
def SortVal.rank : SortVal → Nat
  | .null => 0
  | .num _ => 1
  | .str _ => 2
  | .oid _ => 3
  | .bool _ => 4
  | .date _ => 5

/-- The comparison order of the database: by type, then by value. -/
def SortVal.le : SortVal → SortVal → Bool
  | .num a, .num b => decide (a ≤ b)
  | .str a, .str b => decide (a.data ≤ b.data)
  | .oid a, .oid b => decide (a ≤ b)
  | .bool a, .bool b => !a || b
  | .date a, .date b => decide (a ≤ b)
  | a, b => decide (a.rank ≤ b.rank)

/-- The value of a video under a sort path.  A path that names none of the fields
of the record has no value. -/
def fieldValue (field : String) (v : VideoDoc) : SortVal :=
  if field == "_id" then .oid v.id
  else if field == "owner" then .oid v.owner
  else if field == "title" then .str v.title
  else if field == "description" then .str v.description
  else if field == "views" then .num v.views
  else if field == "duration" then .num v.duration
  else if field == "isPublished" then .bool v.isPublished
  else if field == "createdAt" then .date v.createdAt
  else .null

/-- Whether `a` may come before `b` in a sort by a path: by the values in ascending
order for direction 1, in descending order otherwise. -/
def sortBefore (field : String) (direction : Int) (a b : VideoDoc) : Bool :=
  if direction == 1 then (fieldValue field a).le (fieldValue field b)
  else (fieldValue field b).le (fieldValue field a)

/-- The stage `$sort` on one path.  Rows with equal values keep the order in which
they arrive. -/
def sortRows (field : String) (direction : Int) (rows : List VideoDoc) : List VideoDoc :=
  rows.insertionSort (fun a b => sortBefore field direction a b = true)

/-- The count that the stage `$skip` reads from its argument.  The database takes
a number that is a 64-bit integer of value 0 or more, and rejects every other:
`NaN`, an infinity, a negative number, a number of 2^63 or more. -/
def skipCount : JsNumber → Except String Nat
  | .finite n =>
    if n < 0 ∨ 2 ^ 63 ≤ n then .error "invalid argument to $skip" else .ok n.toNat
  | .nan => .error "invalid argument to $skip"
  | .infinity _ => .error "invalid argument to $skip"

/-- The count that the stage `$limit` reads from its argument: a 64-bit integer of
value 1 or more. -/
def limitCount : JsNumber → Except String Nat
  | .finite n =>
    if n ≤ 0 then .error "the limit must be positive"
    else if 2 ^ 63 ≤ n then .error "invalid argument to $limit"
    else .ok n.toNat
  | .nan => .error "invalid argument to $limit"
  | .infinity _ => .error "invalid argument to $limit"

/-- One stage run on the rows that reach it.  The database rejects a pattern the
engine rejects, a sort path that is empty or starts with `$`, a `$skip` that is
no 64-bit integer of value 0 or more, and a `$limit` that is no 64-bit integer
of value 1 or more. -/
def runStage (regex : RegexEngine) (stage : Stage) (rows : List VideoDoc) :
    Except String (List VideoDoc) :=
  match stage with
  | .matchText pattern options =>
    match regex pattern options with
    | .error e => .error e
    | .ok hasMatch => .ok (rows.filter (fun v => hasMatch v.title || hasMatch v.description))
  | .matchOwner owner => .ok (rows.filter (fun v => v.owner == owner))
  | .matchPublished flag => .ok (rows.filter (fun v => v.isPublished == flag))
  | .sort field direction =>
    if field.data.head?.all (fun c => c.toNat == 36) then .error "invalid sort path"
    else .ok (sortRows field direction rows)
  | .skip n =>
    match skipCount n with
    | .error e => .error e
    | .ok count => .ok (rows.drop count)
  | .limit n =>
    match limitCount n with
    | .error e => .error e
    | .ok count => .ok (rows.take count)

/-- The call `Video.aggregate(pipeline)` for a pipeline of such stages. -/
def aggregate (regex : RegexEngine) : List Stage → List VideoDoc → Except String (List VideoDoc)
  | [], rows => .ok rows
  | stage :: rest, rows =>
    match runStage regex stage rows with
    | .error e => .error e
    | .ok out => aggregate regex rest out

/-- An entry of a listing: the video with its `owner` replaced by the profile of the
owner. -/
structure FeedEntry where
  video : VideoDoc
  owner : OwnerProfile
deriving DecidableEq, Repr

/-- The last two stages of the listing: the lookup of the owner in the users
collection and the `$unwind` of its result, which yields one entry for each
profile found and none for a video whose owner has no record. -/
def joinOwner (users : List User) (rows : List VideoDoc) : List FeedEntry :=
  (rows.map (fun v => (users.filter (fun u => u.id == v.owner)).map (fun u =>
    (⟨v, u.profile⟩ : FeedEntry)))).flatten

/-- The stages of `getAllVideos` that select and order the videos: the text match
when `query` is not empty, the owner match when `userId` is not empty, the
published match and the sort.  `new mongoose.Types.ObjectId(userId)` raises for
a string that is no ObjectId. -/
def listingStages (q : ListQuery) : Except String (List Stage) :=
  let text : List Stage :=
    match q.query with
    | some query => if query != "" then [.matchText query "i"] else []
    | none => []
  let owner : Except String (List Stage) :=
    match q.userId with
    | some userId =>
      if userId != "" then
        if isValidObjectId userId then .ok [.matchOwner (castObjectId (.str userId))]
        else .error "input must be a 24 character hex string"
      else .ok []
    | none => .ok []
  match owner with
  | .error e => .error e
  | .ok ownerStages =>
    .ok (text ++ ownerStages ++ [.matchPublished true,
      .sort (q.sortBy.getD "createdAt") (if q.sortType.getD "desc" == "asc" then 1 else -1)])

/-- The filtered and sorted sequence of the videos that match a request. -/
def matchingVideos (regex : RegexEngine) (q : ListQuery) (s : Store) :
    Except String (List VideoDoc) :=
  match listingStages q with
  | .error e => .error e
  | .ok stages => aggregate regex stages s.videos

/-- The rows that reach the `$sort` stage of the listing, which is the last of the
stages that select and order: the stored videos that pass the filters of the
request, in the order in which the collection yields them. -/
def filteredVideos (regex : RegexEngine) (q : ListQuery) (s : Store) :
    Except String (List VideoDoc) :=
  match listingStages q with
  | .error e => .error e
  | .ok stages => aggregate regex stages.dropLast s.videos

/-- The value of `skip` in `getAllVideos`: `(parseInt(page) - 1) * parseInt(limit)`
in the arithmetic of doubles, with 1 and 10 for a parameter that was not
sent. -/
def skipOf (q : ListQuery) : JsNumber :=
  ((parseInt (q.page.getD "1")).sub 1).mul (parseInt (q.limit.getD "10"))

/-- The handler `getAllVideos` of `video.controller.js`. -/
def getAllVideos (regex : RegexEngine) (q : ListQuery) (s : Store) : Outcome (List FeedEntry) :=
  match listingStages q with
  | .error e => .exception e
  | .ok stages =>
    let pipeline := stages ++ [.skip (skipOf q), .limit (parseInt (q.limit.getD "10"))]
    match aggregate regex pipeline s.videos with
    | .error e => .exception e
    | .ok videos => .json 200 (joinOwner s.users videos) "Videos fetched successfully"

/-! ## A regular-expression engine for patterns of literals and dots -/

/-- The characters with a special meaning in a pattern. -/
def isRegexMeta (c : Char) : Bool :=
  [92, 94, 36, 46, 124, 63, 42, 43, 40, 41, 91, 93, 123, 125].contains c.toNat

/-- An item of a pattern: a literal character, or the dot. -/
inductive Atom where
  | lit (c : Char)
  | any
deriving DecidableEq, Repr

/-- The items of a pattern made of literal characters and dots.  Any other pattern
is outside this fragment and is rejected here. -/
def compileAtoms : List Char → Except String (List Atom)
  | [] => .ok []
  | c :: cs =>
    if c.toNat == 46 then
      match compileAtoms cs with
      | .error e => .error e
      | .ok atoms => .ok (.any :: atoms)
    else if isRegexMeta c then .error "pattern outside the modelled fragment"
    else
      match compileAtoms cs with
      | .error e => .error e
      | .ok atoms => .ok (.lit c :: atoms)

/-- Whether an item matches a character: a literal matches itself, and under the
option `i` every character with the same case folding; the dot matches every
character but the line feed.  The case folding is that of the database, a
parameter here: it sends the characters that differ in case only to one of
them. -/
def Atom.matchesChar (fold : Char → Char) (caseless : Bool) : Atom → Char → Bool
  | .lit c, x => if caseless then fold c == fold x else c == x
  | .any, x => x.toNat != 10

/-- Whether the items match a prefix of the subject. -/
def matchAt (fold : Char → Char) (caseless : Bool) : List Atom → List Char → Bool
  | [], _ => true
  | _ :: _, [] => false
  | a :: atoms, x :: xs => a.matchesChar fold caseless x && matchAt fold caseless atoms xs

/-- Whether the items match somewhere in the subject: a pattern is not anchored. -/
def searchFrom (fold : Char → Char) (caseless : Bool) (atoms : List Atom) : List Char → Bool
  | [] => matchAt fold caseless atoms []
  | x :: xs => matchAt fold caseless atoms (x :: xs) || searchFrom fold caseless atoms xs

/-- The engine of the database on the fragment of literals and dots, for the case
folding `fold` that the database applies under the option `i`. -/
def fragmentRegex (fold : Char → Char) : RegexEngine := fun pattern options =>
  match compileAtoms pattern.data with
  | .error e => .error e
  | .ok atoms => .ok (fun subject =>
      searchFrom fold (options.data.contains (Char.ofNat 105)) atoms subject.data)

/-- Whether `q` occurs in `s` as a literal substring, characters compared without
regard to case: by their case folding `fold`. -/
def containsIgnoreCase (fold : Char → Char) (q s : String) : Bool :=
  decide (q.data.map fold <:+: s.data.map fold)

/-- The case folding of the basic Latin letters, which leaves every other character
as it is.  It is the folding of the sample requests, whose titles, descriptions
and queries hold no letter outside the basic Latin ones. -/
def latinFold : Char → Char := Char.toLower

/-! ## Dashboard controller: the videos of a channel -/

/-- The call `parseInt(x, 10)`: as `parseInt`, with the digits read in radix 10 and
no prefix `0x`. -/
def parseIntDecimal (s : String) : JsNumber :=
  match s.data.dropWhile isJsWhitespace with
  | [] => .nan
  | c :: rest =>
    if c.toNat == 45 then signedNumber true (parseDigits 10 rest)
    else if c.toNat == 43 then signedNumber false (parseDigits 10 rest)
    else signedNumber false (parseDigits 10 (c :: rest))

/-- The pipeline `videoAggregate` that `getChannelVideos` builds: the videos of the
user, sorted by the path `sortBy` as it was sent. -/
def channelVideoStages (userId : ObjectId) (q : ListQuery) : List Stage :=
  [.matchOwner userId,
    .sort (q.sortBy.getD "createdAt") (if q.sortType.getD "desc" == "asc" then 1 else -1)]

/-- The handler `getChannelVideos` of `dashboard.controller.js` for the `_id` of the
authenticated user.  The plugin method `Video.aggregatePaginate` is a
parameter: it receives the pipeline and the options `page` and `limit`. -/
def getChannelVideos {α : Type}
    (aggregatePaginate : List Stage → JsNumber → JsNumber → Except String α)
    (userId : ObjectId) (q : ListQuery) : Outcome α :=
  match aggregatePaginate (channelVideoStages userId q)
      (parseIntDecimal (q.page.getD "1")) (parseIntDecimal (q.limit.getD "10")) with
  | .error e => .exception e
  | .ok videos => .json 200 videos "Channel videos fetched successfully"

/-- The paths by which the `$sort` stages of a pipeline order the rows. -/
def sortKeys (stages : List Stage) : List String :=
  stages.filterMap (fun stage =>
    match stage with
    | .sort field _ => some field
    | _ => none)

/-- The fields the specification allows as sort keys. -/
def sortWhitelist : List String := ["createdAt", "views", "duration"]

/-! ## What the database promises of a sort -/

/-- What the database promises of the result of `$sort` on one path: the result
holds the rows that reached the stage, and each of its rows may come before
every later one.  The order of rows with equal values is not fixed, and may
differ from one request to the next; `sortRows` gives one such result. -/
def IsSortResult (field : String) (direction : Int) (input output : List VideoDoc) : Prop :=
  output.Perm input ∧ output.Pairwise (fun a b => sortBefore field direction a b = true)

/-- The page that the listing cuts from a sorted sequence: it skips
`(page - 1) * limit` rows, takes `limit` rows and joins them with their owners. -/
def pageOf (users : List User) (sorted : List VideoDoc) (page limit : Nat) : List FeedEntry :=
  joinOwner users ((sorted.drop ((page - 1) * limit)).take limit)

/-- The pages 1 to `pages` of a listing, one after the other. -/
def concatPages (users : List User) (sorted : List VideoDoc) (pages limit : Nat) :
    List FeedEntry :=
  ((List.range pages).map (fun i => pageOf users sorted (i + 1) limit)).flatten

/-! ## Subscription controller: the listings -/

/-- An entry of the list of subscribers: the `_id` of the subscription and, under
`subscriber`, the first profile the lookup found (absent when it found none).
The timestamp `createdAt` of the entry is left out, as in `Doc`. -/
structure SubscriberEntry where
  id : ObjectId
  subscriber : Option OwnerProfile
deriving DecidableEq, Repr

/-- An entry of the list of subscribed channels: the `_id` of the subscription and,
under `subscribedChannel`, the first profile the lookup found. -/
structure SubscribedChannelEntry where
  id : ObjectId
  subscribedChannel : Option OwnerProfile
deriving DecidableEq, Repr

/-- The handler `getUserChannelSubscribers` of `subscription.controller.js`: the
subscriptions whose `channel` is the channel id, each with the profile of the
user whose `_id` is its `subscriber`. -/
def getUserChannelSubscribers (channelId : String) (s : Store) :
    Outcome (List SubscriberEntry) :=
  if !isValidObjectId channelId then
    .apiError 400 "Invalid Channel ID"
  else
    let matched := s.subscriptions.filter (fun d =>
      d.get "channel" == some (castObjectId (.str channelId)))
    let subscribers := matched.map (fun d =>
      let subscriberDetails :=
        (s.users.filter (fun u => some u.id == d.get "subscriber")).map User.profile
      (⟨d.id, subscriberDetails.head?⟩ : SubscriberEntry))
    .json 200 subscribers "Subscribers fetched successfully"

/-- The handler `getSubscribedChannels` of `subscription.controller.js`: the
subscriptions whose `subscriber` is the subscriber id, each with the profile of
the user whose `_id` is its `channel`. -/
def getSubscribedChannels (subscriberId : String) (s : Store) :
    Outcome (List SubscribedChannelEntry) :=
  if !isValidObjectId subscriberId then
    .apiError 400 "Invalid Subscriber ID"
  else
    let matched := s.subscriptions.filter (fun d =>
      d.get "subscriber" == some (castObjectId (.str subscriberId)))
    let subscribedChannels := matched.map (fun d =>
      let subscribedChannel :=
        (s.users.filter (fun u => some u.id == d.get "channel")).map User.profile
      (⟨d.id, subscribedChannel.head?⟩ : SubscribedChannelEntry))
    .json 200 subscribedChannels "Subscribed channels fetched successfully"

/-! ## Like documents with one target -/

/-- The paths under which a like document may name its target. -/
def targetPaths : List String := ["video", "videos", "comment", "tweet"]

/-- Whether a like document names at most one target. -/
def Doc.singleTarget (d : Doc) : Bool :=
  (targetPaths.filter (fun path => (d.get path).isSome)).length ≤ 1

/-- A ledger as the toggles build it: the `_id`s of each collection are distinct and
every like names at most one target. -/
def WellFormedLedger (s : Store) : Prop :=
  (s.likes.map Doc.id).Nodup ∧ (s.subscriptions.map Doc.id).Nodup ∧
    ∀ d ∈ s.likes, d.singleTarget = true

/-! ## Sample requests -/

/-- A well-formed id in lower case. -/
def sampleId : String := "64b7f0c2a1b2c3d4e5f6a7b8"

/-- The same id spelled in upper case. -/
def sampleIdUpper : String := "64B7F0C2A1B2C3D4E5F6A7B8"

/-- A user whose `_id` is the sample id. -/
def sampleUser : User := ⟨0x64b7f0c2a1b2c3d4e5f6a7b8, "asha", "Asha Rao", "asha.png"⟩

/-- Another user. -/
def otherUser : User := ⟨7, "ravi", "Ravi Iyer", "ravi.png"⟩

/-- A ledger in which user 7 likes comment 5 and nothing else. -/
def storeWithCommentLike : Store :=
  { Store.empty with likes := [⟨1, [("comment", 5), ("likedBy", 7)]⟩] }

/-- The event emitted when `otherUser` subscribes to the sample channel. -/
def sampleEmit : Emit :=
  ⟨sampleId, "notification_received",
    [("type", .str "SUBSCRIPTION"), ("message", .str "ravi subscribed to your channel!"),
      ("sender", .obj [("_id", .oid 7), ("username", .str "ravi"),
        ("avatar", .str "ravi.png")])]⟩

/-- A hub whose `emit` returns. -/
def quietHub : Hub := ⟨fun _ => none⟩

/-- A hub whose `emit` raises. -/
def failingHub : Hub := ⟨fun _ => some "emit failed"⟩

/-- The id of user 7 as a channel id. -/
def otherUserId : String := "000000000000000000000007"

/-- A server to which two clients of user 7 are connected, both in the room named by
the id of user 7, and one client that is in its own room only. -/
def serverWithTwoHandles : SocketServer :=
  ⟨[⟨"sock-a", ["sock-a", otherUserId]⟩, ⟨"sock-b", ["sock-b", otherUserId]⟩,
    ⟨"sock-c", ["sock-c"]⟩]⟩

/-- The event emitted when the sample user subscribes to the channel of user 7. -/
def subscribeEmit : Emit :=
  ⟨otherUserId, "notification_received",
    [("type", .str "SUBSCRIPTION"), ("message", .str "asha subscribed to your channel!"),
      ("sender", .obj [("_id", .oid 0x64b7f0c2a1b2c3d4e5f6a7b8), ("username", .str "asha"),
        ("avatar", .str "asha.png")])]⟩

/-- Three videos of user 1 with 10, 20 and 30 views. -/
def threeVideos : List VideoDoc :=
  [⟨11, 1, "first", "one", 10, 60, true, 100⟩, ⟨12, 1, "second", "two", 20, 60, true, 200⟩,
    ⟨13, 1, "third", "three", 30, 60, true, 300⟩]

/-- A store in which user 1 owns the three videos and the likes collection holds,
under the path `videos` that the schema declares, one like of video 11 and two
likes of video 13. -/
def statsStore : Store :=
  { Store.empty with
    users := [⟨1, "owner", "Owner One", "owner.png"⟩, otherUser]
    videos := threeVideos
    likes := [⟨1, [("videos", 11), ("likedBy", 7)]⟩, ⟨2, [("videos", 13), ("likedBy", 7)]⟩,
      ⟨3, [("videos", 13), ("likedBy", 8)]⟩] }

/-- The same store with the likes held under the path `video`. -/
def statsStoreVideoPath : Store :=
  { statsStore with
    likes := [⟨1, [("video", 11), ("likedBy", 7)]⟩, ⟨2, [("video", 13), ("likedBy", 7)]⟩,
      ⟨3, [("video", 13), ("likedBy", 8)]⟩] }

/-- The store of user 1 and the three videos, with an empty ledger. -/
def videosOnlyStore : Store := { statsStore with likes := [] }

/-- A store in which user 7 likes, under the path `video`, video 11 and a video 99
that is not in the video collection. -/
def staleLikeStore : Store :=
  { statsStore with
    likes := [⟨1, [("video", 11), ("likedBy", 7)]⟩, ⟨2, [("video", 99), ("likedBy", 7)]⟩] }

/-- Five published videos of user 1, listed in the order of their creation, and one
video of user 1 that is not published. -/
def fiveVideos : List VideoDoc :=
  [⟨21, 1, "Alpha", "first clip", 5, 60, true, 100⟩,
    ⟨22, 1, "Beta", "second clip", 9, 61, true, 200⟩,
    ⟨23, 1, "Gamma", "third clip", 7, 62, true, 300⟩,
    ⟨24, 1, "Delta", "fourth clip", 1, 63, true, 400⟩,
    ⟨25, 1, "Epsilon", "fifth clip", 3, 64, true, 500⟩,
    ⟨26, 1, "Draft", "hidden clip", 0, 65, false, 600⟩]

/-- A store of two users, the videos above and a published video of user 7. -/
def listingStore : Store :=
  { Store.empty with
    users := [⟨1, "owner", "Owner One", "owner.png"⟩, otherUser]
    videos := fiveVideos ++ [⟨27, 7, "Zeta", "a clip of ravi", 2, 66, true, 700⟩] }

/-- A request with no parameter. -/
def emptyQuery : ListQuery := ⟨none, none, none, none, none, none⟩

/-- The request for page 2 of size 2 of the videos of user 1. -/
def pageTwoQuery : ListQuery :=
  { emptyQuery with page := some "2", limit := some "2",
                    userId := some "000000000000000000000001" }

/-- The entries of page 2 of size 2 of the videos of user 1, newest first. -/
def pageTwoEntries : List FeedEntry :=
  [⟨⟨23, 1, "Gamma", "third clip", 7, 62, true, 300⟩, ⟨1, "Owner One", "owner", "owner.png"⟩⟩,
    ⟨⟨22, 1, "Beta", "second clip", 9, 61, true, 200⟩, ⟨1, "Owner One", "owner", "owner.png"⟩⟩]

/-- The published videos of user 1, newest first. -/
def ownerVideosNewestFirst : List VideoDoc :=
  [⟨25, 1, "Epsilon", "fifth clip", 3, 64, true, 500⟩,
    ⟨24, 1, "Delta", "fourth clip", 1, 63, true, 400⟩,
    ⟨23, 1, "Gamma", "third clip", 7, 62, true, 300⟩,
    ⟨22, 1, "Beta", "second clip", 9, 61, true, 200⟩,
    ⟨21, 1, "Alpha", "first clip", 5, 60, true, 100⟩]

/-- The video of user 7 in the listing store and its entry. -/
def zetaVideo : VideoDoc := ⟨27, 7, "Zeta", "a clip of ravi", 2, 66, true, 700⟩

/-- A request that asks for the order by title, ascending, two videos a page. -/
def titleQuery : ListQuery :=
  { emptyQuery with sortBy := some "title", sortType := some "asc", limit := some "2" }

/-- Two published videos of user 1 with equal views: the older one is stored first. -/
def olderVideo : VideoDoc := ⟨31, 1, "Older", "made first", 4, 10, true, 100⟩

/-- The newer of the two videos with equal views. -/
def newerVideo : VideoDoc := ⟨32, 1, "Newer", "made second", 4, 10, true, 200⟩

/-- A store that holds user 1 and the two videos with equal views. -/
def tieStore : Store :=
  { Store.empty with
    users := [⟨1, "owner", "Owner One", "owner.png"⟩]
    videos := [olderVideo, newerVideo] }

/-- The request for the order by views, descending. -/
def viewsQuery : ListQuery := { emptyQuery with sortBy := some "views" }

/-- The profile of user 1. -/
def ownerOneProfile : OwnerProfile := ⟨1, "Owner One", "owner", "owner.png"⟩

/-- A store in which a published video belongs to user 9, who has no record. -/
def orphanStore : Store :=
  { Store.empty with
    users := [⟨1, "owner", "Owner One", "owner.png"⟩]
    videos := [olderVideo, ⟨33, 9, "Orphan", "owner gone", 8, 10, true, 300⟩] }

/-- The request of size 2 for the videos of user 1. -/
def sizeTwoQuery : ListQuery :=
  { emptyQuery with limit := some "2", userId := some "000000000000000000000001" }

/-- The video of user 9, who has no record. -/
def orphanVideo : VideoDoc := ⟨33, 9, "Orphan", "owner gone", 8, 10, true, 300⟩

/-- A store in which users 7 and 8 subscribe to user 1 and user 7 also subscribes to
user 8, who has no record. -/
def subscriptionStore : Store :=
  { Store.empty with
    users := [⟨1, "owner", "Owner One", "owner.png"⟩, otherUser]
    subscriptions := [⟨1, [("subscriber", 7), ("channel", 1)]⟩,
      ⟨2, [("subscriber", 8), ("channel", 1)]⟩, ⟨3, [("subscriber", 7), ("channel", 8)]⟩] }

/-- A case folding of the Latin letters with and without accents: the capital
letters from `À` to `Þ` go to their small letters, as the basic ones do. -/
def accentFold (c : Char) : Char :=
  if 192 ≤ c.toNat ∧ c.toNat ≤ 222 ∧ c.toNat ≠ 215 then Char.ofNat (c.toNat + 32)
  else c.toLower

/-- Two videos, one of which tells of a café. -/
def cafeVideos : List VideoDoc :=
  [⟨41, 1, "Evening", "a tea clip", 2, 15, true, 400⟩,
    ⟨42, 1, "Morning", "a café clip", 3, 20, true, 500⟩]

/-- A store whose one user subscribes to nobody yet. -/
def loneUserStore : Store := { Store.empty with users := [otherUser] }

/-- The id of user 8, who has no user record in the sample stores. -/
def absentUserId : String := "000000000000000000000008"

/-! ## Theorems -/

/-! ### Collections -/

theorem id_lt_freshId (coll : List Doc) (d : Doc) (h : d ∈ coll) : d.id < freshId coll := by
  have key : ∀ l : List Doc, d ∈ l → d.id ≤ (l.map Doc.id).foldr max 0 := by
    intro l
    induction l with
    | nil => intro h; cases h
    | cons x xs ih =>
      intro h
      rw [List.map_cons, List.foldr_cons]
      rcases List.mem_cons.mp h with rfl | hd
      · exact Nat.le_max_left _ _
      · exact Nat.le_trans (ih hd) (Nat.le_max_right _ _)
  exact Nat.lt_succ_of_le (key coll h)

theorem freshId_not_mem (coll : List Doc) : freshId coll ∉ coll.map Doc.id := by
  intro h
  obtain ⟨d, hd, he⟩ := List.mem_map.mp h
  have hlt := id_lt_freshId coll d hd
  rw [he] at hlt
  exact Nat.lt_irrefl _ hlt

theorem create_ids_nodup (sch : Schema) (obj : List (String × Value)) (coll : List Doc)
    (h : (coll.map Doc.id).Nodup) : ((Model.create sch obj coll).2.map Doc.id).Nodup := by
  simp only [Model.create, List.map_append, List.map_cons, List.map_nil]
  refine List.Nodup.append h (List.nodup_singleton _) ?_
  intro a ha hb
  rw [List.mem_singleton] at hb
  subst hb
  exact freshId_not_mem coll ha

theorem delete_ids_nodup (id : ObjectId) (coll : List Doc)
    (h : (coll.map Doc.id).Nodup) : ((Model.findByIdAndDelete id coll).map Doc.id).Nodup :=
  List.Nodup.sublist (List.Sublist.map _ (List.eraseP_sublist coll)) h

theorem delete_countP_le (q : Doc → Bool) (id : ObjectId) (coll : List Doc) :
    (Model.findByIdAndDelete id coll).countP q ≤ coll.countP q :=
  List.Sublist.countP_le q (List.eraseP_sublist coll)

/-- Deleting by the `_id` of a stored document removes that document when the
`_id`s of the collection are distinct. -/
theorem delete_countP (q : Doc → Bool) (e : Doc) (coll : List Doc)
    (hn : (coll.map Doc.id).Nodup) (he : e ∈ coll) (hq : q e = true) :
    (Model.findByIdAndDelete e.id coll).countP q + 1 = coll.countP q := by
  induction coll with
  | nil => cases he
  | cons x xs ih =>
    rw [List.map_cons, List.nodup_cons] at hn
    unfold Model.findByIdAndDelete at ih ⊢
    by_cases hx : x.id = e.id
    · have hxe : x = e := by
        rcases List.mem_cons.mp he with h | h
        · exact h.symm
        · exact absurd (hx ▸ List.mem_map_of_mem Doc.id h) hn.1
      subst hxe
      simp [List.eraseP_cons, hq]
    · have hmem : e ∈ xs := by
        rcases List.mem_cons.mp he with h | h
        · exact absurd (h ▸ rfl) hx
        · exact h
      have := ih hn.2 hmem
      have hb : (x.id == e.id) = false := by simpa using hx
      rw [List.eraseP_cons, hb]
      simp only [cond_false, List.countP_cons, Bool.false_eq_true, ↓reduceIte]
      omega

theorem findOne_none_countP (cfg : Config) (sch : Schema) (obj : List (String × Value))
    (coll : List Doc) (h : Model.findOne cfg sch obj coll = none) :
    coll.countP (matchesFilter cfg sch obj) = 0 := by
  unfold Model.findOne at h
  rw [List.find?_eq_none] at h
  rw [List.countP_eq_zero]
  exact h

theorem findOne_some (cfg : Config) (sch : Schema) (obj : List (String × Value))
    (coll : List Doc) (e : Doc) (h : Model.findOne cfg sch obj coll = some e) :
    e ∈ coll ∧ matchesFilter cfg sch obj e = true := by
  unfold Model.findOne at h
  exact ⟨List.mem_of_find?_eq_some h, List.find?_some h⟩

/-! ### The shared toggle of a collection -/

theorem toggleColl_ids_nodup (cfg : Config) (sch : Schema) (obj : List (String × Value))
    (coll : List Doc) (h : (coll.map Doc.id).Nodup) :
    ((toggleColl cfg sch obj coll).map Doc.id).Nodup := by
  unfold toggleColl
  cases Model.findOne cfg sch obj coll with
  | none => exact create_ids_nodup sch obj coll h
  | some e => exact delete_ids_nodup e.id coll h

/-- A toggle keeps a count of at most one for every predicate that, if the new
document satisfies it, holds only of documents the filter matches. -/
theorem toggleColl_countP_le_one (cfg : Config) (sch : Schema) (obj : List (String × Value))
    (coll : List Doc) (q : Doc → Bool)
    (hq : q ⟨freshId coll, sch.castDoc obj⟩ = true →
      ∀ d, q d = true → matchesFilter cfg sch obj d = true)
    (h : coll.countP q ≤ 1) : (toggleColl cfg sch obj coll).countP q ≤ 1 := by
  unfold toggleColl
  cases hf : Model.findOne cfg sch obj coll with
  | some e => exact Nat.le_trans (delete_countP_le q e.id coll) h
  | none =>
    simp only [Model.create, List.countP_append, List.countP_cons, List.countP_nil]
    by_cases hn : q ⟨freshId coll, sch.castDoc obj⟩ = true
    · have hz : coll.countP q = 0 := by
        rw [List.countP_eq_zero]
        intro d hd hqd
        have h0 := findOne_none_countP cfg sch obj coll hf
        rw [List.countP_eq_zero] at h0
        exact h0 d hd (hq hn d hqd)
      simp [hz, hn]
    · simp [hn]
      exact h

/-- A toggle flips the count of the documents its filter matches between 0 and 1,
when the `_id`s are distinct and the new document satisfies the filter. -/
theorem toggleColl_countP_flip (cfg : Config) (sch : Schema) (obj : List (String × Value))
    (coll : List Doc) (hn : (coll.map Doc.id).Nodup)
    (hnew : matchesFilter cfg sch obj ⟨freshId coll, sch.castDoc obj⟩ = true)
    (h : coll.countP (matchesFilter cfg sch obj) ≤ 1) :
    (toggleColl cfg sch obj coll).countP (matchesFilter cfg sch obj)
      = 1 - coll.countP (matchesFilter cfg sch obj) := by
  unfold toggleColl
  cases hf : Model.findOne cfg sch obj coll with
  | some e =>
    obtain ⟨he, hm⟩ := findOne_some cfg sch obj coll e hf
    have := delete_countP (matchesFilter cfg sch obj) e coll hn he hm
    simp only []
    omega
  | none =>
    have hz := findOne_none_countP cfg sch obj coll hf
    simp [Model.create, List.countP_append, hz, hnew]

/-! ### What the handlers do to the store -/

theorem toggleVideoLike_store (cfg : Config) (user : ObjectId) (videoId : String) (s : Store)
    (hv : isValidObjectId videoId = true) :
    (toggleVideoLike cfg user videoId s).1 =
      { s with
        likes := toggleColl cfg likesSchema
          [("video", .str videoId), ("likedBy", .oid user)] s.likes } := by
  unfold toggleVideoLike toggleColl
  simp only [hv, Bool.not_true, Bool.false_eq_true, ↓reduceIte]
  cases Model.findOne cfg likesSchema [("video", .str videoId), ("likedBy", .oid user)] s.likes <;> rfl

theorem toggleCommentLike_store (cfg : Config) (user : ObjectId) (commentId : String) (s : Store)
    (hv : isValidObjectId commentId = true) :
    (toggleCommentLike cfg user commentId s).1 =
      { s with
        likes := toggleColl cfg likesSchema
          [("comment", .str commentId), ("likedBy", .oid user)] s.likes } := by
  unfold toggleCommentLike toggleColl
  simp only [hv, Bool.not_true, Bool.false_eq_true, ↓reduceIte]
  cases Model.findOne cfg likesSchema [("comment", .str commentId), ("likedBy", .oid user)] s.likes <;> rfl

theorem toggleTweetLike_store (cfg : Config) (user : ObjectId) (tweetId : String) (s : Store)
    (hv : isValidObjectId tweetId = true) :
    (toggleTweetLike cfg user tweetId s).1 =
      { s with
        likes := toggleColl cfg likesSchema
          [("tweet", .str tweetId), ("likedBy", .oid user)] s.likes } := by
  unfold toggleTweetLike toggleColl
  simp only [hv, Bool.not_true, Bool.false_eq_true, ↓reduceIte]
  cases Model.findOne cfg likesSchema [("tweet", .str tweetId), ("likedBy", .oid user)] s.likes <;> rfl

theorem toggleSubscription_store (cfg : Config) (io : Option Hub) (user : User)
    (channelId : String) (s : Store)
    (hv : isValidObjectId channelId = true) (hs : (channelId == toHexString user.id) = false) :
    (toggleSubscription cfg io user channelId s).1 =
      { s with
        subscriptions := toggleColl cfg subscriptionSchema
          [("subscriber", .oid user.id), ("channel", .str channelId)] s.subscriptions } := by
  unfold toggleSubscription toggleColl
  simp only [hv, hs, Bool.not_true, Bool.false_eq_true, ↓reduceIte]
  cases Model.findOne cfg subscriptionSchema
      [("subscriber", .oid user.id), ("channel", .str channelId)] s.subscriptions with
  | some e => rfl
  | none =>
    cases io with
    | none => rfl
    | some hub =>
      simp only []
      cases hub.emit _ <;> rfl

theorem toggleSubscription_store_rejected (cfg : Config) (io : Option Hub) (user : User)
    (channelId : String) (s : Store)
    (h : isValidObjectId channelId = false ∨ (channelId == toHexString user.id) = true) :
    (toggleSubscription cfg io user channelId s).1 = s := by
  unfold toggleSubscription
  rcases h with h | h
  · simp [h]
  · cases hv : isValidObjectId channelId <;> simp [h, hv]

/-! ### Filters and relations -/

theorem matchesFilter_comment (cfg : Config) (user : ObjectId) (commentId : String) (d : Doc) :
    matchesFilter cfg likesSchema [("comment", .str commentId), ("likedBy", .oid user)] d
      = isRelation .LikeComment user (hexToNat commentId.data) d := by
  simp [matchesFilter, matchesEntry, likesSchema, isRelation, castObjectId]

theorem matchesFilter_tweet (cfg : Config) (user : ObjectId) (tweetId : String) (d : Doc) :
    matchesFilter cfg likesSchema [("tweet", .str tweetId), ("likedBy", .oid user)] d
      = isRelation .LikeTweet user (hexToNat tweetId.data) d := by
  simp [matchesFilter, matchesEntry, likesSchema, isRelation, castObjectId]

theorem matchesFilter_subscription (cfg : Config) (user : ObjectId) (channelId : String)
    (d : Doc) :
    matchesFilter cfg subscriptionSchema
        [("subscriber", .oid user), ("channel", .str channelId)] d
      = isRelation .Subscription user (hexToNat channelId.data) d := by
  simp [matchesFilter, matchesEntry, subscriptionSchema, isRelation, castObjectId, Bool.and_comm]

theorem isRelation_video_doc (k : Kind) (a t i : ObjectId) (videoId : String) (user : ObjectId) :
    isRelation k a t ⟨i, likesSchema.castDoc [("video", .str videoId), ("likedBy", .oid user)]⟩
      = false := by
  have hf : likesSchema.castDoc [("video", .str videoId), ("likedBy", .oid user)]
      = [("likedBy", user)] := rfl
  rw [hf]
  cases k <;> simp [isRelation, Doc.get, List.lookup]

theorem isRelation_comment_doc (k : Kind) (a t i : ObjectId) (commentId : String)
    (user : ObjectId)
    (h : isRelation k a t
      ⟨i, likesSchema.castDoc [("comment", .str commentId), ("likedBy", .oid user)]⟩ = true) :
    k = .LikeComment ∧ t = hexToNat commentId.data ∧ a = user := by
  have hf : likesSchema.castDoc [("comment", .str commentId), ("likedBy", .oid user)]
      = [("comment", hexToNat commentId.data), ("likedBy", user)] := rfl
  rw [hf] at h
  cases k <;> simp [isRelation, Doc.get, List.lookup] at h
  exact ⟨rfl, h.1.symm, h.2.symm⟩

theorem isRelation_tweet_doc (k : Kind) (a t i : ObjectId) (tweetId : String)
    (user : ObjectId)
    (h : isRelation k a t
      ⟨i, likesSchema.castDoc [("tweet", .str tweetId), ("likedBy", .oid user)]⟩ = true) :
    k = .LikeTweet ∧ t = hexToNat tweetId.data ∧ a = user := by
  have hf : likesSchema.castDoc [("tweet", .str tweetId), ("likedBy", .oid user)]
      = [("tweet", hexToNat tweetId.data), ("likedBy", user)] := rfl
  rw [hf] at h
  cases k <;> simp [isRelation, Doc.get, List.lookup] at h
  exact ⟨rfl, h.1.symm, h.2.symm⟩

theorem isRelation_subscription_doc (k : Kind) (a t i : ObjectId) (channelId : String)
    (user : ObjectId)
    (h : isRelation k a t
      ⟨i, subscriptionSchema.castDoc [("subscriber", .oid user), ("channel", .str channelId)]⟩
        = true) :
    k = .Subscription ∧ t = hexToNat channelId.data ∧ a = user := by
  have hf : subscriptionSchema.castDoc [("subscriber", .oid user), ("channel", .str channelId)]
      = [("subscriber", user), ("channel", hexToNat channelId.data)] := rfl
  rw [hf] at h
  cases k <;> simp [isRelation, Doc.get, List.lookup] at h
  exact ⟨rfl, h.1.symm, h.2.symm⟩

/-! ### Rejected requests leave the store as it was -/

theorem toggleVideoLike_invalid (cfg : Config) (user : ObjectId) (videoId : String) (s : Store)
    (hv : isValidObjectId videoId = false) :
    toggleVideoLike cfg user videoId s = (s, .apiError 400 "Invalid Video Id") := by
  simp [toggleVideoLike, hv]

theorem toggleCommentLike_invalid (cfg : Config) (user : ObjectId) (commentId : String)
    (s : Store) (hv : isValidObjectId commentId = false) :
    toggleCommentLike cfg user commentId s = (s, .apiError 400 "Comment ID is required") := by
  simp [toggleCommentLike, hv]

theorem toggleTweetLike_invalid (cfg : Config) (user : ObjectId) (tweetId : String) (s : Store)
    (hv : isValidObjectId tweetId = false) :
    toggleTweetLike cfg user tweetId s = (s, .apiError 400 "Invalid Tweet ID") := by
  simp [toggleTweetLike, hv]

theorem toggleSubscription_invalid (cfg : Config) (io : Option Hub) (user : User)
    (channelId : String) (s : Store) (hv : isValidObjectId channelId = false) :
    toggleSubscription cfg io user channelId s = (s, [], .apiError 400 "Invalid Channel ID") := by
  simp [toggleSubscription, hv]

/-! ### The toggle invariant -/

theorem atMostOne_likes (s : Store) (l : List Doc) (h : AtMostOne s)
    (hl : ∀ (k : Kind) (a t : ObjectId), k ≠ .Subscription →
      s.likes.countP (isRelation k a t) ≤ 1 → l.countP (isRelation k a t) ≤ 1) :
    AtMostOne { s with likes := l } := by
  intro k a t
  have hk := h k a t
  cases k
  case Subscription => exact hk
  all_goals exact hl _ a t (by decide) hk

theorem atMostOne_subscriptions (s : Store) (l : List Doc) (h : AtMostOne s)
    (hl : ∀ (a t : ObjectId),
      s.subscriptions.countP (isRelation .Subscription a t) ≤ 1 →
        l.countP (isRelation .Subscription a t) ≤ 1) :
    AtMostOne { s with subscriptions := l } := by
  intro k a t
  have hk := h k a t
  cases k
  case Subscription => exact hl a t hk
  all_goals exact hk

theorem run_atMostOne (cfg : Config) (c : ToggleCall) (s : Store) (h : AtMostOne s) :
    AtMostOne (c.run cfg s) := by
  cases c with
  | videoLike user videoId =>
    simp only [ToggleCall.run]
    cases hv : isValidObjectId videoId with
    | false => rw [toggleVideoLike_invalid cfg user videoId s hv]; exact h
    | true =>
      rw [toggleVideoLike_store cfg user videoId s hv]
      refine atMostOne_likes s _ h ?_
      intro k a t _ hk
      refine toggleColl_countP_le_one cfg likesSchema _ s.likes _ ?_ hk
      intro hnew
      rw [isRelation_video_doc] at hnew
      cases hnew
  | commentLike user commentId =>
    simp only [ToggleCall.run]
    cases hv : isValidObjectId commentId with
    | false => rw [toggleCommentLike_invalid cfg user commentId s hv]; exact h
    | true =>
      rw [toggleCommentLike_store cfg user commentId s hv]
      refine atMostOne_likes s _ h ?_
      intro k a t _ hk
      refine toggleColl_countP_le_one cfg likesSchema _ s.likes _ ?_ hk
      intro hnew d hd
      obtain ⟨rfl, rfl, rfl⟩ := isRelation_comment_doc k a t _ commentId user hnew
      rw [matchesFilter_comment]
      exact hd
  | tweetLike user tweetId =>
    simp only [ToggleCall.run]
    cases hv : isValidObjectId tweetId with
    | false => rw [toggleTweetLike_invalid cfg user tweetId s hv]; exact h
    | true =>
      rw [toggleTweetLike_store cfg user tweetId s hv]
      refine atMostOne_likes s _ h ?_
      intro k a t _ hk
      refine toggleColl_countP_le_one cfg likesSchema _ s.likes _ ?_ hk
      intro hnew d hd
      obtain ⟨rfl, rfl, rfl⟩ := isRelation_tweet_doc k a t _ tweetId user hnew
      rw [matchesFilter_tweet]
      exact hd
  | subscription io user channelId =>
    simp only [ToggleCall.run]
    cases hv : isValidObjectId channelId with
    | false => rw [toggleSubscription_invalid cfg io user channelId s hv]; exact h
    | true =>
      cases hs : (channelId == toHexString user.id) with
      | true =>
        rw [toggleSubscription_store_rejected cfg io user channelId s (Or.inr hs)]
        exact h
      | false =>
        rw [toggleSubscription_store cfg io user channelId s hv hs]
        refine atMostOne_subscriptions s _ h ?_
        intro a t hk
        refine toggleColl_countP_le_one cfg subscriptionSchema _ s.subscriptions _ ?_ hk
        intro hnew d hd
        obtain ⟨_, rfl, rfl⟩ := isRelation_subscription_doc _ a t _ channelId user.id hnew
        rw [matchesFilter_subscription]
        exact hd

theorem runCalls_atMostOne (cfg : Config) (calls : List ToggleCall) (s : Store)
    (h : AtMostOne s) : AtMostOne (runCalls cfg calls s) := by
  induction calls generalizing s with
  | nil => exact h
  | cons c cs ih => exact ih (c.run cfg s) (run_atMostOne cfg c s h)

/-- C3: starting from an empty ledger (whatever the content collections hold),
after any finite sequence of toggle calls run one after the other, in any mix
of the four handlers and for any users and targets, the ledger holds at most
one relation for each tuple of actor, target and kind. -/
theorem toggle_invariant (cfg : Config) (calls : List ToggleCall)
    (users : List User) (videos : List VideoDoc) (comments : List CommentDoc)
    (tweets : List TweetDoc) (k : Kind) (a t : ObjectId) :
    relationCount (runCalls cfg calls ⟨[], [], users, videos, comments, tweets⟩) k a t ≤ 1 := by
  refine runCalls_atMostOne cfg calls _ ?_ k a t
  intro k a t
  cases k <;> simp [relationCount, Store.ledger]

/-! ### Toggling twice, and the flag a toggle returns -/

/-- C1: the failing input of the double toggle.  In a ledger where user 7 likes
comment 5 and holds no video like, `toggleVideoLike` for user 7 and the sample
video does not answer true and then false: with `strictQuery` off both calls
answer true and leave two likes that name no video; with `strictQuery` on the
first call answers false and deletes the comment like. -/
theorem toggleVideoLike_twice_diverges :
    hasRelation storeWithCommentLike .LikeVideo 7 (hexToNat sampleId.data) = false ∧
    (toggleVideoLike ⟨false⟩ 7 sampleId storeWithCommentLike).2
      = .json 200 ⟨"isLiked", true⟩ "Liked the video successfully" ∧
    (toggleVideoLike ⟨false⟩ 7 sampleId
        (toggleVideoLike ⟨false⟩ 7 sampleId storeWithCommentLike).1).2
      = .json 200 ⟨"isLiked", true⟩ "Liked the video successfully" ∧
    (toggleVideoLike ⟨false⟩ 7 sampleId
        (toggleVideoLike ⟨false⟩ 7 sampleId storeWithCommentLike).1).1.likes
      = [⟨1, [("comment", 5), ("likedBy", 7)]⟩, ⟨2, [("likedBy", 7)]⟩, ⟨3, [("likedBy", 7)]⟩] ∧
    (toggleVideoLike ⟨true⟩ 7 sampleId storeWithCommentLike).2
      = .json 200 ⟨"isLiked", false⟩ "Removed like from video" ∧
    (toggleVideoLike ⟨true⟩ 7 sampleId storeWithCommentLike).1.likes = [] := by
  decide

/-- C2: the failing input of the returned flag.  On the empty ledger
`toggleVideoLike` answers `isLiked: true` under either setting of `strictQuery`,
and the document it stores names no video, so that no relation of user 7 to the
sample video exists after the call. -/
theorem toggleVideoLike_flag_without_relation :
    (toggleVideoLike ⟨false⟩ 7 sampleId Store.empty).2
      = .json 200 ⟨"isLiked", true⟩ "Liked the video successfully" ∧
    (toggleVideoLike ⟨false⟩ 7 sampleId Store.empty).1.likes = [⟨1, [("likedBy", 7)]⟩] ∧
    hasRelation (toggleVideoLike ⟨false⟩ 7 sampleId Store.empty).1 .LikeVideo 7
      (hexToNat sampleId.data) = false ∧
    (toggleVideoLike ⟨true⟩ 7 sampleId Store.empty).2
      = .json 200 ⟨"isLiked", true⟩ "Liked the video successfully" ∧
    (toggleVideoLike ⟨true⟩ 7 sampleId Store.empty).1.likes = [⟨1, [("likedBy", 7)]⟩] ∧
    hasRelation (toggleVideoLike ⟨true⟩ 7 sampleId Store.empty).1 .LikeVideo 7
      (hexToNat sampleId.data) = false := by
  decide

/-! ### Counting the relations of one tuple across a toggle -/

theorem matchesFilter_new_comment (cfg : Config) (user i : ObjectId) (commentId : String) :
    matchesFilter cfg likesSchema [("comment", .str commentId), ("likedBy", .oid user)]
      ⟨i, likesSchema.castDoc [("comment", .str commentId), ("likedBy", .oid user)]⟩ = true := by
  have hf : likesSchema.castDoc [("comment", .str commentId), ("likedBy", .oid user)]
      = [("comment", hexToNat commentId.data), ("likedBy", user)] := rfl
  rw [matchesFilter_comment, hf]
  simp [isRelation, Doc.get, List.lookup]

theorem matchesFilter_new_tweet (cfg : Config) (user i : ObjectId) (tweetId : String) :
    matchesFilter cfg likesSchema [("tweet", .str tweetId), ("likedBy", .oid user)]
      ⟨i, likesSchema.castDoc [("tweet", .str tweetId), ("likedBy", .oid user)]⟩ = true := by
  have hf : likesSchema.castDoc [("tweet", .str tweetId), ("likedBy", .oid user)]
      = [("tweet", hexToNat tweetId.data), ("likedBy", user)] := rfl
  rw [matchesFilter_tweet, hf]
  simp [isRelation, Doc.get, List.lookup]

theorem matchesFilter_new_subscription (cfg : Config) (user i : ObjectId) (channelId : String) :
    matchesFilter cfg subscriptionSchema [("subscriber", .oid user), ("channel", .str channelId)]
      ⟨i, subscriptionSchema.castDoc
        [("subscriber", .oid user), ("channel", .str channelId)]⟩ = true := by
  have hf : subscriptionSchema.castDoc [("subscriber", .oid user), ("channel", .str channelId)]
      = [("subscriber", user), ("channel", hexToNat channelId.data)] := rfl
  rw [matchesFilter_subscription, hf]
  simp [isRelation, Doc.get, List.lookup]

/-- A comment-like toggle flips the number of relations of its tuple between 0 and 1
and keeps the `_id`s distinct. -/
theorem toggleCommentLike_flip (cfg : Config) (user : ObjectId) (commentId : String) (s : Store)
    (hv : isValidObjectId commentId = true) (hn : (s.likes.map Doc.id).Nodup)
    (h : relationCount s .LikeComment user (hexToNat commentId.data) ≤ 1) :
    ((toggleCommentLike cfg user commentId s).1.likes.map Doc.id).Nodup ∧
    relationCount (toggleCommentLike cfg user commentId s).1 .LikeComment user
        (hexToNat commentId.data)
      = 1 - relationCount s .LikeComment user (hexToNat commentId.data) := by
  rw [toggleCommentLike_store cfg user commentId s hv]
  refine ⟨toggleColl_ids_nodup cfg likesSchema _ s.likes hn, ?_⟩
  have hfun : isRelation .LikeComment user (hexToNat commentId.data)
      = matchesFilter cfg likesSchema [("comment", .str commentId), ("likedBy", .oid user)] :=
    funext fun d => (matchesFilter_comment cfg user commentId d).symm
  simp only [relationCount, Store.ledger] at h ⊢
  rw [hfun] at h ⊢
  exact toggleColl_countP_flip cfg likesSchema _ s.likes hn
    (matchesFilter_new_comment cfg user _ commentId) h

/-- A tweet-like toggle flips the number of relations of its tuple between 0 and 1
and keeps the `_id`s distinct. -/
theorem toggleTweetLike_flip (cfg : Config) (user : ObjectId) (tweetId : String) (s : Store)
    (hv : isValidObjectId tweetId = true) (hn : (s.likes.map Doc.id).Nodup)
    (h : relationCount s .LikeTweet user (hexToNat tweetId.data) ≤ 1) :
    ((toggleTweetLike cfg user tweetId s).1.likes.map Doc.id).Nodup ∧
    relationCount (toggleTweetLike cfg user tweetId s).1 .LikeTweet user
        (hexToNat tweetId.data)
      = 1 - relationCount s .LikeTweet user (hexToNat tweetId.data) := by
  rw [toggleTweetLike_store cfg user tweetId s hv]
  refine ⟨toggleColl_ids_nodup cfg likesSchema _ s.likes hn, ?_⟩
  have hfun : isRelation .LikeTweet user (hexToNat tweetId.data)
      = matchesFilter cfg likesSchema [("tweet", .str tweetId), ("likedBy", .oid user)] :=
    funext fun d => (matchesFilter_tweet cfg user tweetId d).symm
  simp only [relationCount, Store.ledger] at h ⊢
  rw [hfun] at h ⊢
  exact toggleColl_countP_flip cfg likesSchema _ s.likes hn
    (matchesFilter_new_tweet cfg user _ tweetId) h

/-- A subscription toggle on a channel whose id is not the string form of the
user's own id flips the number of relations of its tuple between 0 and 1 and
keeps the `_id`s distinct. -/
theorem toggleSubscription_flip (cfg : Config) (io : Option Hub) (user : User)
    (channelId : String) (s : Store)
    (hv : isValidObjectId channelId = true) (hs : (channelId == toHexString user.id) = false)
    (hn : (s.subscriptions.map Doc.id).Nodup)
    (h : relationCount s .Subscription user.id (hexToNat channelId.data) ≤ 1) :
    ((toggleSubscription cfg io user channelId s).1.subscriptions.map Doc.id).Nodup ∧
    relationCount (toggleSubscription cfg io user channelId s).1 .Subscription user.id
        (hexToNat channelId.data)
      = 1 - relationCount s .Subscription user.id (hexToNat channelId.data) := by
  rw [toggleSubscription_store cfg io user channelId s hv hs]
  refine ⟨toggleColl_ids_nodup cfg subscriptionSchema _ s.subscriptions hn, ?_⟩
  have hfun : isRelation .Subscription user.id (hexToNat channelId.data)
      = matchesFilter cfg subscriptionSchema
          [("subscriber", .oid user.id), ("channel", .str channelId)] :=
    funext fun d => (matchesFilter_subscription cfg user.id channelId d).symm
  simp only [relationCount, Store.ledger] at h ⊢
  rw [hfun] at h ⊢
  exact toggleColl_countP_flip cfg subscriptionSchema _ s.subscriptions hn
    (matchesFilter_new_subscription cfg user.id _ channelId) h

/-- Repeating a call that flips a count between 0 and 1 leaves the count it found
after an even number of calls and the other one after an odd number. -/
theorem repeatCall_flip (f : Store → Store) (I : Store → Prop) (m : Store → Nat)
    (hf : ∀ s, I s → m s ≤ 1 → I (f s) ∧ m (f s) = 1 - m s) :
    ∀ (n : Nat) (s : Store), I s → m s ≤ 1 →
      m (repeatCall f n s) = if n % 2 = 0 then m s else 1 - m s := by
  intro n
  induction n with
  | zero => intro s _ _; simp [repeatCall]
  | succ n ih =>
    intro s hI hm
    obtain ⟨hI1, hm1⟩ := hf s hI hm
    have hle : m (f s) ≤ 1 := by omega
    rw [repeatCall, ih (f s) hI1 hle, hm1]
    rcases Nat.mod_two_eq_zero_or_one n with h0 | h1
    · have : (n + 1) % 2 = 1 := by omega
      simp [h0, this]
    · have : (n + 1) % 2 = 0 := by omega
      simp [h1, this]
      omega

/-- The two database steps of one call of `toggleCommentLike`, run with no other
call in between, change the store as the handler does. -/
theorem stepCommentLike_twice (cfg : Config) (user : ObjectId) (commentId : String) (s : Store)
    (hv : isValidObjectId commentId = true) :
    (stepCommentLike cfg user commentId (stepCommentLike cfg user commentId s .start).1
        (stepCommentLike cfg user commentId s .start).2).1
      = (toggleCommentLike cfg user commentId s).1 := by
  unfold toggleCommentLike
  simp only [hv, Bool.not_true, Bool.false_eq_true, ↓reduceIte, stepCommentLike]
  cases Model.findOne cfg likesSchema
    [("comment", .str commentId), ("likedBy", .oid user)] s.likes <;> rfl

/-! ### The flag of the comment, tweet and subscription toggles -/

theorem findOne_isSome (cfg : Config) (sch : Schema) (obj : List (String × Value))
    (coll : List Doc) :
    (Model.findOne cfg sch obj coll).isSome = coll.any (matchesFilter cfg sch obj) := by
  unfold Model.findOne
  induction coll with
  | nil => rfl
  | cons x xs ih =>
    rw [List.find?_cons, List.any_cons]
    cases matchesFilter cfg sch obj x
    · simpa using ih
    · rfl

/-- The flag of a comment-like toggle is the negation of whether the relation
existed before the call. -/
theorem toggleCommentLike_flag (cfg : Config) (user : ObjectId) (commentId : String) (s : Store)
    (hv : isValidObjectId commentId = true) :
    ∃ message, (toggleCommentLike cfg user commentId s).2
      = .json 200 ⟨"isLiked", !hasRelation s .LikeComment user (hexToNat commentId.data)⟩
          message := by
  have hfun : isRelation .LikeComment user (hexToNat commentId.data)
      = matchesFilter cfg likesSchema [("comment", .str commentId), ("likedBy", .oid user)] :=
    funext fun d => (matchesFilter_comment cfg user commentId d).symm
  have hs := findOne_isSome cfg likesSchema
    [("comment", .str commentId), ("likedBy", .oid user)] s.likes
  unfold toggleCommentLike
  simp only [hv, Bool.not_true, Bool.false_eq_true, ↓reduceIte, hasRelation, Store.ledger, hfun]
  rw [← hs]
  cases Model.findOne cfg likesSchema
    [("comment", .str commentId), ("likedBy", .oid user)] s.likes <;> exact ⟨_, rfl⟩

/-- The flag of a tweet-like toggle is the negation of whether the relation existed
before the call. -/
theorem toggleTweetLike_flag (cfg : Config) (user : ObjectId) (tweetId : String) (s : Store)
    (hv : isValidObjectId tweetId = true) :
    ∃ message, (toggleTweetLike cfg user tweetId s).2
      = .json 200 ⟨"isLiked", !hasRelation s .LikeTweet user (hexToNat tweetId.data)⟩
          message := by
  have hfun : isRelation .LikeTweet user (hexToNat tweetId.data)
      = matchesFilter cfg likesSchema [("tweet", .str tweetId), ("likedBy", .oid user)] :=
    funext fun d => (matchesFilter_tweet cfg user tweetId d).symm
  have hs := findOne_isSome cfg likesSchema
    [("tweet", .str tweetId), ("likedBy", .oid user)] s.likes
  unfold toggleTweetLike
  simp only [hv, Bool.not_true, Bool.false_eq_true, ↓reduceIte, hasRelation, Store.ledger, hfun]
  rw [← hs]
  cases Model.findOne cfg likesSchema
    [("tweet", .str tweetId), ("likedBy", .oid user)] s.likes <;> exact ⟨_, rfl⟩

/-- The flag of a subscription toggle that no hub interrupts is the negation of
whether the relation existed before the call. -/
theorem toggleSubscription_flag (cfg : Config) (user : User) (channelId : String) (s : Store)
    (hv : isValidObjectId channelId = true) (hne : (channelId == toHexString user.id) = false) :
    ∃ message, (toggleSubscription cfg none user channelId s).2.2
      = .json 200
          ⟨"subscribed", !hasRelation s .Subscription user.id (hexToNat channelId.data)⟩
          message := by
  have hfun : isRelation .Subscription user.id (hexToNat channelId.data)
      = matchesFilter cfg subscriptionSchema
          [("subscriber", .oid user.id), ("channel", .str channelId)] :=
    funext fun d => (matchesFilter_subscription cfg user.id channelId d).symm
  have hs := findOne_isSome cfg subscriptionSchema
    [("subscriber", .oid user.id), ("channel", .str channelId)] s.subscriptions
  unfold toggleSubscription
  simp only [hv, hne, Bool.not_true, Bool.false_eq_true, ↓reduceIte, hasRelation, Store.ledger,
    hfun]
  rw [← hs]
  cases Model.findOne cfg subscriptionSchema
    [("subscriber", .oid user.id), ("channel", .str channelId)] s.subscriptions <;>
      exact ⟨_, rfl⟩

/-! ### Sequential and concurrent toggles on one tuple -/

/-- C4, counterexample: two concurrent calls of `toggleCommentLike` by user 7 on the
sample comment, scheduled so that both run their `findOne` before either
writes, leave two relations for the tuple although the number of calls is even;
three calls scheduled in the same way leave three. -/
theorem concurrent_toggles_duplicate :
    isInterleaving 2 [0, 1, 0, 1] = true ∧
    relationCount (concurrentCommentLikes ⟨false⟩ 7 sampleId 2 [0, 1, 0, 1] Store.empty)
      .LikeComment 7 (hexToNat sampleId.data) = 2 ∧
    relationCount (concurrentCommentLikes ⟨true⟩ 7 sampleId 2 [0, 1, 0, 1] Store.empty)
      .LikeComment 7 (hexToNat sampleId.data) = 2 ∧
    isInterleaving 3 [0, 1, 2, 0, 1, 2] = true ∧
    relationCount (concurrentCommentLikes ⟨false⟩ 7 sampleId 3 [0, 1, 2, 0, 1, 2] Store.empty)
      .LikeComment 7 (hexToNat sampleId.data) = 3 := by
  decide

/-- C4, amended: when `n` toggle calls by one user on one target are run one after
the other, on a ledger whose `_id`s are distinct and which holds no relation
for the tuple, the ledger afterwards holds exactly one relation for the tuple
if `n` is odd and none if `n` is even.  This holds for `toggleCommentLike`, for
`toggleTweetLike`, and for `toggleSubscription` on a channel id that is not the
string form of the user's own id. -/
theorem sequential_toggles_parity (cfg : Config) (io : Option Hub) (user : User)
    (targetId : String) (n : Nat) (s : Store)
    (hv : isValidObjectId targetId = true)
    (hl : (s.likes.map Doc.id).Nodup) (hsub : (s.subscriptions.map Doc.id).Nodup) :
    (relationCount s .LikeComment user.id (hexToNat targetId.data) = 0 →
      relationCount (repeatCall (fun x => (toggleCommentLike cfg user.id targetId x).1) n s)
        .LikeComment user.id (hexToNat targetId.data) = n % 2) ∧
    (relationCount s .LikeTweet user.id (hexToNat targetId.data) = 0 →
      relationCount (repeatCall (fun x => (toggleTweetLike cfg user.id targetId x).1) n s)
        .LikeTweet user.id (hexToNat targetId.data) = n % 2) ∧
    ((targetId == toHexString user.id) = false →
      relationCount s .Subscription user.id (hexToNat targetId.data) = 0 →
      relationCount (repeatCall (fun x => (toggleSubscription cfg io user targetId x).1) n s)
        .Subscription user.id (hexToNat targetId.data) = n % 2) := by
  refine ⟨?_, ?_, ?_⟩
  · intro h0
    have key := repeatCall_flip (fun x => (toggleCommentLike cfg user.id targetId x).1)
      (fun x => (x.likes.map Doc.id).Nodup)
      (fun x => relationCount x .LikeComment user.id (hexToNat targetId.data))
      (fun x hI hm => toggleCommentLike_flip cfg user.id targetId x hv hI hm) n s hl
      (by simp only [h0]; omega)
    simp only [h0] at key
    rw [key]
    rcases Nat.mod_two_eq_zero_or_one n with h | h <;> simp [h]
  · intro h0
    have key := repeatCall_flip (fun x => (toggleTweetLike cfg user.id targetId x).1)
      (fun x => (x.likes.map Doc.id).Nodup)
      (fun x => relationCount x .LikeTweet user.id (hexToNat targetId.data))
      (fun x hI hm => toggleTweetLike_flip cfg user.id targetId x hv hI hm) n s hl
      (by simp only [h0]; omega)
    simp only [h0] at key
    rw [key]
    rcases Nat.mod_two_eq_zero_or_one n with h | h <;> simp [h]
  · intro hs h0
    have key := repeatCall_flip (fun x => (toggleSubscription cfg io user targetId x).1)
      (fun x => (x.subscriptions.map Doc.id).Nodup)
      (fun x => relationCount x .Subscription user.id (hexToNat targetId.data))
      (fun x hI hm => toggleSubscription_flip cfg io user targetId x hv hs hI hm) n s hsub
      (by simp only [h0]; omega)
    simp only [h0] at key
    rw [key]
    rcases Nat.mod_two_eq_zero_or_one n with h | h <;> simp [h]

/-- C4, witness of the amended claim: three calls in a row by user 7 on the sample
id, from the empty store, leave one relation of each of the three kinds. -/
theorem sequential_toggles_parity_witness :
    isValidObjectId sampleId = true ∧
    (Store.empty.likes.map Doc.id).Nodup ∧ (Store.empty.subscriptions.map Doc.id).Nodup ∧
    relationCount (repeatCall (fun x => (toggleCommentLike ⟨false⟩ otherUser.id sampleId x).1)
        3 Store.empty) .LikeComment otherUser.id (hexToNat sampleId.data) = 3 % 2 ∧
    relationCount (repeatCall (fun x => (toggleTweetLike ⟨false⟩ otherUser.id sampleId x).1)
        3 Store.empty) .LikeTweet otherUser.id (hexToNat sampleId.data) = 3 % 2 ∧
    relationCount (repeatCall
        (fun x => (toggleSubscription ⟨false⟩ (some quietHub) otherUser sampleId x).1)
        3 Store.empty) .Subscription otherUser.id (hexToNat sampleId.data) = 3 % 2 :=
  have h := sequential_toggles_parity ⟨false⟩ (some quietHub) otherUser sampleId 3 Store.empty
    (by decide) (by decide) (by decide)
  ⟨by decide, by decide, by decide, h.1 (by decide), h.2.1 (by decide),
    h.2.2 (by decide) (by decide)⟩

/-! ### Self-subscription -/

theorem hexVal_hexDigit : ∀ n : Nat, n < 16 → (hexVal (hexDigit n)).isSome = true := by
  decide

theorem isValidObjectId_toHexString (o : ObjectId) : isValidObjectId (toHexString o) = true := by
  simp only [isValidObjectId, toHexString, List.length_map, List.length_reverse,
    List.length_range, beq_self_eq_true, Bool.true_and, List.all_eq_true, List.mem_map]
  rintro c ⟨i, _, rfl⟩
  exact hexVal_hexDigit _ (Nat.mod_lt _ (by decide))

/-- A channel id equal to the string form of the user's own id is refused. -/
theorem toggleSubscription_self (cfg : Config) (io : Option Hub) (user : User) (s : Store) :
    toggleSubscription cfg io user (toHexString user.id) s
      = (s, [], .apiError 400 "You cannot subscribe to your own channel") := by
  simp [toggleSubscription, isValidObjectId_toHexString]

/-- C5: the failing input of the self-subscription check.  The upper-case spelling
of the user's own id is a well-formed id that casts to the user's `_id`, yet
the comparison of strings lets it pass: the call answers `subscribed: true` and
stores a subscription of the user to their own channel. -/
theorem self_subscription_upper_case :
    isValidObjectId sampleIdUpper = true ∧
    castObjectId (.str sampleIdUpper) = sampleUser.id ∧
    toHexString sampleUser.id = sampleId ∧
    (toggleSubscription ⟨false⟩ none sampleUser sampleIdUpper Store.empty).2.2
      = .json 200 ⟨"subscribed", true⟩ "Subscribed successfully" ∧
    (toggleSubscription ⟨false⟩ none sampleUser sampleIdUpper Store.empty).1.subscriptions
      = [⟨1, [("subscriber", sampleUser.id), ("channel", sampleUser.id)]⟩] ∧
    hasRelation (toggleSubscription ⟨true⟩ none sampleUser sampleIdUpper Store.empty).1
      .Subscription sampleUser.id sampleUser.id = true ∧
    (toggleSubscription ⟨false⟩ none sampleUser sampleId Store.empty).2.2
      = .apiError 400 "You cannot subscribe to your own channel" := by
  decide

/-! ### Targets that do not exist, and malformed ids -/

theorem findOne_none_of_count (cfg : Config) (sch : Schema) (obj : List (String × Value))
    (coll : List Doc) (h : coll.countP (matchesFilter cfg sch obj) = 0) :
    Model.findOne cfg sch obj coll = none := by
  unfold Model.findOne
  rw [List.find?_eq_none]
  rw [List.countP_eq_zero] at h
  exact h

/-- A toggle of a collection that holds no document matching the filter stores one. -/
theorem toggleColl_create_count (cfg : Config) (sch : Schema) (obj : List (String × Value))
    (coll : List Doc)
    (hnew : matchesFilter cfg sch obj ⟨freshId coll, sch.castDoc obj⟩ = true)
    (h : coll.countP (matchesFilter cfg sch obj) = 0) :
    (toggleColl cfg sch obj coll).countP (matchesFilter cfg sch obj) = 1 := by
  unfold toggleColl
  rw [findOne_none_of_count cfg sch obj coll h]
  simp [Model.create, List.countP_append, h, hnew]

/-- C6, counterexample: on the empty store, where no video, comment, tweet or user
exists, each toggle called with the well-formed sample id ends with status 200
and not with a not-found error, and the comment, tweet and subscription toggles
store the relation. -/
theorem toggle_without_target :
    Store.empty.videos = [] ∧ Store.empty.comments = [] ∧ Store.empty.tweets = [] ∧
    Store.empty.users = [] ∧
    (toggleVideoLike ⟨false⟩ 7 sampleId Store.empty).2
      = .json 200 ⟨"isLiked", true⟩ "Liked the video successfully" ∧
    (toggleCommentLike ⟨false⟩ 7 sampleId Store.empty).2
      = .json 200 ⟨"isLiked", true⟩ "comment Liked successfully" ∧
    hasRelation (toggleCommentLike ⟨false⟩ 7 sampleId Store.empty).1 .LikeComment 7
      (hexToNat sampleId.data) = true ∧
    (toggleTweetLike ⟨false⟩ 7 sampleId Store.empty).2
      = .json 200 ⟨"isLiked", true⟩ "Tweet Liked successfully" ∧
    hasRelation (toggleTweetLike ⟨false⟩ 7 sampleId Store.empty).1 .LikeTweet 7
      (hexToNat sampleId.data) = true ∧
    (toggleSubscription ⟨false⟩ none otherUser sampleId Store.empty).2.2
      = .json 200 ⟨"subscribed", true⟩ "Subscribed successfully" ∧
    hasRelation (toggleSubscription ⟨false⟩ none otherUser sampleId Store.empty).1
      .Subscription 7 (hexToNat sampleId.data) = true := by
  decide

/-- C6, amended: no toggle checks that its target exists.  For every store and
every well-formed target id, whether or not the id references an existing
entity, no toggle ends with a not-found error, and `toggleCommentLike`,
`toggleTweetLike` and `toggleSubscription` (on a channel id that is not the
string form of the user's own id) store the relation when the ledger held none
for the tuple. -/
theorem toggle_ignores_target_existence (cfg : Config) (io : Option Hub) (user : User)
    (targetId : String) (s : Store) (hv : isValidObjectId targetId = true) :
    (toggleVideoLike cfg user.id targetId s).2.isNotFound = false ∧
    (toggleCommentLike cfg user.id targetId s).2.isNotFound = false ∧
    (toggleTweetLike cfg user.id targetId s).2.isNotFound = false ∧
    (toggleSubscription cfg io user targetId s).2.2.isNotFound = false ∧
    (relationCount s .LikeComment user.id (hexToNat targetId.data) = 0 →
      relationCount (toggleCommentLike cfg user.id targetId s).1 .LikeComment user.id
        (hexToNat targetId.data) = 1) ∧
    (relationCount s .LikeTweet user.id (hexToNat targetId.data) = 0 →
      relationCount (toggleTweetLike cfg user.id targetId s).1 .LikeTweet user.id
        (hexToNat targetId.data) = 1) ∧
    ((targetId == toHexString user.id) = false →
      relationCount s .Subscription user.id (hexToNat targetId.data) = 0 →
      relationCount (toggleSubscription cfg io user targetId s).1 .Subscription user.id
        (hexToNat targetId.data) = 1) := by
  refine ⟨?_, ?_, ?_, ?_, ?_, ?_, ?_⟩
  · unfold toggleVideoLike
    simp only [hv, Bool.not_true, Bool.false_eq_true, ↓reduceIte]
    cases Model.findOne cfg likesSchema
      [("video", .str targetId), ("likedBy", .oid user.id)] s.likes <;> rfl
  · unfold toggleCommentLike
    simp only [hv, Bool.not_true, Bool.false_eq_true, ↓reduceIte]
    cases Model.findOne cfg likesSchema
      [("comment", .str targetId), ("likedBy", .oid user.id)] s.likes <;> rfl
  · unfold toggleTweetLike
    simp only [hv, Bool.not_true, Bool.false_eq_true, ↓reduceIte]
    cases Model.findOne cfg likesSchema
      [("tweet", .str targetId), ("likedBy", .oid user.id)] s.likes <;> rfl
  · unfold toggleSubscription
    simp only [hv, Bool.not_true, Bool.false_eq_true, ↓reduceIte]
    cases (targetId == toHexString user.id)
    · simp only [Bool.false_eq_true, ↓reduceIte]
      cases Model.findOne cfg subscriptionSchema
          [("subscriber", .oid user.id), ("channel", .str targetId)] s.subscriptions with
      | some e => rfl
      | none =>
        cases io with
        | none => rfl
        | some hub =>
          simp only []
          cases hub.emit _ <;> rfl
    · rfl
  · intro h0
    rw [toggleCommentLike_store cfg user.id targetId s hv]
    have hfun : isRelation .LikeComment user.id (hexToNat targetId.data)
        = matchesFilter cfg likesSchema
            [("comment", .str targetId), ("likedBy", .oid user.id)] :=
      funext fun d => (matchesFilter_comment cfg user.id targetId d).symm
    simp only [relationCount, Store.ledger] at h0 ⊢
    rw [hfun] at h0 ⊢
    exact toggleColl_create_count cfg likesSchema _ s.likes
      (matchesFilter_new_comment cfg user.id _ targetId) h0
  · intro h0
    rw [toggleTweetLike_store cfg user.id targetId s hv]
    have hfun : isRelation .LikeTweet user.id (hexToNat targetId.data)
        = matchesFilter cfg likesSchema
            [("tweet", .str targetId), ("likedBy", .oid user.id)] :=
      funext fun d => (matchesFilter_tweet cfg user.id targetId d).symm
    simp only [relationCount, Store.ledger] at h0 ⊢
    rw [hfun] at h0 ⊢
    exact toggleColl_create_count cfg likesSchema _ s.likes
      (matchesFilter_new_tweet cfg user.id _ targetId) h0
  · intro hs h0
    rw [toggleSubscription_store cfg io user targetId s hv hs]
    have hfun : isRelation .Subscription user.id (hexToNat targetId.data)
        = matchesFilter cfg subscriptionSchema
            [("subscriber", .oid user.id), ("channel", .str targetId)] :=
      funext fun d => (matchesFilter_subscription cfg user.id targetId d).symm
    simp only [relationCount, Store.ledger] at h0 ⊢
    rw [hfun] at h0 ⊢
    exact toggleColl_create_count cfg subscriptionSchema _ s.subscriptions
      (matchesFilter_new_subscription cfg user.id _ targetId) h0

/-- C6, witness of the amended claim: user 7 and the sample id on the empty store,
where the id references nothing. -/
theorem toggle_ignores_target_existence_witness :
    isValidObjectId sampleId = true ∧
    (toggleVideoLike ⟨false⟩ otherUser.id sampleId Store.empty).2.isNotFound = false ∧
    (toggleCommentLike ⟨false⟩ otherUser.id sampleId Store.empty).2.isNotFound = false ∧
    (toggleTweetLike ⟨false⟩ otherUser.id sampleId Store.empty).2.isNotFound = false ∧
    (toggleSubscription ⟨false⟩ none otherUser sampleId Store.empty).2.2.isNotFound = false ∧
    relationCount (toggleCommentLike ⟨false⟩ otherUser.id sampleId Store.empty).1
      .LikeComment otherUser.id (hexToNat sampleId.data) = 1 ∧
    relationCount (toggleTweetLike ⟨false⟩ otherUser.id sampleId Store.empty).1
      .LikeTweet otherUser.id (hexToNat sampleId.data) = 1 ∧
    relationCount (toggleSubscription ⟨false⟩ none otherUser sampleId Store.empty).1
      .Subscription otherUser.id (hexToNat sampleId.data) = 1 :=
  have h := toggle_ignores_target_existence ⟨false⟩ none otherUser sampleId Store.empty
    (by decide)
  ⟨by decide, h.1, h.2.1, h.2.2.1, h.2.2.2.1, h.2.2.2.2.1 (by decide),
    h.2.2.2.2.2.1 (by decide), h.2.2.2.2.2.2 (by decide) (by decide)⟩

/-- C7: for every target id that is not a well-formed object id, each of the four
toggles fails with a status-400 error and leaves the store, and with it the
ledger, as it was; the subscription toggle emits nothing. -/
theorem toggles_reject_malformed_id (cfg : Config) (io : Option Hub) (user : User)
    (targetId : String) (s : Store) (hv : isValidObjectId targetId = false) :
    toggleVideoLike cfg user.id targetId s = (s, .apiError 400 "Invalid Video Id") ∧
    toggleCommentLike cfg user.id targetId s = (s, .apiError 400 "Comment ID is required") ∧
    toggleTweetLike cfg user.id targetId s = (s, .apiError 400 "Invalid Tweet ID") ∧
    toggleSubscription cfg io user targetId s = (s, [], .apiError 400 "Invalid Channel ID") :=
  ⟨toggleVideoLike_invalid cfg user.id targetId s hv,
    toggleCommentLike_invalid cfg user.id targetId s hv,
    toggleTweetLike_invalid cfg user.id targetId s hv,
    toggleSubscription_invalid cfg io user targetId s hv⟩

/-- C7, witness: the id `not-an-object-id` on a ledger that holds a like. -/
theorem toggles_reject_malformed_id_witness :
    isValidObjectId "not-an-object-id" = false ∧
    toggleVideoLike ⟨false⟩ otherUser.id "not-an-object-id" storeWithCommentLike
      = (storeWithCommentLike, .apiError 400 "Invalid Video Id") ∧
    toggleCommentLike ⟨false⟩ otherUser.id "not-an-object-id" storeWithCommentLike
      = (storeWithCommentLike, .apiError 400 "Comment ID is required") ∧
    toggleTweetLike ⟨false⟩ otherUser.id "not-an-object-id" storeWithCommentLike
      = (storeWithCommentLike, .apiError 400 "Invalid Tweet ID") ∧
    toggleSubscription ⟨false⟩ (some quietHub) otherUser "not-an-object-id" storeWithCommentLike
      = (storeWithCommentLike, [], .apiError 400 "Invalid Channel ID") :=
  ⟨by decide, toggles_reject_malformed_id ⟨false⟩ (some quietHub) otherUser "not-an-object-id"
    storeWithCommentLike (by decide)⟩

/-! ### Notifications -/

/-- A subscription toggle that finds no relation for its tuple stores one. -/
theorem toggle_count_after_create (cfg : Config) (io : Option Hub) (user : User)
    (channelId : String) (s : Store)
    (hv : isValidObjectId channelId = true) (hs : (channelId == toHexString user.id) = false)
    (h0 : relationCount s .Subscription user.id (hexToNat channelId.data) = 0) :
    relationCount (toggleSubscription cfg io user channelId s).1 .Subscription user.id
      (hexToNat channelId.data) = 1 := by
  rw [toggleSubscription_store cfg io user channelId s hv hs]
  have hfun : isRelation .Subscription user.id (hexToNat channelId.data)
      = matchesFilter cfg subscriptionSchema
          [("subscriber", .oid user.id), ("channel", .str channelId)] :=
    funext fun d => (matchesFilter_subscription cfg user.id channelId d).symm
  simp only [relationCount, Store.ledger] at h0 ⊢
  rw [hfun] at h0 ⊢
  exact toggleColl_create_count cfg subscriptionSchema _ s.subscriptions
    (matchesFilter_new_subscription cfg user.id _ channelId) h0

/-- C8: with the notification hub initialised, `toggleSubscription` either creates
the subscription, answers `subscribed: true` and emits exactly one event, named
`notification_received` and addressed to the room whose name is the channel
id; or it does not answer `subscribed: true` (it removed a subscription or it
failed) and emits no event. -/
theorem subscription_notification_emitted (cfg : Config) (hub : Hub) (user : User)
    (channelId : String) (s : Store) :
    ((toggleSubscription cfg (some hub) user channelId s).2.2
        = .json 200 ⟨"subscribed", true⟩ "Subscribed successfully" ∧
      (toggleSubscription cfg (some hub) user channelId s).1.subscriptions
        = s.subscriptions ++ [⟨freshId s.subscriptions,
            [("subscriber", user.id), ("channel", hexToNat channelId.data)]⟩] ∧
      ∃ payload, (toggleSubscription cfg (some hub) user channelId s).2.1
        = [⟨channelId, "notification_received", payload⟩]) ∨
    ((∀ status message, (toggleSubscription cfg (some hub) user channelId s).2.2
        ≠ .json status ⟨"subscribed", true⟩ message) ∧
      (toggleSubscription cfg (some hub) user channelId s).2.1 = []) := by
  unfold toggleSubscription
  cases isValidObjectId channelId with
  | false => exact Or.inr ⟨fun _ _ h => (by simp at h), rfl⟩
  | true =>
    simp only [Bool.not_true, Bool.false_eq_true, ↓reduceIte]
    cases (channelId == toHexString user.id) with
    | true => exact Or.inr ⟨fun _ _ h => (by simp at h), rfl⟩
    | false =>
      simp only [Bool.false_eq_true, ↓reduceIte]
      cases Model.findOne cfg subscriptionSchema
          [("subscriber", .oid user.id), ("channel", .str channelId)] s.subscriptions with
      | some e => exact Or.inr ⟨fun _ _ h => (by simp at h), rfl⟩
      | none =>
        simp only []
        cases hub.emit _ with
        | some err => exact Or.inr ⟨fun _ _ h => (by simp at h), rfl⟩
        | none => exact Or.inl ⟨rfl, rfl, _, rfl⟩

/-- C9, counterexample: the payload of the event emitted when user 7 subscribes to
the sample channel has the fields `type`, `message` and `sender` and no
`recipientId`. -/
theorem notification_payload_without_recipient :
    (toggleSubscription ⟨false⟩ (some quietHub) otherUser sampleId Store.empty).2.1.map
      (fun e => e.payload.map Prod.fst) = [["type", "message", "sender"]] ∧
    (toggleSubscription ⟨false⟩ (some quietHub) otherUser sampleId Store.empty).2.1.map
      (fun e => e.payload.lookup "recipientId") = [none] := by
  decide

/-- C9, amended: every notification payload emitted by `toggleSubscription` has a
type (`SUBSCRIPTION`), a message (the user name followed by ` subscribed to
your channel!`) and a sender carrying the subscribing user's `_id`, `username`
and `avatar`, and nothing else: it has no `recipientId`, and the channel being
subscribed to is named only by the room the event is addressed to. -/
theorem notification_payload_shape (cfg : Config) (io : Option Hub) (user : User)
    (channelId : String) (s : Store) (e : Emit)
    (he : e ∈ (toggleSubscription cfg io user channelId s).2.1) :
    e.payload = [("type", .str "SUBSCRIPTION"),
        ("message", .str (user.username ++ " subscribed to your channel!")),
        ("sender", .obj [("_id", .oid user.id), ("username", .str user.username),
          ("avatar", .str user.avatar)])] ∧
    e.payload.lookup "recipientId" = none ∧
    e.room = channelId := by
  unfold toggleSubscription at he
  cases hv : isValidObjectId channelId with
  | false => simp [hv] at he
  | true =>
    simp only [hv, Bool.not_true, Bool.false_eq_true, ↓reduceIte] at he
    cases hs : (channelId == toHexString user.id) with
    | true => simp [hs] at he
    | false =>
      simp only [hs, Bool.false_eq_true, ↓reduceIte] at he
      cases hf : Model.findOne cfg subscriptionSchema
          [("subscriber", .oid user.id), ("channel", .str channelId)] s.subscriptions with
      | some d => simp [hf] at he
      | none =>
        simp only [hf] at he
        cases io with
        | none => simp at he
        | some hub =>
          simp only [] at he
          cases hx : hub.emit ⟨channelId, "notification_received",
              [("type", .str "SUBSCRIPTION"),
                ("message", .str (user.username ++ " subscribed to your channel!")),
                ("sender", .obj [("_id", .oid user.id), ("username", .str user.username),
                  ("avatar", .str user.avatar)])]⟩ with
          | some err => simp [hx] at he
          | none =>
            simp only [hx, List.mem_singleton] at he
            subst he
            exact ⟨rfl, rfl, rfl⟩

/-- C9, witness of the amended claim: the event emitted when user 7 subscribes to
the sample channel. -/
theorem notification_payload_shape_witness :
    sampleEmit ∈ (toggleSubscription ⟨false⟩ (some quietHub) otherUser sampleId
      Store.empty).2.1 ∧
    sampleEmit.payload = [("type", .str "SUBSCRIPTION"),
        ("message", .str (otherUser.username ++ " subscribed to your channel!")),
        ("sender", .obj [("_id", .oid otherUser.id), ("username", .str otherUser.username),
          ("avatar", .str otherUser.avatar)])] ∧
    sampleEmit.payload.lookup "recipientId" = none ∧
    sampleEmit.room = sampleId :=
  ⟨by decide, notification_payload_shape ⟨false⟩ (some quietHub) otherUser sampleId Store.empty
    sampleEmit (by decide)⟩

/-- C10, counterexample: when the emit itself raises, the call that created the
subscription does not return status 200: the exception leaves the handler,
while the subscription stays stored. -/
theorem toggle_fails_when_emit_raises :
    hasRelation Store.empty .Subscription 7 (hexToNat sampleId.data) = false ∧
    (toggleSubscription ⟨false⟩ (some failingHub) otherUser sampleId Store.empty).2.2
      = .exception "emit failed" ∧
    hasRelation (toggleSubscription ⟨false⟩ (some failingHub) otherUser sampleId Store.empty).1
      .Subscription 7 (hexToNat sampleId.data) = true := by
  decide

/-- C10, amended: for every state in which `toggleSubscription` creates a
subscription (a well-formed channel id that is not the string form of the
user's own id, and no subscription of the user to the channel), the relation is
stored in every case; the call returns status 200 with `subscribed: true` when
the hub is uninitialised and when the emit returns, as it does for a room with
no connection; when the emit raises, the exception leaves the handler and no
response with status 200 is sent. -/
theorem subscription_created_whatever_the_hub (cfg : Config) (io : Option Hub) (user : User)
    (channelId : String) (s : Store)
    (hv : isValidObjectId channelId = true) (hs : (channelId == toHexString user.id) = false)
    (h0 : relationCount s .Subscription user.id (hexToNat channelId.data) = 0) :
    relationCount (toggleSubscription cfg io user channelId s).1 .Subscription user.id
      (hexToNat channelId.data) = 1 ∧
    (io.isNone = true → (toggleSubscription cfg io user channelId s).2.2
      = .json 200 ⟨"subscribed", true⟩ "Subscribed successfully") ∧
    (∀ hub, io = some hub →
      hub.emit ⟨channelId, "notification_received",
        [("type", .str "SUBSCRIPTION"),
          ("message", .str (user.username ++ " subscribed to your channel!")),
          ("sender", .obj [("_id", .oid user.id), ("username", .str user.username),
            ("avatar", .str user.avatar)])]⟩ = none →
      (toggleSubscription cfg io user channelId s).2.2
        = .json 200 ⟨"subscribed", true⟩ "Subscribed successfully") ∧
    (∀ hub err, io = some hub →
      hub.emit ⟨channelId, "notification_received",
        [("type", .str "SUBSCRIPTION"),
          ("message", .str (user.username ++ " subscribed to your channel!")),
          ("sender", .obj [("_id", .oid user.id), ("username", .str user.username),
            ("avatar", .str user.avatar)])]⟩ = some err →
      (toggleSubscription cfg io user channelId s).2.2 = .exception err) := by
  have hnone : Model.findOne cfg subscriptionSchema
      [("subscriber", .oid user.id), ("channel", .str channelId)] s.subscriptions = none := by
    apply findOne_none_of_count
    have hfun : isRelation .Subscription user.id (hexToNat channelId.data)
        = matchesFilter cfg subscriptionSchema
            [("subscriber", .oid user.id), ("channel", .str channelId)] :=
      funext fun d => (matchesFilter_subscription cfg user.id channelId d).symm
    simp only [relationCount, Store.ledger] at h0
    rw [hfun] at h0
    exact h0
  refine ⟨(toggle_count_after_create cfg io user channelId s hv hs h0), ?_, ?_, ?_⟩
  · intro hio
    cases io with
    | some hub => cases hio
    | none =>
      unfold toggleSubscription
      simp only [hv, hs, hnone, Bool.not_true, Bool.false_eq_true, ↓reduceIte]
  · intro hub hio hemit
    subst hio
    unfold toggleSubscription
    simp only [hv, hs, hnone, hemit, Bool.not_true, Bool.false_eq_true, ↓reduceIte]
  · intro hub err hio hemit
    subst hio
    unfold toggleSubscription
    simp only [hv, hs, hnone, hemit, Bool.not_true, Bool.false_eq_true, ↓reduceIte]

/-- C10, witness of the amended claim: user 7 subscribes to the sample channel on
the empty store while the emit raises. -/
theorem subscription_created_whatever_the_hub_witness :
    isValidObjectId sampleId = true ∧ (sampleId == toHexString otherUser.id) = false ∧
    relationCount Store.empty .Subscription otherUser.id (hexToNat sampleId.data) = 0 ∧
    relationCount (toggleSubscription ⟨false⟩ (some failingHub) otherUser sampleId
      Store.empty).1 .Subscription otherUser.id (hexToNat sampleId.data) = 1 ∧
    (toggleSubscription ⟨false⟩ (some failingHub) otherUser sampleId Store.empty).2.2
      = .exception "emit failed" :=
  have h := subscription_created_whatever_the_hub ⟨false⟩ (some failingHub) otherUser sampleId
    Store.empty (by decide) (by decide) (by decide)
  ⟨by decide, by decide, by decide, h.1, h.2.2.2 failingHub "emit failed" rfl rfl⟩

/-! ### Fan-out of a notification and the rooms of a connection -/

/-- An event that `toggleSubscription` emits is addressed to the room named by the
channel id. -/
theorem emitted_room (cfg : Config) (io : Option Hub) (user : User) (channelId : String)
    (s : Store) (e : Emit) (he : e ∈ (toggleSubscription cfg io user channelId s).2.1) :
    e.room = channelId := by
  unfold toggleSubscription at he
  cases hv : isValidObjectId channelId with
  | false => simp [hv] at he
  | true =>
    simp only [hv, Bool.not_true, Bool.false_eq_true, ↓reduceIte] at he
    cases hs : (channelId == toHexString user.id) with
    | true => simp [hs] at he
    | false =>
      simp only [hs, Bool.false_eq_true, ↓reduceIte] at he
      cases hf : Model.findOne cfg subscriptionSchema
          [("subscriber", .oid user.id), ("channel", .str channelId)] s.subscriptions with
      | some d => simp [hf] at he
      | none =>
        simp only [hf] at he
        cases io with
        | none => simp at he
        | some hub =>
          simp only [] at he
          cases hx : hub.emit ⟨channelId, "notification_received",
              [("type", .str "SUBSCRIPTION"),
                ("message", .str (user.username ++ " subscribed to your channel!")),
                ("sender", .obj [("_id", .oid user.id), ("username", .str user.username),
                  ("avatar", .str user.avatar)])]⟩ with
          | some err => simp [hx] at he
          | none =>
            simp only [hx, List.mem_singleton] at he
            subst he
            rfl

/-- C11: publishing the event that `toggleSubscription` emits for a channel delivers
it to every socket that is in the room named by the channel id, to each of them
once and to no other socket; with no socket in that room the publication
delivers nothing, returns, and leaves the server as it was (nothing is
stored). -/
theorem notification_fan_out (cfg : Config) (io : SocketServer) (user : User)
    (channelId : String) (s : Store) (e : Emit)
    (he : e ∈ (toggleSubscription cfg (some io.hub) user channelId s).2.1) :
    (∀ sk ∈ io.sockets, channelId ∈ sk.rooms → (sk.id, e) ∈ (io.emit e).2) ∧
    (io.emit e).2.map Prod.fst
      = (io.sockets.filter (fun sk => sk.rooms.contains channelId)).map Socket.id ∧
    (io.emit e).1 = io ∧
    ((∀ sk ∈ io.sockets, channelId ∉ sk.rooms) → (io.emit e).2 = []) := by
  have hr := emitted_room cfg (some io.hub) user channelId s e he
  refine ⟨?_, ?_, rfl, ?_⟩
  · intro sk hsk hroom
    simp only [SocketServer.emit, List.mem_map, List.mem_filter, hr]
    exact ⟨sk, ⟨hsk, by simpa using hroom⟩, rfl⟩
  · simp [SocketServer.emit, hr, List.map_map, Function.comp_def]
  · intro hnone
    simp only [SocketServer.emit, hr, List.map_eq_nil_iff, List.filter_eq_nil_iff]
    intro sk hsk
    simpa using hnone sk hsk

/-- C11, witness: with two sockets of user 7 in the room of user 7 and a third
socket elsewhere, the event of a new subscription to user 7 goes to the two
sockets; on a server with no connection it goes nowhere and the call still
answers. -/
theorem notification_fan_out_witness :
    subscribeEmit ∈ (toggleSubscription ⟨false⟩ (some serverWithTwoHandles.hub) sampleUser
      otherUserId Store.empty).2.1 ∧
    (serverWithTwoHandles.emit subscribeEmit).2
      = [("sock-a", subscribeEmit), ("sock-b", subscribeEmit)] ∧
    (serverWithTwoHandles.emit subscribeEmit).1 = serverWithTwoHandles ∧
    (initializeSocket.emit subscribeEmit).2 = [] ∧
    (toggleSubscription ⟨false⟩ (some initializeSocket.hub) sampleUser otherUserId
      Store.empty).2.2 = .json 200 ⟨"subscribed", true⟩ "Subscribed successfully" :=
  have h := notification_fan_out ⟨false⟩ serverWithTwoHandles sampleUser otherUserId Store.empty
    subscribeEmit (by decide)
  ⟨by decide, by decide, h.2.2.1, by decide, by decide⟩

/-- C12: the failing input of the room membership.  A client of user 7 connects to
the server that `initializeSocket` created: its socket is in the room named by
the socket id and in no room named by the id of user 7, and the event of a
later subscription to the channel of user 7, emitted to the room named by that
id, is delivered to no socket. -/
theorem connection_joins_no_recipient_room :
    (initializeSocket.connect "sock-1" otherUserId).sockets = [⟨"sock-1", ["sock-1"]⟩] ∧
    toHexString otherUser.id = otherUserId ∧
    (toggleSubscription ⟨false⟩ (some (initializeSocket.connect "sock-1" otherUserId).hub)
      sampleUser otherUserId Store.empty).2.1 = [subscribeEmit] ∧
    ((initializeSocket.connect "sock-1" otherUserId).emit subscribeEmit).2 = [] := by
  decide

/-! ### Channel statistics -/

theorem head?_filter_eq_find? {α : Type} (p : α → Bool) (l : List α) :
    (l.filter p).head? = l.find? p := by
  induction l with
  | nil => rfl
  | cons x xs ih =>
    rw [List.filter_cons, List.find?_cons]
    cases p x
    · simp [ih]
    · rfl

/-- What `getChannelStats` returns for a user that has a record: the subscriptions
whose `channel` is the user, the videos whose `owner` is the user, the sum of
their views, and the likes counted under the path `video`. -/
theorem getChannelStats_totals (userId : ObjectId) (s : Store) (u : User)
    (hu : s.users.find? (fun x => x.id == userId) = some u) :
    getChannelStats (some userId) s
      = .json 200
          { id := u.id, username := u.username, fullname := u.fullname, avatar := u.avatar,
            totalSubscribers :=
              (s.subscriptions.filter (fun d => d.get "channel" == some u.id)).length,
            totalVideos := (s.videos.filter (fun v => v.owner == u.id)).length,
            totalViews := ((s.videos.filter (fun v => v.owner == u.id)).map VideoDoc.views).sum,
            totalLikes := ((s.videos.filter (fun v => v.owner == u.id)).map (fun v =>
              (s.likes.filter (fun d => d.get "video" == some v.id)).length)).sum }
          "Channel stats fetched successfully" := by
  have hh := head?_filter_eq_find? (fun x : User => x.id == userId) s.users
  rw [hu] at hh
  unfold getChannelStats
  cases hf : s.users.filter (fun x => x.id == userId) with
  | nil => rw [hf] at hh; cases hh
  | cons x xs =>
    rw [hf] at hh
    simp only [List.head?_cons, Option.some.injEq] at hh
    subst hh
    simp only [hf, List.map_cons, List.map_map, Function.comp_def, List.length_map]

/-- C13: the failing input of the like total.  User 1 owns three videos with 10, 20
and 30 views; the ledger holds, under the path `videos` of the likes schema,
one like of the first video, none of the second and two of the third.
`getChannelStats` answers 3 videos and 60 views, and 0 likes where the claim
says 3, since its lookup reads the path `video`; the total is also 0 after
user 7 has liked the first video through `toggleVideoLike`, and it is 3 only
when the likes are held under `video`. -/
theorem channel_stats_miss_likes :
    relationCount statsStore .LikeVideo 7 11 = 1 ∧
    relationCount statsStore .LikeVideo 7 13 = 1 ∧
    relationCount statsStore .LikeVideo 8 13 = 1 ∧
    getChannelStats (some 1) statsStore
      = .json 200 ⟨1, "owner", "Owner One", "owner.png", 0, 3, 60, 0⟩
          "Channel stats fetched successfully" ∧
    (toggleVideoLike ⟨false⟩ 7 "00000000000000000000000b" videosOnlyStore).2
      = .json 200 ⟨"isLiked", true⟩ "Liked the video successfully" ∧
    getChannelStats (some 1)
        (toggleVideoLike ⟨false⟩ 7 "00000000000000000000000b" videosOnlyStore).1
      = .json 200 ⟨1, "owner", "Owner One", "owner.png", 0, 3, 60, 0⟩
          "Channel stats fetched successfully" ∧
    getChannelStats (some 1) statsStoreVideoPath
      = .json 200 ⟨1, "owner", "Owner One", "owner.png", 0, 3, 60, 3⟩
          "Channel stats fetched successfully" := by
  decide

/-- C14: for an authenticated caller `getChannelStats` fails, with the status-500
error `Stats could not be calculated`, exactly when no user record has the
caller's id; when a record has it the call answers 200 with the statistics of
that id, and all four totals are 0 for an owner with no video and no
subscriber. -/
theorem getChannelStats_fails_iff (userId : ObjectId) (s : Store) :
    (getChannelStats (some userId) s = .apiError 500 "Stats could not be calculated"
      ↔ ∀ u ∈ s.users, u.id ≠ userId) ∧
    ((∃ u ∈ s.users, u.id = userId) →
      ∃ st, getChannelStats (some userId) s = .json 200 st "Channel stats fetched successfully"
        ∧ st.id = userId
        ∧ ((∀ v ∈ s.videos, v.owner ≠ userId) →
            (∀ d ∈ s.subscriptions, d.get "channel" ≠ some userId) →
            st.totalSubscribers = 0 ∧ st.totalVideos = 0 ∧ st.totalViews = 0
              ∧ st.totalLikes = 0)) := by
  constructor
  · constructor
    · intro h u hu hid
      have hex : ∃ x, s.users.find? (fun x => x.id == userId) = some x := by
        cases hf : s.users.find? (fun x => x.id == userId) with
        | some x => exact ⟨x, rfl⟩
        | none =>
          rw [List.find?_eq_none] at hf
          exact absurd (by simpa using hid) (hf u hu)
      obtain ⟨x, hx⟩ := hex
      rw [getChannelStats_totals userId s x hx] at h
      cases h
    · intro h
      have hf : s.users.filter (fun u => u.id == userId) = [] := by
        rw [List.filter_eq_nil_iff]
        intro u hu
        simpa using h u hu
      simp [getChannelStats, hf]
  · rintro ⟨u, hu, hid⟩
    have hex : ∃ x, s.users.find? (fun x => x.id == userId) = some x := by
      cases hf : s.users.find? (fun x => x.id == userId) with
      | some x => exact ⟨x, rfl⟩
      | none =>
        rw [List.find?_eq_none] at hf
        exact absurd (by simpa using hid) (hf u hu)
    obtain ⟨x, hx⟩ := hex
    have hxid : x.id = userId := by simpa using List.find?_some hx
    refine ⟨_, getChannelStats_totals userId s x hx, hxid, ?_⟩
    intro hv hsub
    have h1 : s.videos.filter (fun v => v.owner == x.id) = [] := by
      rw [List.filter_eq_nil_iff]
      intro v hvm
      simpa [hxid] using hv v hvm
    have h2 : s.subscriptions.filter (fun d => d.get "channel" == some x.id) = [] := by
      rw [List.filter_eq_nil_iff]
      intro d hd
      simpa [hxid] using hsub d hd
    simp [h1, h2]

/-- C14, witness: user 7 has a record in the sample store, owns no video and has no
subscriber; user 5 has no record. -/
theorem getChannelStats_fails_iff_witness :
    (∃ u ∈ statsStore.users, u.id = 7) ∧
    getChannelStats (some 7) statsStore
      = .json 200 ⟨7, "ravi", "Ravi Iyer", "ravi.png", 0, 0, 0, 0⟩
          "Channel stats fetched successfully" ∧
    (∀ u ∈ statsStore.users, u.id ≠ 5) ∧
    getChannelStats (some 5) statsStore = .apiError 500 "Stats could not be calculated" :=
  ⟨by decide, by decide, by decide,
    (getChannelStats_fails_iff 5 statsStore).1.mpr (by decide)⟩

/-! ### Liked videos -/

/-- C15: `getLikedVideos` writes nothing, so that every like stays in the ledger,
and every entry it returns carries a video that is in the video collection and
comes from a like of the user whose `video` is the id of that video; a like
whose `video` is the id of no stored video yields no entry. -/
theorem getLikedVideos_drops_stale (user : ObjectId) (s : Store) :
    (getLikedVideos user s).1 = s ∧
    (∃ entries, (getLikedVideos user s).2
        = .json 200 entries "Liked videos fetched successfully" ∧
      ∀ e ∈ entries, e.video.video ∈ s.videos ∧
        ∃ d ∈ s.likes, d.id = e.id ∧ d.get "likedBy" = some user
          ∧ d.get "video" = some e.video.video.id) ∧
    (∀ d ∈ s.likes, (∀ v ∈ s.videos, d.get "video" ≠ some v.id) →
      lookupLikedVideo s d = []) := by
  refine ⟨rfl, ⟨_, rfl, ?_⟩, ?_⟩
  · intro e he
    simp only [List.mem_filterMap, List.mem_map, List.mem_filter, Option.map_eq_some'] at he
    obtain ⟨dv, ⟨d, ⟨hd, hm⟩, rfl⟩, lv, hlv, rfl⟩ := he
    simp only at hlv
    have hmem : lv ∈ lookupLikedVideo s d := List.mem_of_mem_head? hlv
    simp only [lookupLikedVideo, List.mem_map, List.mem_filter] at hmem
    obtain ⟨v, ⟨hv, hvid⟩, rfl⟩ := hmem
    simp only [Bool.and_eq_true, beq_iff_eq] at hm
    refine ⟨hv, d, hd, rfl, hm.1, ?_⟩
    simpa using (beq_iff_eq.mp hvid).symm
  · intro d _ hnone
    simp only [lookupLikedVideo, List.map_eq_nil_iff, List.filter_eq_nil_iff]
    intro v hv hvid
    exact hnone v hv (by simpa using (beq_iff_eq.mp hvid).symm)

/-- C15, witness: in the store where user 7 likes video 11 and the removed video 99,
the call leaves the store as it was and the like of video 99 yields no entry. -/
theorem getLikedVideos_drops_stale_witness :
    (getLikedVideos 7 staleLikeStore).1 = staleLikeStore ∧
    lookupLikedVideo staleLikeStore ⟨2, [("video", 99), ("likedBy", 7)]⟩ = [] :=
  ⟨(getLikedVideos_drops_stale 7 staleLikeStore).1,
    (getLikedVideos_drops_stale 7 staleLikeStore).2.2 ⟨2, [("video", 99), ("likedBy", 7)]⟩
      (by decide) (by decide)⟩

/-- The liked-videos list of a store in which one like of user 7 targets a removed
video: the stale like yields no entry and is still in the ledger. -/
theorem getLikedVideos_stale_sample :
    (getLikedVideos 7 staleLikeStore).2
      = .json 200 [⟨1, ⟨⟨11, 1, "first", "one", 10, 60, true, 100⟩,
          some ⟨1, "Owner One", "owner", "owner.png"⟩⟩⟩] "Liked videos fetched successfully" ∧
    (getLikedVideos 7 staleLikeStore).1.likes
      = [⟨1, [("video", 11), ("likedBy", 7)]⟩, ⟨2, [("video", 99), ("likedBy", 7)]⟩] := by
  decide

/-- C16: the failing input of the liked-videos list.  In the sample store user 7
holds, under the path `videos` of the likes schema, likes of videos 11 and 13,
both stored videos; `getLikedVideos` returns no entry, since it reads the path
`video`.  It also returns no entry after user 7 has liked video 11 through
`toggleVideoLike`, and it returns the two entries only when the likes are held
under `video`. -/
theorem liked_videos_miss_likes :
    relationCount statsStore .LikeVideo 7 11 = 1 ∧
    relationCount statsStore .LikeVideo 7 13 = 1 ∧
    (getLikedVideos 7 statsStore).2 = .json 200 [] "Liked videos fetched successfully" ∧
    (getLikedVideos 7
        (toggleVideoLike ⟨false⟩ 7 "00000000000000000000000b" videosOnlyStore).1).2
      = .json 200 [] "Liked videos fetched successfully" ∧
    (getLikedVideos 7 statsStoreVideoPath).2
      = .json 200
          [⟨1, ⟨⟨11, 1, "first", "one", 10, 60, true, 100⟩,
              some ⟨1, "Owner One", "owner", "owner.png"⟩⟩⟩,
            ⟨2, ⟨⟨13, 1, "third", "three", 30, 60, true, 300⟩,
              some ⟨1, "Owner One", "owner", "owner.png"⟩⟩⟩]
          "Liked videos fetched successfully" := by
  decide

/-! ### Numbers of JavaScript -/

theorem roundToDouble_exact (n : Int) (h : n.natAbs < 2 ^ 53) : roundToDouble n = .finite n := by
  simp only [roundToDouble, roundMagnitude, h, ↓reduceIte]
  congr 1
  split <;> omega

theorem shiftFor_quotient_pos (fuel m : Nat) (h : 1 ≤ m) : 1 ≤ m / 2 ^ shiftFor fuel m := by
  induction fuel generalizing m with
  | zero => simpa [shiftFor] using h
  | succ f ih =>
    unfold shiftFor
    by_cases hm : m < 2 ^ 53
    · rw [if_pos hm]
      simpa using h
    · rw [if_neg hm]
      have h2 : 1 ≤ m / 2 := by
        have : 2 ^ 53 ≤ m := Nat.le_of_not_lt hm
        omega
      have := ih (m / 2) h2
      rwa [Nat.div_div_eq_div_mul, ← pow_succ', Nat.add_comm] at this

theorem roundMagnitude_pos (m r : Nat) (hm : 1 ≤ m) (h : roundMagnitude m = some r) : 1 ≤ r := by
  unfold roundMagnitude at h
  by_cases h1 : m < 2 ^ 53
  · rw [if_pos h1] at h
    cases h
    exact hm
  · rw [if_neg h1] at h
    split at h
    · cases h
    · cases h
      have hq := shiftFor_quotient_pos 1100 m hm
      have hk : 0 < 2 ^ shiftFor 1100 m := Nat.two_pow_pos _
      have hs : 1 ≤ significandOf m (shiftFor 1100 m) := by
        unfold significandOf
        simp only
        split <;> omega
      exact Nat.mul_pos hs hk

theorem roundToDouble_negative (n : Int) (h : n < 0) :
    roundToDouble n = .infinity true ∨ ∃ m, m < 0 ∧ roundToDouble n = .finite m := by
  have hd : decide (n < 0) = true := decide_eq_true h
  unfold roundToDouble
  cases hr : roundMagnitude n.natAbs with
  | none => exact Or.inl (by simp only [hd])
  | some r =>
    have hpos := roundMagnitude_pos n.natAbs r (by omega) hr
    exact Or.inr ⟨-(r : Int), by omega, by simp only [h, ↓reduceIte]⟩

theorem skip_or_limit_rejected (P L : JsNumber)
    (h : (∀ p, P = .finite p → p < 1) ∨ (∀ l, L = .finite l → l < 1)) :
    (∃ e, skipCount ((P.sub 1).mul L) = .error e) ∨ (∃ e, limitCount L = .error e) := by
  cases L with
  | nan => exact Or.inr ⟨_, rfl⟩
  | infinity t => exact Or.inr ⟨_, rfl⟩
  | finite l =>
    by_cases hl : l ≤ 0
    · exact Or.inr ⟨_, by simp only [limitCount, hl, ↓reduceIte]; rfl⟩
    · left
      have hl0 : l ≠ 0 := by omega
      cases P with
      | nan => exact ⟨_, rfl⟩
      | infinity b =>
        exact ⟨_, by simp only [JsNumber.sub, JsNumber.mul, hl0, ↓reduceIte, skipCount]; rfl⟩
      | finite p =>
        have hp : p < 1 := by
          rcases h with h | h
          · exact h p rfl
          · exact absurd (h l rfl) (by omega)
        rcases roundToDouble_negative (p - 1) (by omega) with hr | ⟨m, hm, hr⟩
        · exact ⟨_, by simp only [JsNumber.sub, hr, JsNumber.mul, hl0, ↓reduceIte, skipCount]; rfl⟩
        · have hml : m * l < 0 := Int.mul_neg_of_neg_of_pos hm (by omega)
          rcases roundToDouble_negative (m * l) hml with hr2 | ⟨m2, hm2, hr2⟩
          · exact ⟨_, by simp only [JsNumber.sub, hr, JsNumber.mul, hr2, skipCount]; rfl⟩
          · exact ⟨_, by simp only [JsNumber.sub, hr, JsNumber.mul, hr2, skipCount, hm2, true_or,
              ↓reduceIte]; rfl⟩

/-! ### The listing pipeline -/

theorem aggregate_append (regex : RegexEngine) (front back : List Stage) (rows : List VideoDoc) :
    aggregate regex (front ++ back) rows
      = match aggregate regex front rows with
        | .error e => .error e
        | .ok mid => aggregate regex back mid := by
  induction front generalizing rows with
  | nil => rfl
  | cons st rest ih =>
    simp only [List.cons_append, aggregate]
    cases runStage regex st rows with
    | error e => rfl
    | ok out => exact ih out

theorem runStage_mem (regex : RegexEngine) (stage : Stage) (rows out : List VideoDoc)
    (h : runStage regex stage rows = .ok out) : ∀ v ∈ out, v ∈ rows := by
  intro v hv
  cases stage with
  | matchText pattern options =>
    simp only [runStage] at h
    cases hr : regex pattern options with
    | error e => simp [hr] at h
    | ok hasMatch =>
      simp only [hr, Except.ok.injEq] at h
      subst h
      exact (List.mem_filter.mp hv).1
  | matchOwner owner =>
    simp only [runStage, Except.ok.injEq] at h
    subst h
    exact (List.mem_filter.mp hv).1
  | matchPublished flag =>
    simp only [runStage, Except.ok.injEq] at h
    subst h
    exact (List.mem_filter.mp hv).1
  | sort field direction =>
    simp only [runStage] at h
    split at h
    · cases h
    · simp only [Except.ok.injEq] at h
      subst h
      exact (List.mem_insertionSort _).mp hv
  | skip n =>
    simp only [runStage] at h
    cases hc : skipCount n with
    | error e => simp [hc] at h
    | ok count =>
      simp only [hc, Except.ok.injEq] at h
      subst h
      exact List.mem_of_mem_drop hv
  | limit n =>
    simp only [runStage] at h
    cases hc : limitCount n with
    | error e => simp [hc] at h
    | ok count =>
      simp only [hc, Except.ok.injEq] at h
      subst h
      exact List.mem_of_mem_take hv

theorem aggregate_mem (regex : RegexEngine) (stages : List Stage) (rows out : List VideoDoc)
    (h : aggregate regex stages rows = .ok out) : ∀ v ∈ out, v ∈ rows := by
  induction stages generalizing rows with
  | nil =>
    simp only [aggregate, Except.ok.injEq] at h
    subst h
    exact fun v hv => hv
  | cons st rest ih =>
    simp only [aggregate] at h
    cases hr : runStage regex st rows with
    | error e => simp [hr] at h
    | ok mid =>
      simp only [hr] at h
      exact fun v hv => runStage_mem regex st rows mid hr v (ih mid h v hv)

/-- The rows that reach the end of a pipeline satisfy the test of every filter stage
in it: here for a stage at the head of the pipeline. -/
theorem aggregate_matchOwner (regex : RegexEngine) (owner : ObjectId) (rest : List Stage)
    (rows out : List VideoDoc)
    (h : aggregate regex (.matchOwner owner :: rest) rows = .ok out) :
    ∀ v ∈ out, v.owner = owner := by
  intro v hv
  simp only [aggregate, runStage] at h
  have hm := aggregate_mem regex rest _ out h v hv
  simpa using (List.mem_filter.mp hm).2

theorem aggregate_matchPublished (regex : RegexEngine) (rest : List Stage)
    (rows out : List VideoDoc)
    (h : aggregate regex (.matchPublished true :: rest) rows = .ok out) :
    ∀ v ∈ out, v.isPublished = true := by
  intro v hv
  simp only [aggregate, runStage] at h
  have hm := aggregate_mem regex rest _ out h v hv
  simpa using (List.mem_filter.mp hm).2

theorem mem_joinOwner (users : List User) (rows : List VideoDoc) (e : FeedEntry)
    (h : e ∈ joinOwner users rows) : e.video ∈ rows ∧ e.owner.id = e.video.owner := by
  simp only [joinOwner, List.mem_flatten, List.mem_map] at h
  obtain ⟨l, ⟨v, hv, rfl⟩, he⟩ := h
  simp only [List.mem_map, List.mem_filter] at he
  obtain ⟨u, ⟨_, hu⟩, rfl⟩ := he
  exact ⟨hv, by simpa [User.profile] using hu⟩

theorem filter_id_length (users : List User) (o : ObjectId)
    (h : (users.map User.id).Nodup) :
    (users.filter (fun u => u.id == o)).length
      = if users.any (fun u => u.id == o) then 1 else 0 := by
  induction users with
  | nil => rfl
  | cons u us ih =>
    rw [List.map_cons, List.nodup_cons] at h
    by_cases hu : u.id = o
    · have hnone : us.any (fun x => x.id == o) = false := by
        rw [List.any_eq_false]
        intro x hx hxo
        exact h.1 (by
          have : x.id = u.id := by rw [hu]; simpa using hxo
          exact this ▸ List.mem_map_of_mem User.id hx)
      have := ih h.2
      simp only [hnone, Bool.false_eq_true, ↓reduceIte, List.length_eq_zero] at this
      simp [List.filter_cons, hu, this]
    · have hb : (u.id == o) = false := by simpa using hu
      simp only [List.filter_cons, hb, Bool.false_eq_true, ↓reduceIte, List.any_cons,
        Bool.false_or]
      exact ih h.2

/-- With distinct user ids the videos of the joined entries are the rows whose owner
has a record, in the order of the rows. -/
theorem joinOwner_videos (users : List User) (rows : List VideoDoc)
    (h : (users.map User.id).Nodup) :
    (joinOwner users rows).map FeedEntry.video
      = rows.filter (fun v => users.any (fun u => u.id == v.owner)) := by
  induction rows with
  | nil => rfl
  | cons v vs ih =>
    have hcons : joinOwner users (v :: vs)
        = (users.filter (fun u => u.id == v.owner)).map (fun u => (⟨v, u.profile⟩ : FeedEntry))
          ++ joinOwner users vs := by
      simp [joinOwner]
    rw [hcons, List.map_append, ih, List.map_map]
    have hlen := filter_id_length users v.owner h
    have hrep : List.map (FeedEntry.video ∘ fun u => (⟨v, u.profile⟩ : FeedEntry))
        (users.filter (fun u => u.id == v.owner))
        = List.replicate (users.filter (fun u => u.id == v.owner)).length v := by
      rw [List.eq_replicate_iff]
      simp only [List.length_map, List.mem_map, Function.comp_apply, true_and]
      rintro b ⟨x, _, rfl⟩
      rfl
    rw [hrep, hlen, List.filter_cons]
    cases users.any (fun u => u.id == v.owner) <;> simp

/-! ### Pagination of the public listing -/

/-- The value of `skip` for a page `p` and a size `l` of at least 1 whose product
`(p - 1) * l` is below 2^53 is that product: the doubles hold it exactly. -/
theorem skipOf_exact (q : ListQuery) (p l : Int)
    (hp : parseInt (q.page.getD "1") = .finite p) (hl : parseInt (q.limit.getD "10") = .finite l)
    (hp1 : 1 ≤ p) (hl1 : 1 ≤ l) (hskip : (p - 1) * l < 2 ^ 53) :
    skipOf q = .finite ((p - 1) * l) := by
  have hnn : 0 ≤ (p - 1) * l := Int.mul_nonneg (by omega) (by omega)
  have hle : p - 1 ≤ (p - 1) * l := le_mul_of_one_le_right (by omega) hl1
  have h1 : roundToDouble (p - 1) = .finite (p - 1) := roundToDouble_exact _ (by omega)
  have h2 : roundToDouble ((p - 1) * l) = .finite ((p - 1) * l) :=
    roundToDouble_exact _ (by omega)
  simp only [skipOf, hp, hl, JsNumber.sub, h1, JsNumber.mul, h2]

/-- The answer of `getAllVideos` to a request whose page `p` and size `l` are at
least 1, with `(p - 1) * l` below 2^53 and `l` below 2^63: the rows of the
filtered and sorted sequence from position `(p - 1) * l` on, `l` at most,
joined with their owners. -/
theorem getAllVideos_slice (regex : RegexEngine) (q : ListQuery) (s : Store) (p l : Int)
    (seq : List VideoDoc)
    (hp : parseInt (q.page.getD "1") = .finite p) (hl : parseInt (q.limit.getD "10") = .finite l)
    (hp1 : 1 ≤ p) (hl1 : 1 ≤ l) (hskip : (p - 1) * l < 2 ^ 53) (hlim : l < 2 ^ 63)
    (hseq : matchingVideos regex q s = .ok seq) :
    getAllVideos regex q s
      = .json 200 (joinOwner s.users ((seq.drop ((p - 1) * l).toNat).take l.toNat))
          "Videos fetched successfully" := by
  unfold matchingVideos at hseq
  unfold getAllVideos
  cases hst : listingStages q with
  | error e => simp [hst] at hseq
  | ok stages =>
    simp only [hst] at hseq
    have hnn : 0 ≤ (p - 1) * l := Int.mul_nonneg (by omega) (by omega)
    have hs : skipCount (.finite ((p - 1) * l)) = .ok ((p - 1) * l).toNat := by
      have hno : ¬ ((p - 1) * l < 0 ∨ 2 ^ 63 ≤ (p - 1) * l) := by omega
      simp only [skipCount, hno, ↓reduceIte]
    have hc : limitCount (.finite l) = .ok l.toNat := by
      have h1 : ¬ l ≤ 0 := by omega
      have h2 : ¬ (2 : Int) ^ 63 ≤ l := by omega
      simp only [limitCount, h1, h2, ↓reduceIte]
    simp only [aggregate_append, hseq, aggregate, runStage,
      skipOf_exact q p l hp hl hp1 hl1 hskip, hl, hs, hc]

/-- C17, counterexample.  The newest published video of the store belongs to user 9,
who has no user record: it is the first row of the filtered and sorted
sequence, yet page 1 of size 1 is empty, the join with the owners dropping the
row after the page was cut.  And a page size of 2^63, which is at least 1, is
answered with no rows at all: the database rejects the `$limit`.  A page
number of 2^53 + 1 is read as the double 2^53, so that for this page and the
size 1 the handler skips 2^53 - 1 rows, not 2^53. -/
theorem getAllVideos_page_drops_rows :
    matchingVideos (fragmentRegex latinFold) emptyQuery orphanStore
      = .ok [orphanVideo, olderVideo] ∧
    getAllVideos (fragmentRegex latinFold)
        { emptyQuery with page := some "1", limit := some "1" } orphanStore
      = .json 200 [] "Videos fetched successfully" ∧
    getAllVideos (fragmentRegex latinFold)
        { emptyQuery with limit := some "9223372036854775808" } orphanStore
      = .exception "invalid argument to $limit" ∧
    parseInt "9007199254740993" = .finite 9007199254740992 ∧
    skipOf { emptyQuery with page := some "9007199254740993", limit := some "1" }
      = .finite 9007199254740991 :=
  ⟨by rfl, by decide, by decide, by decide, by decide⟩

/-- C17, amended: for a request whose page `p` and size `l` are at least 1 (1 and 10
when not sent), with `(p - 1) * l` below 2^53 and `l` below 2^63, and whose
filter and sort yield the sequence `seq`, `getAllVideos` skips exactly
`(p - 1) * l` rows of `seq`, takes the next `l` rows at most, and answers with
these rows joined with the profile of their owner.  A row whose owner has no
user record is dropped by the join: with distinct user ids the videos returned
are the rows at positions `(p-1)*l` to `(p-1)*l + l - 1` whose owner has a user
record, in their order, at most `l` of them, and all the rows at these
positions when every owner has a record. -/
theorem getAllVideos_page (regex : RegexEngine) (q : ListQuery) (s : Store) (p l : Int)
    (seq : List VideoDoc)
    (hp : parseInt (q.page.getD "1") = .finite p) (hl : parseInt (q.limit.getD "10") = .finite l)
    (hp1 : 1 ≤ p) (hl1 : 1 ≤ l) (hskip : (p - 1) * l < 2 ^ 53) (hlim : l < 2 ^ 63)
    (hseq : matchingVideos regex q s = .ok seq) :
    getAllVideos regex q s
      = .json 200 (joinOwner s.users ((seq.drop ((p - 1) * l).toNat).take l.toNat))
          "Videos fetched successfully" ∧
    ((s.users.map User.id).Nodup →
      (joinOwner s.users ((seq.drop ((p - 1) * l).toNat).take l.toNat)).map FeedEntry.video
        = ((seq.drop ((p - 1) * l).toNat).take l.toNat).filter
            (fun v => s.users.any (fun u => u.id == v.owner)) ∧
      (joinOwner s.users ((seq.drop ((p - 1) * l).toNat).take l.toNat)).length ≤ l.toNat ∧
      ((∀ v ∈ (seq.drop ((p - 1) * l).toNat).take l.toNat, ∃ u ∈ s.users, u.id = v.owner) →
        (joinOwner s.users ((seq.drop ((p - 1) * l).toNat).take l.toNat)).map FeedEntry.video
          = (seq.drop ((p - 1) * l).toNat).take l.toNat)) := by
  constructor
  · exact getAllVideos_slice regex q s p l seq hp hl hp1 hl1 hskip hlim hseq
  · intro hn
    have hv := joinOwner_videos s.users ((seq.drop ((p - 1) * l).toNat).take l.toNat) hn
    refine ⟨hv, ?_, ?_⟩
    · have hlen : ((joinOwner s.users ((seq.drop ((p - 1) * l).toNat).take l.toNat)).map
          FeedEntry.video).length ≤ ((seq.drop ((p - 1) * l).toNat).take l.toNat).length := by
        rw [hv]
        exact List.length_filter_le _ _
      rw [List.length_map] at hlen
      exact Nat.le_trans hlen (List.length_take_le _ _)
    · intro hall
      rw [hv, List.filter_eq_self]
      intro v hvm
      obtain ⟨u, hu, hid⟩ := hall v hvm
      rw [List.any_eq_true]
      exact ⟨u, hu, by simpa using hid⟩

/-- C17, witness of the amended claim: page 2 of size 2 of the published videos of
user 1, newest first, holds the third and the fourth of the five videos; and
on the store with a video of user 9, who has no record, page 1 of size 2 holds
the one row of the two whose owner has a record. -/
theorem getAllVideos_page_witness :
    parseInt (pageTwoQuery.page.getD "1") = .finite 2 ∧
    parseInt (pageTwoQuery.limit.getD "10") = .finite 2 ∧
    matchingVideos (fragmentRegex latinFold) pageTwoQuery listingStore
      = .ok ownerVideosNewestFirst ∧
    getAllVideos (fragmentRegex latinFold) pageTwoQuery listingStore
      = .json 200 (joinOwner listingStore.users
            ((ownerVideosNewestFirst.drop ((2 - 1) * 2 : Int).toNat).take (2 : Int).toNat))
          "Videos fetched successfully" ∧
    joinOwner listingStore.users
        ((ownerVideosNewestFirst.drop ((2 - 1) * 2 : Int).toNat).take (2 : Int).toNat)
      = pageTwoEntries ∧
    getAllVideos (fragmentRegex latinFold) emptyQuery listingStore
      = .json 200 (joinOwner listingStore.users
          ((zetaVideo :: ownerVideosNewestFirst).take 10)) "Videos fetched successfully" ∧
    (joinOwner orphanStore.users
        (([orphanVideo, olderVideo].drop ((1 - 1) * 2 : Int).toNat).take (2 : Int).toNat)).map
          FeedEntry.video
      = [olderVideo] :=
  ⟨by decide, by decide, by rfl,
    (getAllVideos_page (fragmentRegex latinFold) pageTwoQuery listingStore 2 2
      ownerVideosNewestFirst (by decide) (by decide) (by decide) (by decide) (by decide)
      (by decide) (by rfl)).1,
    by decide, by decide,
    ((getAllVideos_page (fragmentRegex latinFold)
      { emptyQuery with page := some "1", limit := some "2" } orphanStore 1 2
      [orphanVideo, olderVideo] (by decide) (by decide) (by decide) (by decide) (by decide)
      (by decide) (by rfl)).2 (by decide)).1.trans (by decide)⟩

/-- C18, counterexample: a request for page 0, for size 0 or for a page that is no
number does not end with an invalid-argument error of status 4xx: the pipeline
goes to the database, and the exception the database raises for its `$skip` or
`$limit` leaves the handler. -/
theorem getAllVideos_page_zero :
    getAllVideos (fragmentRegex latinFold) { emptyQuery with page := some "0" } listingStore
      = .exception "invalid argument to $skip" ∧
    getAllVideos (fragmentRegex latinFold) { emptyQuery with limit := some "0" } listingStore
      = .exception "the limit must be positive" ∧
    getAllVideos (fragmentRegex latinFold) { emptyQuery with page := some "-1", limit := some "-5" }
        listingStore
      = .exception "the limit must be positive" ∧
    getAllVideos (fragmentRegex latinFold) { emptyQuery with page := some "first" } listingStore
      = .exception "invalid argument to $skip" := by
  decide

/-- C18, amended: for every request whose page or whose size is below 1 or is no
number, `getAllVideos` makes no check of its own and raises no `ApiError`: the
request fails with an exception, raised by the database for a `$skip` that is
negative or no number or for a `$limit` that is not positive or no number (or
before that for a `userId` that is no ObjectId or a pattern the database
rejects), and no video is returned. -/
theorem getAllVideos_invalid_page (regex : RegexEngine) (q : ListQuery) (s : Store)
    (h : (∀ p, parseInt (q.page.getD "1") = .finite p → p < 1) ∨
      (∀ l, parseInt (q.limit.getD "10") = .finite l → l < 1)) :
    ∃ message, getAllVideos regex q s = .exception message := by
  unfold getAllVideos
  cases listingStages q with
  | error e => exact ⟨e, rfl⟩
  | ok stages =>
    simp only [aggregate_append]
    cases aggregate regex stages s.videos with
    | error e => exact ⟨e, rfl⟩
    | ok mid =>
      simp only [aggregate, runStage, skipOf]
      rcases skip_or_limit_rejected _ _ h with ⟨e, he⟩ | ⟨e, he⟩
      · simp only [he]
        exact ⟨_, rfl⟩
      · simp only [he]
        cases skipCount (((parseInt (q.page.getD "1")).sub 1).mul
            (parseInt (q.limit.getD "10"))) with
        | error e2 => exact ⟨_, rfl⟩
        | ok count => exact ⟨_, rfl⟩

/-- C18, witness of the amended claim: the request for page 0. -/
theorem getAllVideos_invalid_page_witness :
    (∀ p, parseInt (({ emptyQuery with page := some "0" } : ListQuery).page.getD "1")
      = .finite p → p < 1) ∧
    ∃ message, getAllVideos (fragmentRegex latinFold) { emptyQuery with page := some "0" }
        listingStore
      = .exception message :=
  ⟨by intro p hp; have h0 : parseInt "0" = .finite 0 := by decide
      simp only [Option.getD_some] at hp
      rw [h0] at hp
      cases hp
      decide,
    getAllVideos_invalid_page (fragmentRegex latinFold) { emptyQuery with page := some "0" }
      listingStore
      (Or.inl (by
        intro p hp
        have h0 : parseInt "0" = .finite 0 := by decide
        simp only [Option.getD_some] at hp
        rw [h0] at hp
        cases hp
        decide))⟩

/-! ### The filters of the public listing -/

theorem aggregate_append_ok (regex : RegexEngine) (front back : List Stage)
    (rows out : List VideoDoc) (h : aggregate regex (front ++ back) rows = .ok out) :
    ∃ mid, aggregate regex front rows = .ok mid ∧ aggregate regex back mid = .ok out := by
  rw [aggregate_append] at h
  cases hf : aggregate regex front rows with
  | error e => simp [hf] at h
  | ok mid => exact ⟨mid, rfl, by simpa [hf] using h⟩

/-- The stages that select and order the videos end with the published match and the
sort, and hold the owner match right before them when a user id is given. -/
theorem listingStages_shape (q : ListQuery) (stages : List Stage)
    (h : listingStages q = .ok stages) :
    (∃ front, stages = front ++ [.matchPublished true,
        .sort (q.sortBy.getD "createdAt") (if q.sortType.getD "desc" == "asc" then 1 else -1)]) ∧
    (∀ userId, q.userId = some userId → userId ≠ "" →
      ∃ text, stages = text ++ [.matchOwner (castObjectId (.str userId)),
        .matchPublished true,
        .sort (q.sortBy.getD "createdAt")
          (if q.sortType.getD "desc" == "asc" then 1 else -1)]) := by
  unfold listingStages at h
  cases hu : q.userId with
  | none =>
    simp only [hu, Except.ok.injEq] at h
    subst h
    exact ⟨⟨_, rfl⟩, fun _ hx => by cases hx⟩
  | some userId =>
    simp only [hu] at h
    cases hne : (userId != "") with
    | false =>
      simp only [hne, Bool.false_eq_true, ↓reduceIte, Except.ok.injEq] at h
      subst h
      refine ⟨⟨_, rfl⟩, ?_⟩
      intro x hx hxne
      simp only [Option.some.injEq] at hx
      subst hx
      simp at hne
      exact absurd hne hxne
    | true =>
      simp only [hne, ↓reduceIte] at h
      cases hvalid : isValidObjectId userId with
      | false => simp [hvalid] at h
      | true =>
        simp only [hvalid, ↓reduceIte, Except.ok.injEq] at h
        subst h
        refine ⟨⟨_, rfl⟩, ?_⟩
        intro x hx _
        simp only [Option.some.injEq] at hx
        subst hx
        exact ⟨_, List.append_assoc _ _ _⟩

/-- C19: whatever the query, user id, sort and pagination parameters, every video
that `getAllVideos` returns is published, and when a user id is given (a
parameter that is not empty) every video returned is owned by that user and
carries the profile of that user. -/
theorem getAllVideos_published_and_owned (regex : RegexEngine) (q : ListQuery) (s : Store)
    (status : Nat) (entries : List FeedEntry) (message : String)
    (h : getAllVideos regex q s = .json status entries message) :
    (∀ e ∈ entries, e.video.isPublished = true) ∧
    (∀ userId, q.userId = some userId → userId ≠ "" →
      ∀ e ∈ entries, e.video.owner = castObjectId (.str userId)
        ∧ e.owner.id = castObjectId (.str userId)) := by
  unfold getAllVideos at h
  cases hst : listingStages q with
  | error e => simp [hst] at h
  | ok stages =>
    simp only [hst] at h
    cases hag : aggregate regex (stages ++ [.skip (skipOf q),
        .limit (parseInt (q.limit.getD "10"))]) s.videos with
    | error e => simp [hag] at h
    | ok videos =>
      simp only [hag, Outcome.json.injEq] at h
      obtain ⟨_, hent, _⟩ := h
      subst hent
      obtain ⟨⟨front, hfront⟩, howner⟩ := listingStages_shape q stages hst
      constructor
      · intro e he
        obtain ⟨hmem, _⟩ := mem_joinOwner s.users videos e he
        rw [hfront, List.append_assoc] at hag
        obtain ⟨mid, _, hback⟩ := aggregate_append_ok regex front _ s.videos videos hag
        exact aggregate_matchPublished regex _ mid videos hback e.video hmem
      · intro userId hu hne e he
        obtain ⟨hmem, hown⟩ := mem_joinOwner s.users videos e he
        obtain ⟨text, htext⟩ := howner userId hu hne
        rw [htext, List.append_assoc] at hag
        obtain ⟨mid, _, hback⟩ := aggregate_append_ok regex text _ s.videos videos hag
        have ho := aggregate_matchOwner regex _ _ mid videos hback e.video hmem
        exact ⟨ho, by rw [hown, ho]⟩

/-- C19, witness: page 2 of size 2 of the videos of user 1. -/
theorem getAllVideos_published_and_owned_witness :
    getAllVideos (fragmentRegex latinFold) pageTwoQuery listingStore
      = .json 200 pageTwoEntries "Videos fetched successfully" ∧
    (∀ e ∈ pageTwoEntries, e.video.isPublished = true) ∧
    (∀ e ∈ pageTwoEntries, e.video.owner = castObjectId (.str "000000000000000000000001")
      ∧ e.owner.id = castObjectId (.str "000000000000000000000001")) :=
  have h := getAllVideos_published_and_owned (fragmentRegex latinFold) pageTwoQuery listingStore 200
    pageTwoEntries "Videos fetched successfully" (by decide)
  ⟨by decide, h.1, h.2 "000000000000000000000001" rfl (by decide)⟩

/-! ### The text filter -/

theorem compileAtoms_literal (cs : List Char) (h : ∀ c ∈ cs, isRegexMeta c = false) :
    compileAtoms cs = .ok (cs.map Atom.lit) := by
  induction cs with
  | nil => rfl
  | cons c cs ih =>
    have hc := h c (List.mem_cons_self c cs)
    have hdot : (c.toNat == 46) = false := by
      cases hd : (c.toNat == 46) with
      | false => rfl
      | true =>
        have h46 : c.toNat = 46 := by simpa using hd
        simp [isRegexMeta, h46] at hc
    simp only [compileAtoms, hdot, hc, Bool.false_eq_true, ↓reduceIte,
      ih (fun x hx => h x (List.mem_cons_of_mem c hx)), List.map_cons]

theorem matchAt_literal (fold : Char → Char) (cs xs : List Char) :
    matchAt fold true (cs.map Atom.lit) xs = true ↔ cs.map fold <+: xs.map fold := by
  induction cs generalizing xs with
  | nil => simp [matchAt]
  | cons c cs ih =>
    cases xs with
    | nil => simp [matchAt]
    | cons x xs =>
      simp only [List.map_cons, matchAt, Atom.matchesChar, ↓reduceIte, Bool.and_eq_true,
        beq_iff_eq, ih xs, List.cons_prefix_cons]

theorem searchFrom_literal (fold : Char → Char) (cs xs : List Char) :
    searchFrom fold true (cs.map Atom.lit) xs = true ↔ cs.map fold <:+: xs.map fold := by
  induction xs with
  | nil =>
    simp only [searchFrom, matchAt_literal, List.map_nil, List.prefix_nil, List.infix_nil]
  | cons x xs ih =>
    simp only [searchFrom, Bool.or_eq_true, matchAt_literal, ih, List.map_cons,
      List.infix_cons_iff]

/-- On a pattern with no special character the engine tests for a literal substring
without regard to case, whatever the case folding. -/
theorem fragmentRegex_literal (fold : Char → Char) (q : String)
    (h : ∀ c ∈ q.data, isRegexMeta c = false) :
    fragmentRegex fold q "i" = .ok (fun subject => containsIgnoreCase fold q subject) := by
  unfold fragmentRegex
  rw [compileAtoms_literal q.data h]
  have hi : "i".data.contains (Char.ofNat 105) = true := by decide
  simp only [hi]
  congr 1
  funext subject
  unfold containsIgnoreCase
  by_cases hin : q.data.map fold <:+: subject.data.map fold
  · rw [decide_eq_true hin]
    exact (searchFrom_literal fold q.data subject.data).mpr hin
  · rw [decide_eq_false hin]
    cases hs : searchFrom fold true (q.data.map Atom.lit) subject.data with
    | false => rfl
    | true => exact absurd ((searchFrom_literal fold q.data subject.data).mp hs) hin

/-- C20, counterexample: the query `.` is read as a pattern, not as a literal dot.
The video `Zeta` has no dot in its title or description, yet it passes the
text filter, and the listing for the query `.` returns it. -/
theorem text_filter_dot :
    containsIgnoreCase latinFold "." zetaVideo.title = false ∧
    containsIgnoreCase latinFold "." zetaVideo.description = false ∧
    runStage (fragmentRegex latinFold) (.matchText "." "i") [zetaVideo] = .ok [zetaVideo] ∧
    getAllVideos (fragmentRegex latinFold)
        { emptyQuery with query := some ".", limit := some "1" } listingStore
      = .json 200 [⟨zetaVideo, ⟨7, "Ravi Iyer", "ravi", "ravi.png"⟩⟩]
          "Videos fetched successfully" :=
  ⟨by decide, by decide, by rfl, by decide⟩

/-- C20, amended: for every query string that is not empty and holds none of the
characters `\ ^ $ . | ? * + ( ) [ ] { }`, the first stage of the listing is the
text match for the query, and a video passes it if and only if the query
occurs as a literal substring of its title or of its description, characters
compared by the case folding that the database applies under the option `i`,
whatever that folding does to letters inside or outside the basic Latin ones.
A query with such a character is read as a regular expression. -/
theorem text_filter_literal (fold : Char → Char) (q : String)
    (page limit sortBy sortType : Option String) (rows : List VideoDoc)
    (hne : q ≠ "") (hmeta : ∀ c ∈ q.data, isRegexMeta c = false) :
    listingStages ⟨page, limit, some q, sortBy, sortType, none⟩
      = .ok [.matchText q "i", .matchPublished true,
          .sort (sortBy.getD "createdAt") (if sortType.getD "desc" == "asc" then 1 else -1)] ∧
    runStage (fragmentRegex fold) (.matchText q "i") rows
      = .ok (rows.filter (fun v =>
          containsIgnoreCase fold q v.title || containsIgnoreCase fold q v.description)) ∧
    (∀ v, v ∈ rows.filter (fun v =>
          containsIgnoreCase fold q v.title || containsIgnoreCase fold q v.description) ↔
      v ∈ rows ∧ (q.data.map fold <:+: v.title.data.map fold
        ∨ q.data.map fold <:+: v.description.data.map fold)) := by
  refine ⟨?_, ?_, ?_⟩
  · have hb : (q != "") = true := by simpa using hne
    simp [listingStages, hb]
  · simp only [runStage, fragmentRegex_literal fold q hmeta]
  · intro v
    simp [List.mem_filter, containsIgnoreCase]

/-- C20, witness of the amended claim: under a folding of the Latin letters with
and without accents, the query `CAFÉ CLIP` keeps the one video whose
description holds `café clip`. -/
theorem text_filter_literal_witness :
    ("CAFÉ CLIP" : String) ≠ "" ∧
    (∀ c ∈ ("CAFÉ CLIP" : String).data, isRegexMeta c = false) ∧
    runStage (fragmentRegex accentFold) (.matchText "CAFÉ CLIP" "i") cafeVideos
      = .ok (cafeVideos.filter (fun v =>
          containsIgnoreCase accentFold "CAFÉ CLIP" v.title
            || containsIgnoreCase accentFold "CAFÉ CLIP" v.description)) ∧
    cafeVideos.filter (fun v =>
        containsIgnoreCase accentFold "CAFÉ CLIP" v.title
          || containsIgnoreCase accentFold "CAFÉ CLIP" v.description)
      = [⟨42, 1, "Morning", "a café clip", 3, 20, true, 500⟩] :=
  ⟨by decide, by decide,
    (text_filter_literal accentFold "CAFÉ CLIP" none none none none cafeVideos (by decide)
      (by decide)).2.1,
    by decide⟩

/-! ### The order of the listing -/

theorem sortVal_le_total (a b : SortVal) : a.le b = true ∨ b.le a = true := by
  cases a <;> cases b <;> simp only [SortVal.le, SortVal.rank, decide_eq_true_eq] <;>
    first
    | exact Nat.le_total _ _
    | exact le_total _ _
    | (simp; done)
    | skip
  all_goals (rename_i x y; cases x <;> cases y <;> simp)

theorem sortVal_le_trans (a b c : SortVal) (h1 : a.le b = true) (h2 : b.le c = true) :
    a.le c = true := by
  cases a <;> cases b <;> cases c <;>
    simp only [SortVal.le, SortVal.rank, decide_eq_true_eq] at h1 h2 ⊢ <;>
    first
    | exact Nat.le_trans h1 h2
    | exact le_trans h1 h2
    | (simp at h1; done)
    | (simp at h2; done)
    | (simp; done)
    | skip
  all_goals (rename_i x y z; cases x <;> cases y <;> cases z <;> simp at h1 h2 ⊢)

theorem sortBefore_total (field : String) (direction : Int) (a b : VideoDoc) :
    sortBefore field direction a b = true ∨ sortBefore field direction b a = true := by
  unfold sortBefore
  split
  · exact sortVal_le_total _ _
  · exact sortVal_le_total _ _

theorem sortBefore_trans (field : String) (direction : Int) (a b c : VideoDoc)
    (h1 : sortBefore field direction a b = true) (h2 : sortBefore field direction b c = true) :
    sortBefore field direction a c = true := by
  unfold sortBefore at h1 h2 ⊢
  split at h1
  · rename_i hd
    simp only [hd, ↓reduceIte] at h2 ⊢
    exact sortVal_le_trans _ _ _ h1 h2
  · rename_i hd
    simp only [hd, ↓reduceIte] at h2 ⊢
    exact sortVal_le_trans _ _ _ h2 h1

/-- The stage `$sort` of the model returns the rows it received, rearranged so that
each row may come before every later row. -/
theorem sortRows_sorted (field : String) (direction : Int) (rows : List VideoDoc) :
    (sortRows field direction rows).Pairwise
      (fun a b => sortBefore field direction a b = true) :=
  @List.sorted_insertionSort VideoDoc (fun a b => sortBefore field direction a b = true) _
    ⟨sortBefore_total field direction⟩ ⟨sortBefore_trans field direction⟩ rows

theorem sortRows_perm (field : String) (direction : Int) (rows : List VideoDoc) :
    (sortRows field direction rows).Perm rows :=
  List.perm_insertionSort _ rows

theorem runStage_pairwise (regex : RegexEngine) (stage : Stage) (rows out : List VideoDoc)
    (r : VideoDoc → VideoDoc → Prop) (hr : rows.Pairwise r)
    (hstage : ∀ field direction, stage ≠ .sort field direction)
    (h : runStage regex stage rows = .ok out) : out.Pairwise r := by
  cases stage with
  | matchText pattern options =>
    simp only [runStage] at h
    cases hx : regex pattern options with
    | error e => simp [hx] at h
    | ok hasMatch =>
      simp only [hx, Except.ok.injEq] at h
      subst h
      exact hr.sublist (List.filter_sublist _)
  | matchOwner owner =>
    simp only [runStage, Except.ok.injEq] at h
    subst h
    exact hr.sublist (List.filter_sublist _)
  | matchPublished flag =>
    simp only [runStage, Except.ok.injEq] at h
    subst h
    exact hr.sublist (List.filter_sublist _)
  | sort field direction => exact absurd rfl (hstage field direction)
  | skip n =>
    simp only [runStage] at h
    cases hc : skipCount n with
    | error e => simp [hc] at h
    | ok count =>
      simp only [hc, Except.ok.injEq] at h
      subst h
      exact hr.sublist (List.drop_sublist _ _)
  | limit n =>
    simp only [runStage] at h
    cases hc : limitCount n with
    | error e => simp [hc] at h
    | ok count =>
      simp only [hc, Except.ok.injEq] at h
      subst h
      exact hr.sublist (List.take_sublist _ _)

/-- The videos of the joined entries keep the order of the rows. -/
theorem joinOwner_pairwise (users : List User) (rows : List VideoDoc)
    (r : VideoDoc → VideoDoc → Prop) (hrefl : ∀ v, r v v) (hr : rows.Pairwise r) :
    ((joinOwner users rows).map FeedEntry.video).Pairwise r := by
  induction rows with
  | nil => simp [joinOwner]
  | cons v vs ih =>
    have hcons : joinOwner users (v :: vs)
        = (users.filter (fun u => u.id == v.owner)).map (fun u => (⟨v, u.profile⟩ : FeedEntry))
          ++ joinOwner users vs := by
      simp [joinOwner]
    rw [List.pairwise_cons] at hr
    rw [hcons, List.map_append, List.pairwise_append]
    refine ⟨?_, ih hr.2, ?_⟩
    · rw [List.map_map, List.pairwise_map]
      exact List.pairwise_of_forall (fun _ _ => hrefl v)
    · intro a ha b hb
      simp only [List.map_map, List.mem_map, Function.comp_apply] at ha
      obtain ⟨u, _, rfl⟩ := ha
      obtain ⟨e, he, rfl⟩ := List.mem_map.mp hb
      exact hr.1 _ (mem_joinOwner users vs e he).1

theorem fieldValue_createdAt (v : VideoDoc) : fieldValue "createdAt" v = .date v.createdAt := by
  have h1 : ("createdAt" == "_id") = false := by decide
  have h2 : ("createdAt" == "owner") = false := by decide
  have h3 : ("createdAt" == "title") = false := by decide
  have h4 : ("createdAt" == "description") = false := by decide
  have h5 : ("createdAt" == "views") = false := by decide
  have h6 : ("createdAt" == "duration") = false := by decide
  have h7 : ("createdAt" == "isPublished") = false := by decide
  have h8 : ("createdAt" == "createdAt") = true := by decide
  simp only [fieldValue, h1, h2, h3, h4, h5, h6, h7, h8, Bool.false_eq_true, ↓reduceIte]

theorem aggregate_cons_ok (regex : RegexEngine) (stage : Stage) (rest : List Stage)
    (rows out : List VideoDoc) (h : aggregate regex (stage :: rest) rows = .ok out) :
    ∃ mid, runStage regex stage rows = .ok mid ∧ aggregate regex rest mid = .ok out := by
  simp only [aggregate] at h
  cases hs : runStage regex stage rows with
  | error e => simp [hs] at h
  | ok mid => exact ⟨mid, rfl, by simpa [hs] using h⟩

theorem runStage_sort_ok (regex : RegexEngine) (field : String) (direction : Int)
    (rows out : List VideoDoc) (h : runStage regex (.sort field direction) rows = .ok out) :
    out = sortRows field direction rows := by
  simp only [runStage] at h
  split at h
  · cases h
  · simp only [Except.ok.injEq] at h
    exact h.symm

/-- The rows that leave the pipeline of the listing are in the order of its sort. -/
theorem listing_rows_sorted (regex : RegexEngine) (q : ListQuery) (s : Store)
    (stages : List Stage) (videos : List VideoDoc)
    (hst : listingStages q = .ok stages)
    (hag : aggregate regex (stages ++ [.skip (skipOf q),
      .limit (parseInt (q.limit.getD "10"))]) s.videos = .ok videos) :
    videos.Pairwise (fun a b => sortBefore (q.sortBy.getD "createdAt")
      (if q.sortType.getD "desc" == "asc" then 1 else -1) a b = true) := by
  obtain ⟨⟨front, hfront⟩, _⟩ := listingStages_shape q stages hst
  rw [hfront, List.append_assoc] at hag
  obtain ⟨mid, _, hback⟩ := aggregate_append_ok regex front _ s.videos videos hag
  simp only [List.cons_append, List.nil_append] at hback
  obtain ⟨m1, _, hb1⟩ := aggregate_cons_ok regex _ _ mid videos hback
  obtain ⟨m2, hsort, hb2⟩ := aggregate_cons_ok regex _ _ m1 videos hb1
  obtain ⟨m3, hskip, hb3⟩ := aggregate_cons_ok regex _ _ m2 videos hb2
  obtain ⟨m4, hlim, hb4⟩ := aggregate_cons_ok regex _ _ m3 videos hb3
  simp only [aggregate, Except.ok.injEq] at hb4
  subst hb4
  have hm2 := runStage_sort_ok regex _ _ m1 m2 hsort
  subst hm2
  have h1 := runStage_pairwise regex _ _ m3 _ (sortRows_sorted _ _ m1)
    (fun _ _ hx => by cases hx) hskip
  exact runStage_pairwise regex _ _ m4 _ h1 (fun _ _ hx => by cases hx) hlim

/-- C21: the sequence that `getAllVideos` returns is ordered by the requested sort
field (`createdAt` when none is sent): each video may come before every later
one, by ascending values when `sortType` is `asc` and by descending values
otherwise; with no sort parameter the sequence is in descending order of
`createdAt`. -/
theorem getAllVideos_sorted (regex : RegexEngine) (q : ListQuery) (s : Store)
    (status : Nat) (entries : List FeedEntry) (message : String)
    (h : getAllVideos regex q s = .json status entries message) :
    (entries.map FeedEntry.video).Pairwise (fun a b =>
      sortBefore (q.sortBy.getD "createdAt")
        (if q.sortType.getD "desc" == "asc" then 1 else -1) a b = true) ∧
    (q.sortType = some "asc" → (entries.map FeedEntry.video).Pairwise (fun a b =>
      (fieldValue (q.sortBy.getD "createdAt") a).le
        (fieldValue (q.sortBy.getD "createdAt") b) = true)) ∧
    (q.sortType ≠ some "asc" → (entries.map FeedEntry.video).Pairwise (fun a b =>
      (fieldValue (q.sortBy.getD "createdAt") b).le
        (fieldValue (q.sortBy.getD "createdAt") a) = true)) ∧
    (q.sortBy = none → q.sortType = none →
      (entries.map FeedEntry.video).Pairwise (fun a b => b.createdAt ≤ a.createdAt)) := by
  have key : (entries.map FeedEntry.video).Pairwise (fun a b =>
      sortBefore (q.sortBy.getD "createdAt")
        (if q.sortType.getD "desc" == "asc" then 1 else -1) a b = true) := by
    unfold getAllVideos at h
    cases hst : listingStages q with
    | error e => simp [hst] at h
    | ok stages =>
      simp only [hst] at h
      cases hag : aggregate regex (stages ++ [.skip (skipOf q),
          .limit (parseInt (q.limit.getD "10"))]) s.videos with
      | error e => simp [hag] at h
      | ok videos =>
        simp only [hag, Outcome.json.injEq] at h
        obtain ⟨_, hent, _⟩ := h
        subst hent
        refine joinOwner_pairwise s.users videos _ ?_
          (listing_rows_sorted regex q s stages videos hst hag)
        intro v
        rcases sortBefore_total (q.sortBy.getD "createdAt")
          (if q.sortType.getD "desc" == "asc" then 1 else -1) v v with hv | hv <;> exact hv
  have hdesc : q.sortType ≠ some "asc" → (q.sortType.getD "desc" == "asc") = false := by
    intro hne
    cases hs : q.sortType with
    | none => decide
    | some x =>
      rw [hs] at hne
      simp only [Option.getD_some, beq_eq_false_iff_ne, ne_eq]
      intro hx
      exact hne (by rw [hx])
  refine ⟨key, ?_, ?_, ?_⟩
  · intro hasc
    have hd : (q.sortType.getD "desc" == "asc") = true := by rw [hasc]; decide
    simp only [hd, ↓reduceIte, sortBefore] at key
    exact key.imp (fun hx => by simpa using hx)
  · intro hne
    have hm : ((-1 : Int) == 1) = false := by decide
    simp only [hdesc hne, Bool.false_eq_true, ↓reduceIte, sortBefore, hm] at key
    exact key
  · intro hby hty
    have hne : q.sortType ≠ some "asc" := by rw [hty]; exact fun hx => by cases hx
    have hm : ((-1 : Int) == 1) = false := by decide
    simp only [hdesc hne, Bool.false_eq_true, ↓reduceIte, sortBefore, hm, hby,
      Option.getD_none, fieldValue_createdAt, SortVal.le, decide_eq_true_eq] at key
    exact key

/-- C21, witness: page 2 of size 2 of the videos of user 1, sent with no sort
parameter, holds the video created at 300 before the one created at 200. -/
theorem getAllVideos_sorted_witness :
    getAllVideos (fragmentRegex latinFold) pageTwoQuery listingStore
      = .json 200 pageTwoEntries "Videos fetched successfully" ∧
    pageTwoQuery.sortBy = none ∧ pageTwoQuery.sortType = none ∧
    (pageTwoEntries.map FeedEntry.video).Pairwise (fun a b => b.createdAt ≤ a.createdAt) :=
  ⟨by decide, rfl, rfl,
    (getAllVideos_sorted (fragmentRegex latinFold) pageTwoQuery listingStore 200 pageTwoEntries
      "Videos fetched successfully" (by decide)).2.2.2 rfl rfl⟩

/-! ### The sort key -/

theorem listingStages_sortKeys (q : ListQuery) (stages : List Stage)
    (h : listingStages q = .ok stages) : sortKeys stages = [q.sortBy.getD "createdAt"] := by
  unfold listingStages at h
  have htext : sortKeys (match q.query with
      | some query => if query != "" then [Stage.matchText query "i"] else []
      | none => []) = [] := by
    cases q.query with
    | none => rfl
    | some query =>
      cases hq : (query != "") with
      | false => simp [hq, sortKeys]
      | true => simp [hq, sortKeys]
  have happ : ∀ a b : List Stage, sortKeys (a ++ b) = sortKeys a ++ sortKeys b := by
    intro a b
    simp [sortKeys, List.filterMap_append]
  cases hu : q.userId with
  | none =>
    simp only [hu, Except.ok.injEq] at h
    subst h
    rw [happ, happ, htext]
    rfl
  | some userId =>
    simp only [hu] at h
    cases hne : (userId != "") with
    | false =>
      simp only [hne, Bool.false_eq_true, ↓reduceIte, Except.ok.injEq] at h
      subst h
      rw [happ, happ, htext]
      rfl
    | true =>
      simp only [hne, ↓reduceIte] at h
      cases hvalid : isValidObjectId userId with
      | false => simp [hvalid] at h
      | true =>
        simp only [hvalid, ↓reduceIte, Except.ok.injEq] at h
        subst h
        rw [happ, happ, htext]
        rfl

/-- C22, counterexample: a request with `sortBy=title`, a field outside the
whitelist, is sorted by title: `title` is the sort key of the pipeline of
`getAllVideos`, whose answer starts with `Alpha` and `Beta`, and of the
pipeline that `getChannelVideos` hands to the pagination plugin. -/
theorem sort_by_title :
    sortWhitelist.contains "title" = false ∧
    (listingStages titleQuery).toOption.map sortKeys = some ["title"] ∧
    (getAllVideos (fragmentRegex latinFold) titleQuery listingStore)
      = .json 200
          [⟨⟨21, 1, "Alpha", "first clip", 5, 60, true, 100⟩,
              ⟨1, "Owner One", "owner", "owner.png"⟩⟩,
            ⟨⟨22, 1, "Beta", "second clip", 9, 61, true, 200⟩,
              ⟨1, "Owner One", "owner", "owner.png"⟩⟩]
          "Videos fetched successfully" ∧
    getChannelVideos (fun stages _ _ => .ok (sortKeys stages)) 1 titleQuery
      = .json 200 ["title"] "Channel videos fetched successfully" := by
  decide

/-- C22, amended: `getAllVideos` and `getChannelVideos` have no whitelist: the one
sort key of the pipeline each of them builds is the value of `sortBy` as it was
sent, whatever it is, and `createdAt` when none was sent. -/
theorem sort_key_is_sortBy (q : ListQuery) (userId : ObjectId) :
    (∀ stages, listingStages q = .ok stages → sortKeys stages = [q.sortBy.getD "createdAt"]) ∧
    sortKeys (channelVideoStages userId q) = [q.sortBy.getD "createdAt"] ∧
    (∀ (α : Type) (plugin : List Stage → JsNumber → JsNumber → Except String α)
        (videos : α) (status : Nat) (message : String),
      getChannelVideos plugin userId q = .json status videos message →
        plugin (channelVideoStages userId q) (parseIntDecimal (q.page.getD "1"))
          (parseIntDecimal (q.limit.getD "10")) = .ok videos) := by
  refine ⟨fun stages h => listingStages_sortKeys q stages h, rfl, ?_⟩
  intro α plugin videos status message h
  unfold getChannelVideos at h
  cases hp : plugin (channelVideoStages userId q) (parseIntDecimal (q.page.getD "1"))
      (parseIntDecimal (q.limit.getD "10")) with
  | error e => simp [hp] at h
  | ok v =>
    simp only [hp, Outcome.json.injEq] at h
    rw [h.2.1]

/-- C22, witness of the amended claim: the request sorted by title. -/
theorem sort_key_is_sortBy_witness :
    (∃ stages, listingStages titleQuery = .ok stages ∧ sortKeys stages = ["title"]) ∧
    sortKeys (channelVideoStages 1 titleQuery) = ["title"] :=
  ⟨⟨[.matchPublished true, .sort "title" 1], by rfl,
      (sort_key_is_sortBy titleQuery 1).1 _ (by rfl)⟩,
    (sort_key_is_sortBy titleQuery 1).2.1⟩

/-! ### Videos with equal sort keys -/

theorem sortVal_le_refl (a : SortVal) : a.le a = true := by
  rcases sortVal_le_total a a with h | h <;> exact h

/-- C23, counterexample: two videos of user 1 have 4 views each; the one created at
100 is stored before the one created at 200.  Sorted by views, `getAllVideos`
returns the older video first: the two are not in descending order of
`createdAt`. -/
theorem ties_not_by_createdAt :
    olderVideo.views = newerVideo.views ∧ olderVideo.createdAt < newerVideo.createdAt ∧
    getAllVideos (fragmentRegex latinFold) viewsQuery tieStore
      = .json 200 [⟨olderVideo, ownerOneProfile⟩, ⟨newerVideo, ownerOneProfile⟩]
          "Videos fetched successfully" := by
  decide

/-! ### Pages of a listing, one after the other -/

theorem joinOwner_append (users : List User) (xs ys : List VideoDoc) :
    joinOwner users (xs ++ ys) = joinOwner users xs ++ joinOwner users ys := by
  simp [joinOwner]

theorem slices_flatten (seq : List VideoDoc) (l k : Nat) :
    ((List.range k).map (fun i => (seq.drop (i * l)).take l)).flatten = seq.take (k * l) := by
  induction k with
  | zero => simp
  | succ k ih =>
    rw [List.range_succ, List.map_append, List.flatten_append, ih]
    simp only [List.map_cons, List.map_nil, List.flatten_cons, List.flatten_nil,
      List.append_nil]
    rw [Nat.succ_mul, List.take_add]

theorem concatPages_eq (users : List User) (seq : List VideoDoc) (k l : Nat) :
    concatPages users seq k l = joinOwner users (seq.take (k * l)) := by
  rw [← slices_flatten seq l k]
  unfold concatPages pageOf
  induction k with
  | zero => simp [joinOwner]
  | succ k ih =>
    rw [List.range_succ, List.map_append, List.flatten_append, ih, List.map_append,
      List.flatten_append, joinOwner_append]
    simp [joinOwner]

theorem ceil_pages_cover (n l : Nat) (hl : 1 ≤ l) : n ≤ (n + l - 1) / l * l := by
  have h1 := Nat.div_add_mod (n + l - 1) l
  have h2 := Nat.mod_lt (n + l - 1) (show 0 < l by omega)
  have h3 : l * ((n + l - 1) / l) = (n + l - 1) / l * l := Nat.mul_comm _ _
  omega

/-- The answer of `getAllVideos` to the request for page `p` of size `l` is the page
cut from the filtered and sorted sequence, for a page and a size of at least 1
with `(p - 1) * l` below 2^53 and `l` below 2^63. -/
theorem getAllVideos_eq_pageOf (regex : RegexEngine) (q : ListQuery) (s : Store)
    (seq : List VideoDoc) (pageStr : String) (p l : Nat) (hp1 : 1 ≤ p) (hl1 : 1 ≤ l)
    (hskip : (p - 1) * l < 2 ^ 53) (hlim : l < 2 ^ 63)
    (hp : parseInt pageStr = .finite (p : Int))
    (hl : parseInt (q.limit.getD "10") = .finite (l : Int))
    (hseq : matchingVideos regex q s = .ok seq) :
    getAllVideos regex { q with page := some pageStr } s
      = .json 200 (pageOf s.users seq p l) "Videos fetched successfully" := by
  have hcast : ((p : Int) - 1) * (l : Int) = (((p - 1) * l : Nat) : Int) := by
    push_cast
    rw [Nat.cast_sub hp1]
    simp
  have hnat : (((p : Int) - 1) * (l : Int)).toNat = (p - 1) * l := by
    rw [hcast]
    exact Int.toNat_natCast _
  have h := getAllVideos_slice regex { q with page := some pageStr } s (p : Int) (l : Int) seq
    hp hl (by omega) (by omega) (by rw [hcast]; exact_mod_cast hskip) (by exact_mod_cast hlim)
    hseq
  rw [h, hnat, Int.toNat_natCast]
  rfl

/-- The filtered and sorted sequence is the sort, by the one key of the request, of
the rows that the filters yield. -/
theorem matchingVideos_eq_sortRows (regex : RegexEngine) (q : ListQuery) (s : Store)
    (seq filtered : List VideoDoc) (hseq : matchingVideos regex q s = .ok seq)
    (hfil : filteredVideos regex q s = .ok filtered) :
    seq = sortRows (q.sortBy.getD "createdAt")
      (if q.sortType.getD "desc" == "asc" then 1 else -1) filtered := by
  unfold matchingVideos at hseq
  unfold filteredVideos at hfil
  cases hst : listingStages q with
  | error e => simp [hst] at hseq
  | ok stages =>
    simp only [hst] at hseq hfil
    obtain ⟨⟨front, hfront⟩, _⟩ := listingStages_shape q stages hst
    have hsplit : stages = (front ++ [.matchPublished true]) ++
        [.sort (q.sortBy.getD "createdAt") (if q.sortType.getD "desc" == "asc" then 1 else -1)] := by
      rw [hfront, List.append_assoc]
      rfl
    rw [hsplit, List.dropLast_concat] at hfil
    rw [hsplit] at hseq
    obtain ⟨mid, hmid, hback⟩ := aggregate_append_ok regex _ _ s.videos seq hseq
    rw [hfil] at hmid
    cases hmid
    obtain ⟨out, hsort, hrest⟩ := aggregate_cons_ok regex _ _ filtered seq hback
    simp only [aggregate, Except.ok.injEq] at hrest
    subst hrest
    exact runStage_sort_ok regex _ _ filtered out hsort

/-! ### The order of videos with equal sort keys in the listing -/

/-- C23, amended: `getAllVideos` adds no tie-break by `createdAt`.  The one sort key
of its pipeline is the requested one; the sequence it pages is the sort by
that key alone of the videos that pass the filters; and two videos with equal
values of the key, of which `a` is yielded by the filters before `b`, come in
that sequence with `a` before `b`, whatever their `createdAt`: the page `p` of
size `l` is cut from the sequence so ordered.  For the key of the request
either order of the two is one that a sort by that key may give. -/
theorem tie_order_not_fixed (regex : RegexEngine) (q : ListQuery) (s : Store)
    (seq filtered : List VideoDoc) (a b : VideoDoc)
    (hseq : matchingVideos regex q s = .ok seq)
    (hfil : filteredVideos regex q s = .ok filtered)
    (htie : fieldValue (q.sortBy.getD "createdAt") a = fieldValue (q.sortBy.getD "createdAt") b)
    (hsub : List.Sublist [a, b] filtered) :
    (∀ stages, listingStages q = .ok stages → sortKeys stages = [q.sortBy.getD "createdAt"]) ∧
    seq = sortRows (q.sortBy.getD "createdAt")
      (if q.sortType.getD "desc" == "asc" then 1 else -1) filtered ∧
    List.Sublist [a, b] seq ∧
    (∀ (pageStr : String) (p l : Nat), 1 ≤ p → 1 ≤ l → (p - 1) * l < 2 ^ 53 → l < 2 ^ 63 →
      parseInt pageStr = .finite (p : Int) → parseInt (q.limit.getD "10") = .finite (l : Int) →
      getAllVideos regex { q with page := some pageStr } s
        = .json 200 (pageOf s.users (sortRows (q.sortBy.getD "createdAt")
            (if q.sortType.getD "desc" == "asc" then 1 else -1) filtered) p l)
          "Videos fetched successfully") ∧
    IsSortResult (q.sortBy.getD "createdAt")
      (if q.sortType.getD "desc" == "asc" then 1 else -1) [a, b] [a, b] ∧
    IsSortResult (q.sortBy.getD "createdAt")
      (if q.sortType.getD "desc" == "asc" then 1 else -1) [a, b] [b, a] := by
  have hab : ∀ direction : Int,
      sortBefore (q.sortBy.getD "createdAt") direction a b = true := by
    intro direction
    unfold sortBefore
    split <;> simp only [htie, sortVal_le_refl]
  have hba : ∀ direction : Int,
      sortBefore (q.sortBy.getD "createdAt") direction b a = true := by
    intro direction
    unfold sortBefore
    split <;> simp only [htie, sortVal_le_refl]
  have heq := matchingVideos_eq_sortRows regex q s seq filtered hseq hfil
  refine ⟨fun stages h => listingStages_sortKeys q stages h, heq, ?_, ?_,
    ⟨List.Perm.refl _, ?_⟩, ⟨List.Perm.swap _ _ _, ?_⟩⟩
  · rw [heq]
    exact List.pair_sublist_insertionSort (hab _) hsub
  · intro pageStr p l hp1 hl1 hskip hlim hp hl
    rw [← heq]
    exact getAllVideos_eq_pageOf regex q s seq pageStr p l hp1 hl1 hskip hlim hp hl hseq
  · simp [hab]
  · simp [hba]

/-- C23, witness of the amended claim: the two videos with 4 views each, of which
the older one is stored first, in the listing by views. -/
theorem tie_order_not_fixed_witness :
    matchingVideos (fragmentRegex latinFold) { viewsQuery with limit := some "1" } tieStore
      = .ok [olderVideo, newerVideo] ∧
    filteredVideos (fragmentRegex latinFold) { viewsQuery with limit := some "1" } tieStore
      = .ok [olderVideo, newerVideo] ∧
    fieldValue "views" olderVideo = fieldValue "views" newerVideo ∧
    olderVideo.createdAt < newerVideo.createdAt ∧
    List.Sublist [olderVideo, newerVideo] [olderVideo, newerVideo] ∧
    getAllVideos (fragmentRegex latinFold) { viewsQuery with page := some "2", limit := some "1" }
        tieStore
      = .json 200 (pageOf tieStore.users (sortRows "views" (-1) [olderVideo, newerVideo]) 2 1)
          "Videos fetched successfully" ∧
    pageOf tieStore.users (sortRows "views" (-1) [olderVideo, newerVideo]) 2 1
      = [⟨newerVideo, ownerOneProfile⟩] :=
  have h := tie_order_not_fixed (fragmentRegex latinFold)
    { viewsQuery with limit := some "1" } tieStore [olderVideo, newerVideo]
    [olderVideo, newerVideo] olderVideo newerVideo (by rfl) (by rfl) (by decide)
    (List.Sublist.refl _)
  ⟨by rfl, by rfl, by decide, by decide, h.2.2.1,
    h.2.2.2.1 "2" 2 1 (by decide) (by decide) (by decide) (by decide) (by decide) (by decide),
    by decide⟩

/-! ### The pages of a listing joined -/

/-- C24, counterexample.  A matching video whose owner has no user record is on no
page: the filtered and sorted sequence of the store holds the video of user 9
and the older video, pages 1 and 2 of size 1 are those that `getAllVideos`
returns, and one after the other they hold the older video only.  And for the
page size 2^63 no page is returned: the database rejects the `$limit`. -/
theorem pages_repeat_or_omit :
    matchingVideos (fragmentRegex latinFold) emptyQuery orphanStore
      = .ok [orphanVideo, olderVideo] ∧
    ([orphanVideo, olderVideo].length + 1 - 1) / 1 = 2 ∧
    getAllVideos (fragmentRegex latinFold)
        { emptyQuery with page := some "1", limit := some "1" } orphanStore
      = .json 200 [] "Videos fetched successfully" ∧
    getAllVideos (fragmentRegex latinFold)
        { emptyQuery with page := some "2", limit := some "1" } orphanStore
      = .json 200 [⟨olderVideo, ownerOneProfile⟩] "Videos fetched successfully" ∧
    ([] ++ [(⟨olderVideo, ownerOneProfile⟩ : FeedEntry)]).map FeedEntry.video
      ≠ [orphanVideo, olderVideo] ∧
    getAllVideos (fragmentRegex latinFold)
        { emptyQuery with page := some "1", limit := some "9223372036854775808" } orphanStore
      = .exception "invalid argument to $limit" :=
  ⟨by rfl, by decide, by decide, by decide, by decide, by decide⟩

/-- C24, amended: for a request of a page size `l` of at least 1 and below 2^63
whose filter and sort yield the sequence `seq` of `n` videos, `n` at most
2^53, the answer of `getAllVideos` to the request for each page `p` from 1 to
`ceil(n/l)` is the page `p` of `seq`, and these pages one after the other are
`seq` joined with the owners; with distinct user ids and a user record for the
owner of every video of `seq`, their videos are `seq` itself, none repeated
and none omitted. -/
theorem pages_concatenate (regex : RegexEngine) (q : ListQuery) (s : Store)
    (seq : List VideoDoc) (l : Nat) (hl1 : 1 ≤ l) (hlim : l < 2 ^ 63)
    (hl : parseInt (q.limit.getD "10") = .finite (l : Int))
    (hseq : matchingVideos regex q s = .ok seq) (hn : seq.length ≤ 2 ^ 53) :
    (∀ (pageStr : String) (p : Nat), 1 ≤ p → p ≤ (seq.length + l - 1) / l →
      parseInt pageStr = .finite (p : Int) →
      getAllVideos regex { q with page := some pageStr } s
        = .json 200 (pageOf s.users seq p l) "Videos fetched successfully") ∧
    concatPages s.users seq ((seq.length + l - 1) / l) l = joinOwner s.users seq ∧
    ((s.users.map User.id).Nodup → (∀ v ∈ seq, ∃ u ∈ s.users, u.id = v.owner) →
      (concatPages s.users seq ((seq.length + l - 1) / l) l).map FeedEntry.video = seq) := by
  have hcat : concatPages s.users seq ((seq.length + l - 1) / l) l = joinOwner s.users seq := by
    rw [concatPages_eq, List.take_of_length_le (ceil_pages_cover seq.length l hl1)]
  refine ⟨?_, hcat, ?_⟩
  · intro pageStr p hp1 hpc hp
    have hskip : (p - 1) * l < 2 ^ 53 := by
      have h1 : (p - 1) * l ≤ ((seq.length + l - 1) / l - 1) * l :=
        Nat.mul_le_mul_right l (by omega)
      have h2 : ((seq.length + l - 1) / l - 1) * l = (seq.length + l - 1) / l * l - l := by
        rw [Nat.sub_mul, Nat.one_mul]
      have h3 : (seq.length + l - 1) / l * l ≤ seq.length + l - 1 := Nat.div_mul_le_self _ _
      have h4 : l ≤ (seq.length + l - 1) / l * l := Nat.le_mul_of_pos_left l (by omega)
      omega
    exact getAllVideos_eq_pageOf regex q s seq pageStr p l hp1 hl1 hskip hlim hp hl hseq
  · intro hn howners
    rw [hcat, joinOwner_videos s.users seq hn, List.filter_eq_self]
    intro v hv
    obtain ⟨u, hu, hid⟩ := howners v hv
    rw [List.any_eq_true]
    exact ⟨u, hu, by simpa using hid⟩

/-- C24, witness of the amended claim: the five published videos of user 1 in pages
of size 2, newest first.  The three pages are those that `getAllVideos`
returns, and one after the other they hold the five videos in order. -/
theorem pages_concatenate_witness :
    parseInt (sizeTwoQuery.limit.getD "10") = .finite ((2 : Nat) : Int) ∧
    matchingVideos (fragmentRegex latinFold) sizeTwoQuery listingStore
      = .ok ownerVideosNewestFirst ∧
    (ownerVideosNewestFirst.length + 2 - 1) / 2 = 3 ∧
    getAllVideos (fragmentRegex latinFold) { sizeTwoQuery with page := some "1" } listingStore
      = .json 200 (pageOf listingStore.users ownerVideosNewestFirst 1 2)
          "Videos fetched successfully" ∧
    getAllVideos (fragmentRegex latinFold) { sizeTwoQuery with page := some "2" } listingStore
      = .json 200 (pageOf listingStore.users ownerVideosNewestFirst 2 2)
          "Videos fetched successfully" ∧
    getAllVideos (fragmentRegex latinFold) { sizeTwoQuery with page := some "3" } listingStore
      = .json 200 (pageOf listingStore.users ownerVideosNewestFirst 3 2)
          "Videos fetched successfully" ∧
    concatPages listingStore.users ownerVideosNewestFirst
        ((ownerVideosNewestFirst.length + 2 - 1) / 2) 2
      = joinOwner listingStore.users ownerVideosNewestFirst ∧
    (concatPages listingStore.users ownerVideosNewestFirst
        ((ownerVideosNewestFirst.length + 2 - 1) / 2) 2).map FeedEntry.video
      = ownerVideosNewestFirst :=
  have h := pages_concatenate (fragmentRegex latinFold) sizeTwoQuery listingStore
    ownerVideosNewestFirst 2 (by decide) (by decide) (by decide) (by rfl) (by decide)
  ⟨by decide, by rfl, by decide,
    h.1 "1" 1 (by decide) (by decide) (by decide),
    h.1 "2" 2 (by decide) (by decide) (by decide),
    h.1 "3" 3 (by decide) (by decide) (by decide), h.2.1,
    h.2.2 (by decide) (by decide)⟩

/-! ### The listings of subscriptions -/

theorem countP_filter_subscription (subs : List Doc) (a c : ObjectId) :
    (subs.filter (fun d => d.get "channel" == some c)).countP
        (fun d => d.get "subscriber" == some a)
      = subs.countP (isRelation .Subscription a c) := by
  rw [List.countP_filter]
  congr 1
  funext d
  simp only [isRelation, Bool.and_comm]

theorem countP_filter_subscriber (subs : List Doc) (a c : ObjectId) :
    (subs.filter (fun d => d.get "subscriber" == some a)).countP
        (fun d => d.get "channel" == some c)
      = subs.countP (isRelation .Subscription a c) := by
  rw [List.countP_filter]
  congr 1

/-- C25, counterexample.  User 7, the one user of the store, subscribes to the
well-formed id of user 8, who has no user record: `toggleSubscription` answers
200 and stores the relation.  The entry that `getSubscribedChannels` then
returns for the subscription carries no profile of the channel. -/
theorem subscription_without_profile :
    isValidObjectId absentUserId = true ∧
    (toggleSubscription ⟨false⟩ none otherUser absentUserId loneUserStore).2.2
      = .json 200 ⟨"subscribed", true⟩ "Subscribed successfully" ∧
    relationCount (toggleSubscription ⟨false⟩ none otherUser absentUserId loneUserStore).1
      .Subscription 7 8 = 1 ∧
    getSubscribedChannels otherUserId
        (toggleSubscription ⟨false⟩ none otherUser absentUserId loneUserStore).1
      = .json 200 [⟨1, none⟩] "Subscribed channels fetched successfully" ∧
    getUserChannelSubscribers absentUserId
        (toggleSubscription ⟨false⟩ none otherUser absentUserId loneUserStore).1
      = .json 200 [⟨1, some ⟨7, "Ravi Iyer", "ravi", "ravi.png"⟩⟩]
          "Subscribers fetched successfully" := by
  decide

/-- C25, amended: for a well-formed channel id `getUserChannelSubscribers` returns
one entry for each subscription whose channel is that id, in their order; the
entry carries the profile (`username`, `fullname`, `avatar`) of the user whose
`_id` is the subscriber when such a user is stored, and no profile when none
is.  `getSubscribedChannels` does the same for the subscriptions whose
subscriber is the given id, with the profile of the channel when a user with
the `_id` of the channel is stored.  For every subscriber, the subscriptions
listed for a channel are as many as the relations of that subscriber to the
channel. -/
theorem subscription_listings (channelId subscriberId : String) (s : Store)
    (hc : isValidObjectId channelId = true) (hu : isValidObjectId subscriberId = true) :
    getUserChannelSubscribers channelId s
      = .json 200
          ((s.subscriptions.filter (fun d =>
              d.get "channel" == some (hexToNat channelId.data))).map (fun d =>
            (⟨d.id, (s.users.find? (fun u => some u.id == d.get "subscriber")).map
              User.profile⟩ : SubscriberEntry)))
          "Subscribers fetched successfully" ∧
    getSubscribedChannels subscriberId s
      = .json 200
          ((s.subscriptions.filter (fun d =>
              d.get "subscriber" == some (hexToNat subscriberId.data))).map (fun d =>
            (⟨d.id, (s.users.find? (fun u => some u.id == d.get "channel")).map
              User.profile⟩ : SubscribedChannelEntry)))
          "Subscribed channels fetched successfully" ∧
    (∀ a, (s.subscriptions.filter (fun d =>
        d.get "channel" == some (hexToNat channelId.data))).countP
          (fun d => d.get "subscriber" == some a)
      = relationCount s .Subscription a (hexToNat channelId.data)) ∧
    (∀ c, (s.subscriptions.filter (fun d =>
        d.get "subscriber" == some (hexToNat subscriberId.data))).countP
          (fun d => d.get "channel" == some c)
      = relationCount s .Subscription (hexToNat subscriberId.data) c) := by
  have hhead : ∀ (p : User → Bool), ((s.users.filter p).map User.profile).head?
      = (s.users.find? p).map User.profile := by
    intro p
    rw [List.head?_map, head?_filter_eq_find?]
  refine ⟨?_, ?_, ?_, ?_⟩
  · simp only [getUserChannelSubscribers, hc, Bool.not_true, Bool.false_eq_true, ↓reduceIte,
      castObjectId, hhead]
  · simp only [getSubscribedChannels, hu, Bool.not_true, Bool.false_eq_true, ↓reduceIte,
      castObjectId, hhead]
  · intro a
    exact countP_filter_subscription s.subscriptions a _
  · intro c
    exact countP_filter_subscriber s.subscriptions _ c

/-- C25, witness of the amended claim: the subscribers of user 1 are users 7 and 8,
of whom user 7 has a record; user 7 subscribes to users 1 and 8, of whom user 1
has a record. -/
theorem subscription_listings_witness :
    isValidObjectId "000000000000000000000001" = true ∧ isValidObjectId otherUserId = true ∧
    getUserChannelSubscribers "000000000000000000000001" subscriptionStore
      = .json 200 [⟨1, some ⟨7, "Ravi Iyer", "ravi", "ravi.png"⟩⟩, ⟨2, none⟩]
          "Subscribers fetched successfully" ∧
    getSubscribedChannels otherUserId subscriptionStore
      = .json 200 [⟨1, some ⟨1, "Owner One", "owner", "owner.png"⟩⟩, ⟨3, none⟩]
          "Subscribed channels fetched successfully" ∧
    (subscriptionStore.subscriptions.filter (fun d =>
        d.get "channel" == some (hexToNat ("000000000000000000000001" : String).data))).countP
          (fun d => d.get "subscriber" == some 7)
      = relationCount subscriptionStore .Subscription 7
          (hexToNat ("000000000000000000000001" : String).data) :=
  have h := subscription_listings "000000000000000000000001" otherUserId subscriptionStore
    (by decide) (by decide)
  ⟨by decide, by decide, by decide, by decide, h.2.2.1 7⟩

/-! ### The like documents a toggle stores -/

/-- The document that `toggleCommentLike` stores when it creates a like names the
comment under `comment` and nothing else as a target. -/
theorem toggleCommentLike_stores (cfg : Config) (user : ObjectId) (commentId : String)
    (s : Store) (hv : isValidObjectId commentId = true)
    (hnone : Model.findOne cfg likesSchema
      [("comment", .str commentId), ("likedBy", .oid user)] s.likes = none) :
    (toggleCommentLike cfg user commentId s).1.likes
      = s.likes ++ [⟨freshId s.likes,
          [("comment", hexToNat commentId.data), ("likedBy", user)]⟩] := by
  rw [toggleCommentLike_store cfg user commentId s hv]
  simp only [toggleColl, hnone]
  rfl

/-- The document that `toggleTweetLike` stores when it creates a like names the
tweet under `tweet` and nothing else as a target. -/
theorem toggleTweetLike_stores (cfg : Config) (user : ObjectId) (tweetId : String)
    (s : Store) (hv : isValidObjectId tweetId = true)
    (hnone : Model.findOne cfg likesSchema
      [("tweet", .str tweetId), ("likedBy", .oid user)] s.likes = none) :
    (toggleTweetLike cfg user tweetId s).1.likes
      = s.likes ++ [⟨freshId s.likes, [("tweet", hexToNat tweetId.data), ("likedBy", user)]⟩] := by
  rw [toggleTweetLike_store cfg user tweetId s hv]
  simp only [toggleColl, hnone]
  rfl

/-- The document that `toggleVideoLike` stores when it creates a like holds the
user and names no target. -/
theorem toggleVideoLike_stores (cfg : Config) (user : ObjectId) (videoId : String)
    (s : Store) (hv : isValidObjectId videoId = true)
    (hnone : Model.findOne cfg likesSchema
      [("video", .str videoId), ("likedBy", .oid user)] s.likes = none) :
    (toggleVideoLike cfg user videoId s).1.likes
      = s.likes ++ [⟨freshId s.likes, [("likedBy", user)]⟩] := by
  rw [toggleVideoLike_store cfg user videoId s hv]
  simp only [toggleColl, hnone]
  rfl

/-- C26: the failing input of the stored reference.  On the empty ledger
`toggleVideoLike` for user 7 and the sample video stores a like that holds
`likedBy` only: neither `videos`, the path the schema declares, nor `video` is
assigned, under either setting of `strictQuery`.  `toggleCommentLike` and
`toggleTweetLike` store the id under `comment` and under `tweet`. -/
theorem video_like_without_reference :
    (toggleVideoLike ⟨false⟩ 7 sampleId Store.empty).1.likes = [⟨1, [("likedBy", 7)]⟩] ∧
    (toggleVideoLike ⟨true⟩ 7 sampleId Store.empty).1.likes = [⟨1, [("likedBy", 7)]⟩] ∧
    (toggleVideoLike ⟨false⟩ 7 sampleId Store.empty).1.likes.map
      (fun d => (d.get "videos", d.get "video", d.get "comment", d.get "tweet"))
      = [(none, none, none, none)] ∧
    hexToNat sampleId.data = 0x64b7f0c2a1b2c3d4e5f6a7b8 ∧
    (toggleCommentLike ⟨false⟩ 7 sampleId Store.empty).1.likes
      = [⟨1, [("comment", 0x64b7f0c2a1b2c3d4e5f6a7b8), ("likedBy", 7)]⟩] ∧
    (toggleTweetLike ⟨false⟩ 7 sampleId Store.empty).1.likes
      = [⟨1, [("tweet", 0x64b7f0c2a1b2c3d4e5f6a7b8), ("likedBy", 7)]⟩] := by
  decide

/-! ### Relations a toggle leaves alone -/

/-- Deleting a document by its `_id` leaves the count of every predicate the
document does not satisfy as it was, when the `_id`s are distinct. -/
theorem delete_countP_other (q : Doc → Bool) (e : Doc) (coll : List Doc)
    (hn : (coll.map Doc.id).Nodup) (he : e ∈ coll) (hq : q e = false) :
    (Model.findByIdAndDelete e.id coll).countP q = coll.countP q := by
  induction coll with
  | nil => cases he
  | cons x xs ih =>
    rw [List.map_cons, List.nodup_cons] at hn
    unfold Model.findByIdAndDelete at ih ⊢
    by_cases hx : x.id = e.id
    · have hxe : x = e := by
        rcases List.mem_cons.mp he with h | h
        · exact h.symm
        · exact absurd (hx ▸ List.mem_map_of_mem Doc.id h) hn.1
      subst hxe
      simp [List.eraseP_cons, hq]
    · have hmem : e ∈ xs := by
        rcases List.mem_cons.mp he with h | h
        · exact absurd (h ▸ rfl) hx
        · exact h
      have hb : (x.id == e.id) = false := by simpa using hx
      rw [List.eraseP_cons, hb]
      simp only [cond_false, List.countP_cons]
      rw [ih hn.2 hmem]

/-- A toggle of a collection leaves the count of a predicate as it was, when the
new document does not satisfy the predicate and no stored document satisfies
both the filter and the predicate. -/
theorem toggleColl_frame (cfg : Config) (sch : Schema) (obj : List (String × Value))
    (coll : List Doc) (q : Doc → Bool) (hn : (coll.map Doc.id).Nodup)
    (hnew : q ⟨freshId coll, sch.castDoc obj⟩ = false)
    (hdisj : ∀ d ∈ coll, matchesFilter cfg sch obj d = true → q d = false) :
    (toggleColl cfg sch obj coll).countP q = coll.countP q := by
  unfold toggleColl
  cases hf : Model.findOne cfg sch obj coll with
  | some e =>
    obtain ⟨he, hm⟩ := findOne_some cfg sch obj coll e hf
    exact delete_countP_other q e coll hn he (hdisj e he hm)
  | none =>
    simp [Model.create, List.countP_append, hnew]

theorem singleTarget_comment_tweet (d : Doc) (hs : d.singleTarget = true)
    (h1 : (d.get "comment").isSome = true) (h2 : (d.get "tweet").isSome = true) : False := by
  simp only [Doc.singleTarget, targetPaths, List.filter, h1, h2, decide_eq_true_eq] at hs
  revert hs
  generalize (d.get "video").isSome = bv
  generalize (d.get "videos").isSome = bvs
  cases bv <;> cases bvs <;> simp

theorem singleTarget_comment_video (d : Doc) (hs : d.singleTarget = true)
    (h1 : (d.get "comment").isSome = true)
    (h2 : (d.get "video").isSome = true ∨ (d.get "videos").isSome = true) : False := by
  simp only [Doc.singleTarget, targetPaths, List.filter, h1, decide_eq_true_eq] at hs
  revert hs h2
  generalize (d.get "video").isSome = bv
  generalize (d.get "videos").isSome = bvs
  generalize (d.get "tweet").isSome = bt
  cases bv <;> cases bvs <;> cases bt <;> simp

theorem singleTarget_tweet_video (d : Doc) (hs : d.singleTarget = true)
    (h1 : (d.get "tweet").isSome = true)
    (h2 : (d.get "video").isSome = true ∨ (d.get "videos").isSome = true) : False := by
  simp only [Doc.singleTarget, targetPaths, List.filter, h1, decide_eq_true_eq] at hs
  revert hs h2
  generalize (d.get "video").isSome = bv
  generalize (d.get "videos").isSome = bvs
  generalize (d.get "comment").isSome = bc
  cases bv <;> cases bvs <;> cases bc <;> simp

/-- A comment-like toggle leaves the relations of every other tuple as they were, in
a ledger with distinct `_id`s whose likes name one target each. -/
theorem toggleCommentLike_frame (cfg : Config) (user : ObjectId) (commentId : String)
    (s : Store) (k : Kind) (a t : ObjectId)
    (hv : isValidObjectId commentId = true) (hn : (s.likes.map Doc.id).Nodup)
    (hs : ∀ d ∈ s.likes, d.singleTarget = true)
    (hne : ¬ (k = .LikeComment ∧ a = user ∧ t = hexToNat commentId.data)) :
    relationCount (toggleCommentLike cfg user commentId s).1 k a t = relationCount s k a t := by
  rw [toggleCommentLike_store cfg user commentId s hv]
  cases hk : k with
  | Subscription => rfl
  | LikeVideo | LikeComment | LikeTweet =>
    subst hk
    simp only [relationCount, Store.ledger]
    refine toggleColl_frame cfg likesSchema _ s.likes _ hn ?_ ?_
    · cases hnew : isRelation _ a t
        ⟨freshId s.likes, likesSchema.castDoc
          [("comment", .str commentId), ("likedBy", .oid user)]⟩ with
      | false => rfl
      | true =>
        obtain ⟨h1, h2, h3⟩ := isRelation_comment_doc _ a t _ commentId user hnew
        exact absurd ⟨h1, h3, h2⟩ hne
    · intro d hd hm
      rw [matchesFilter_comment] at hm
      simp only [isRelation, Bool.and_eq_true, beq_iff_eq] at hm
      cases hrel : isRelation _ a t d with
      | false => rfl
      | true =>
        simp only [isRelation, Bool.and_eq_true, Bool.or_eq_true, beq_iff_eq] at hrel
        have hc : (d.get "comment").isSome = true := by rw [hm.1]; rfl
        first
        | exact absurd (singleTarget_comment_video d (hs d hd) hc
            (hrel.1.imp (fun h => by rw [h]; rfl) (fun h => by rw [h]; rfl))) id
        | exact absurd (singleTarget_comment_tweet d (hs d hd) hc (by rw [hrel.1]; rfl)) id
        | exact absurd ⟨rfl, Option.some.inj (hrel.2.symm.trans hm.2),
            Option.some.inj (hrel.1.symm.trans hm.1)⟩ hne

/-- A tweet-like toggle leaves the relations of every other tuple as they were, in a
ledger with distinct `_id`s whose likes name one target each. -/
theorem toggleTweetLike_frame (cfg : Config) (user : ObjectId) (tweetId : String)
    (s : Store) (k : Kind) (a t : ObjectId)
    (hv : isValidObjectId tweetId = true) (hn : (s.likes.map Doc.id).Nodup)
    (hs : ∀ d ∈ s.likes, d.singleTarget = true)
    (hne : ¬ (k = .LikeTweet ∧ a = user ∧ t = hexToNat tweetId.data)) :
    relationCount (toggleTweetLike cfg user tweetId s).1 k a t = relationCount s k a t := by
  rw [toggleTweetLike_store cfg user tweetId s hv]
  cases hk : k with
  | Subscription => rfl
  | LikeVideo | LikeComment | LikeTweet =>
    subst hk
    simp only [relationCount, Store.ledger]
    refine toggleColl_frame cfg likesSchema _ s.likes _ hn ?_ ?_
    · cases hnew : isRelation _ a t
        ⟨freshId s.likes, likesSchema.castDoc
          [("tweet", .str tweetId), ("likedBy", .oid user)]⟩ with
      | false => rfl
      | true =>
        obtain ⟨h1, h2, h3⟩ := isRelation_tweet_doc _ a t _ tweetId user hnew
        exact absurd ⟨h1, h3, h2⟩ hne
    · intro d hd hm
      rw [matchesFilter_tweet] at hm
      simp only [isRelation, Bool.and_eq_true, beq_iff_eq] at hm
      cases hrel : isRelation _ a t d with
      | false => rfl
      | true =>
        simp only [isRelation, Bool.and_eq_true, Bool.or_eq_true, beq_iff_eq] at hrel
        have hc : (d.get "tweet").isSome = true := by rw [hm.1]; rfl
        first
        | exact absurd (singleTarget_tweet_video d (hs d hd) hc
            (hrel.1.imp (fun h => by rw [h]; rfl) (fun h => by rw [h]; rfl))) id
        | exact absurd (singleTarget_comment_tweet d (hs d hd) (by rw [hrel.1]; rfl) hc) id
        | exact absurd ⟨rfl, Option.some.inj (hrel.2.symm.trans hm.2),
            Option.some.inj (hrel.1.symm.trans hm.1)⟩ hne

/-- A subscription toggle leaves the relations of every other tuple as they were, in
a ledger with distinct `_id`s. -/
theorem toggleSubscription_frame (cfg : Config) (io : Option Hub) (user : User)
    (channelId : String) (s : Store) (k : Kind) (a t : ObjectId)
    (hn : (s.subscriptions.map Doc.id).Nodup)
    (hne : ¬ (k = .Subscription ∧ a = user.id ∧ t = hexToNat channelId.data)) :
    relationCount (toggleSubscription cfg io user channelId s).1 k a t
      = relationCount s k a t := by
  cases hv : isValidObjectId channelId with
  | false => rw [toggleSubscription_invalid cfg io user channelId s hv]
  | true =>
    cases hself : (channelId == toHexString user.id) with
    | true => rw [toggleSubscription_store_rejected cfg io user channelId s (Or.inr hself)]
    | false =>
      rw [toggleSubscription_store cfg io user channelId s hv hself]
      cases hk : k with
      | LikeVideo | LikeComment | LikeTweet => rfl
      | Subscription =>
        subst hk
        simp only [relationCount, Store.ledger]
        refine toggleColl_frame cfg subscriptionSchema _ s.subscriptions _ hn ?_ ?_
        · cases hnew : isRelation .Subscription a t
            ⟨freshId s.subscriptions, subscriptionSchema.castDoc
              [("subscriber", .oid user.id), ("channel", .str channelId)]⟩ with
          | false => rfl
          | true =>
            obtain ⟨h1, h2, h3⟩ :=
              isRelation_subscription_doc _ a t _ channelId user.id hnew
            exact absurd ⟨h1, h3, h2⟩ hne
        · intro d _ hm
          rw [matchesFilter_subscription] at hm
          simp only [isRelation, Bool.and_eq_true, beq_iff_eq] at hm
          cases hrel : isRelation .Subscription a t d with
          | false => rfl
          | true =>
            simp only [isRelation, Bool.and_eq_true, beq_iff_eq] at hrel
            exact absurd ⟨rfl, Option.some.inj (hrel.2.symm.trans hm.2),
              Option.some.inj (hrel.1.symm.trans hm.1)⟩ hne

/-- With `strictQuery` off the query of `toggleVideoLike` matches no document. -/
theorem findOne_video_none (cfg : Config) (hoff : cfg.strictQuery = false) (user : ObjectId)
    (videoId : String) (coll : List Doc) :
    Model.findOne cfg likesSchema [("video", .str videoId), ("likedBy", .oid user)] coll
      = none := by
  unfold Model.findOne
  rw [List.find?_eq_none]
  intro d _
  have hpath : ("video" ∈ likesSchema.paths) = False := by decide
  simp [matchesFilter, matchesEntry, hpath, hoff]

/-- With `strictQuery` off a video-like toggle leaves the relations of every tuple
as they were, its own tuple included. -/
theorem toggleVideoLike_frame (cfg : Config) (hoff : cfg.strictQuery = false)
    (user : ObjectId) (videoId : String) (s : Store) (k : Kind) (a t : ObjectId) :
    relationCount (toggleVideoLike cfg user videoId s).1 k a t = relationCount s k a t := by
  cases hv : isValidObjectId videoId with
  | false => rw [toggleVideoLike_invalid cfg user videoId s hv]
  | true =>
    rw [toggleVideoLike_store cfg user videoId s hv]
    cases hk : k with
    | Subscription => rfl
    | LikeVideo | LikeComment | LikeTweet =>
      simp only [relationCount, Store.ledger, toggleColl,
        findOne_video_none cfg hoff user videoId s.likes, Model.create, List.countP_append,
        List.countP_cons, List.countP_nil, isRelation_video_doc, Bool.false_eq_true,
        ↓reduceIte, Nat.add_zero]

/-- With `strictQuery` on, as under the default of mongoose 6, the frame of the
video toggle breaks.  User 7 likes comment 5 and has no video like; the
undeclared path `video` is removed from the query of `toggleVideoLike`, which
then finds the comment like of the user and deletes it.  With `strictQuery`
off the comment like stays. -/
theorem video_toggle_removes_comment_like :
    hasRelation storeWithCommentLike .LikeComment 7 5 = true ∧
    relationCount storeWithCommentLike .LikeVideo 7 (hexToNat sampleId.data) = 0 ∧
    (toggleVideoLike ⟨true⟩ 7 sampleId storeWithCommentLike).2
      = .json 200 ⟨"isLiked", false⟩ "Removed like from video" ∧
    hasRelation (toggleVideoLike ⟨true⟩ 7 sampleId storeWithCommentLike).1 .LikeComment 7 5
      = false ∧
    hasRelation (toggleVideoLike ⟨false⟩ 7 sampleId storeWithCommentLike).1 .LikeComment 7 5
      = true := by
  decide

/-! ### The ledger that toggles build, and the relations a toggle leaves alone -/

theorem toggleColl_mem (cfg : Config) (sch : Schema) (obj : List (String × Value))
    (coll : List Doc) (d : Doc) (h : d ∈ toggleColl cfg sch obj coll) :
    d ∈ coll ∨ d = ⟨freshId coll, sch.castDoc obj⟩ := by
  unfold toggleColl at h
  cases hf : Model.findOne cfg sch obj coll with
  | some e =>
    rw [hf] at h
    exact Or.inl (List.mem_of_mem_eraseP h)
  | none =>
    rw [hf] at h
    simp only [Model.create, List.mem_append, List.mem_singleton] at h
    exact h

/-- A toggle call keeps the ledger well formed. -/
theorem run_wellFormed (cfg : Config) (c : ToggleCall) (s : Store) (h : WellFormedLedger s) :
    WellFormedLedger (c.run cfg s) := by
  obtain ⟨hl, hsub, hsingle⟩ := h
  cases c with
  | videoLike user videoId =>
    simp only [ToggleCall.run]
    cases hv : isValidObjectId videoId with
    | false => rw [toggleVideoLike_invalid cfg user videoId s hv]; exact ⟨hl, hsub, hsingle⟩
    | true =>
      rw [toggleVideoLike_store cfg user videoId s hv]
      refine ⟨toggleColl_ids_nodup cfg _ _ _ hl, hsub, ?_⟩
      intro d hd
      rcases toggleColl_mem cfg _ _ _ d hd with hm | hm
      · exact hsingle d hm
      · rw [hm]
        rfl
  | commentLike user commentId =>
    simp only [ToggleCall.run]
    cases hv : isValidObjectId commentId with
    | false => rw [toggleCommentLike_invalid cfg user commentId s hv]; exact ⟨hl, hsub, hsingle⟩
    | true =>
      rw [toggleCommentLike_store cfg user commentId s hv]
      refine ⟨toggleColl_ids_nodup cfg _ _ _ hl, hsub, ?_⟩
      intro d hd
      rcases toggleColl_mem cfg _ _ _ d hd with hm | hm
      · exact hsingle d hm
      · rw [hm]
        rfl
  | tweetLike user tweetId =>
    simp only [ToggleCall.run]
    cases hv : isValidObjectId tweetId with
    | false => rw [toggleTweetLike_invalid cfg user tweetId s hv]; exact ⟨hl, hsub, hsingle⟩
    | true =>
      rw [toggleTweetLike_store cfg user tweetId s hv]
      refine ⟨toggleColl_ids_nodup cfg _ _ _ hl, hsub, ?_⟩
      intro d hd
      rcases toggleColl_mem cfg _ _ _ d hd with hm | hm
      · exact hsingle d hm
      · rw [hm]
        rfl
  | subscription io user channelId =>
    simp only [ToggleCall.run]
    cases hv : isValidObjectId channelId with
    | false =>
      rw [toggleSubscription_invalid cfg io user channelId s hv]
      exact ⟨hl, hsub, hsingle⟩
    | true =>
      cases hs : (channelId == toHexString user.id) with
      | true =>
        rw [toggleSubscription_store_rejected cfg io user channelId s (Or.inr hs)]
        exact ⟨hl, hsub, hsingle⟩
      | false =>
        rw [toggleSubscription_store cfg io user channelId s hv hs]
        exact ⟨hl, toggleColl_ids_nodup cfg _ _ _ hsub, hsingle⟩

theorem runCalls_wellFormed (cfg : Config) (calls : List ToggleCall) (s : Store)
    (h : WellFormedLedger s) : WellFormedLedger (runCalls cfg calls s) := by
  induction calls generalizing s with
  | nil => exact h
  | cons c cs ih => exact ih (c.run cfg s) (run_wellFormed cfg c s h)

/-- Two stores that hold as many relations of a tuple hold one or none alike. -/
theorem hasRelation_congr (s₁ s₂ : Store) (k : Kind) (a t : ObjectId)
    (h : relationCount s₁ k a t = relationCount s₂ k a t) :
    hasRelation s₁ k a t = hasRelation s₂ k a t := by
  unfold relationCount at h
  unfold hasRelation
  rw [Bool.eq_iff_iff, List.any_eq_true, List.any_eq_true, ← List.countP_pos_iff,
    ← List.countP_pos_iff, h]

/-- C27: in a ledger built from the empty one by any sequence of toggle calls, a
toggle changes only the relation of its own tuple.  For every tuple of kind,
actor and target other than the one toggled, the ledger holds as many
relations after the call as before it, so that the relation is present after
the call exactly when it was present before: for `toggleCommentLike`,
`toggleTweetLike` and `toggleSubscription` under either setting of
`strictQuery`, and for `toggleVideoLike` with `strictQuery` off, the default of
the mongoose versions from 7 on, where the call leaves every tuple as it was.
A like of another kind on the same id value and every subscription are among
the tuples left alone. -/
theorem toggle_changes_only_its_tuple (cfg : Config) (calls : List ToggleCall)
    (base s : Store) (k : Kind) (a t : ObjectId)
    (hreach : s = runCalls cfg calls { base with likes := [], subscriptions := [] }) :
    (cfg.strictQuery = false → ∀ (user : ObjectId) (videoId : String),
      relationCount (toggleVideoLike cfg user videoId s).1 k a t = relationCount s k a t ∧
      hasRelation (toggleVideoLike cfg user videoId s).1 k a t = hasRelation s k a t) ∧
    (∀ (user : ObjectId) (commentId : String),
      ¬ (k = .LikeComment ∧ a = user ∧ t = hexToNat commentId.data) →
      relationCount (toggleCommentLike cfg user commentId s).1 k a t = relationCount s k a t ∧
      hasRelation (toggleCommentLike cfg user commentId s).1 k a t = hasRelation s k a t) ∧
    (∀ (user : ObjectId) (tweetId : String),
      ¬ (k = .LikeTweet ∧ a = user ∧ t = hexToNat tweetId.data) →
      relationCount (toggleTweetLike cfg user tweetId s).1 k a t = relationCount s k a t ∧
      hasRelation (toggleTweetLike cfg user tweetId s).1 k a t = hasRelation s k a t) ∧
    (∀ (io : Option Hub) (user : User) (channelId : String),
      ¬ (k = .Subscription ∧ a = user.id ∧ t = hexToNat channelId.data) →
      relationCount (toggleSubscription cfg io user channelId s).1 k a t
        = relationCount s k a t ∧
      hasRelation (toggleSubscription cfg io user channelId s).1 k a t
        = hasRelation s k a t) := by
  have hwf : WellFormedLedger s := by
    rw [hreach]
    refine runCalls_wellFormed cfg calls _ ⟨List.nodup_nil, List.nodup_nil, ?_⟩
    intro d hd
    cases hd
  obtain ⟨hl, hsub, hsingle⟩ := hwf
  refine ⟨?_, ?_, ?_, ?_⟩
  · intro hoff user videoId
    have hc := toggleVideoLike_frame cfg hoff user videoId s k a t
    exact ⟨hc, hasRelation_congr _ _ k a t hc⟩
  · intro user commentId hne
    have hc : relationCount (toggleCommentLike cfg user commentId s).1 k a t
        = relationCount s k a t := by
      cases hv : isValidObjectId commentId with
      | false => rw [toggleCommentLike_invalid cfg user commentId s hv]
      | true => exact toggleCommentLike_frame cfg user commentId s k a t hv hl hsingle hne
    exact ⟨hc, hasRelation_congr _ _ k a t hc⟩
  · intro user tweetId hne
    have hc : relationCount (toggleTweetLike cfg user tweetId s).1 k a t
        = relationCount s k a t := by
      cases hv : isValidObjectId tweetId with
      | false => rw [toggleTweetLike_invalid cfg user tweetId s hv]
      | true => exact toggleTweetLike_frame cfg user tweetId s k a t hv hl hsingle hne
    exact ⟨hc, hasRelation_congr _ _ k a t hc⟩
  · intro io user channelId hne
    have hc := toggleSubscription_frame cfg io user channelId s k a t hsub hne
    exact ⟨hc, hasRelation_congr _ _ k a t hc⟩

/-- C27, witness: user 7 likes the comment whose id is the sample id.  A video like
and a tweet like of user 7 on the same id value, and a subscription of user 7
to that id, leave the comment like in the ledger. -/
theorem toggle_changes_only_its_tuple_witness :
    hasRelation (runCalls ⟨false⟩ [.commentLike 7 sampleId] Store.empty) .LikeComment 7
      (hexToNat sampleId.data) = true ∧
    hasRelation (toggleVideoLike ⟨false⟩ 7 sampleId
        (runCalls ⟨false⟩ [.commentLike 7 sampleId] Store.empty)).1 .LikeComment 7
        (hexToNat sampleId.data)
      = hasRelation (runCalls ⟨false⟩ [.commentLike 7 sampleId] Store.empty) .LikeComment 7
        (hexToNat sampleId.data) ∧
    hasRelation (toggleTweetLike ⟨false⟩ 7 sampleId
        (runCalls ⟨false⟩ [.commentLike 7 sampleId] Store.empty)).1 .LikeComment 7
        (hexToNat sampleId.data)
      = hasRelation (runCalls ⟨false⟩ [.commentLike 7 sampleId] Store.empty) .LikeComment 7
        (hexToNat sampleId.data) ∧
    hasRelation (toggleSubscription ⟨false⟩ none otherUser sampleId
        (runCalls ⟨false⟩ [.commentLike 7 sampleId] Store.empty)).1 .LikeComment 7
        (hexToNat sampleId.data)
      = hasRelation (runCalls ⟨false⟩ [.commentLike 7 sampleId] Store.empty) .LikeComment 7
        (hexToNat sampleId.data) :=
  have h := toggle_changes_only_its_tuple ⟨false⟩ [.commentLike 7 sampleId] Store.empty
    (runCalls ⟨false⟩ [.commentLike 7 sampleId] Store.empty) .LikeComment 7
    (hexToNat sampleId.data) rfl
  ⟨by decide, (h.1 rfl 7 sampleId).2, (h.2.2.1 7 sampleId (by decide)).2,
    (h.2.2.2 none otherUser sampleId (by decide)).2⟩

end VidTube
